import Mathlib

/-!
Verification of the PSX research agent's financial-analysis pipeline.

This file shallowly embeds the pipeline's core components in Lean 4 and
proves (or refutes) the frozen specification claims about them:

* `PVal` models the Python/JSON value universe threaded through the
  pipeline state (`None`, booleans, numbers, strings, lists, dicts).
  Python numbers (int/float) are modelled as rationals `ℚ`: all the
  quantities under test are financial figures combined by `+ - * /`,
  `abs` and order comparisons, which the claims never push to the edge
  of binary floating point rounding.
* `FinancialMetricsValidator` embeds
  `financial/financial_metrics_validator.py`.  Python `TypeError`s from
  arithmetic on non-numeric operands are modelled with `Except PyErr`.
* `generate_model_key` embeds the three copies of the directory-key
  sanitizer (`financial/langgraph/state_manager.py`,
  `financial/repositories/file_result_repository.py`,
  `state_monitor.py`).
* `JSONParser.parse_response` embeds
  `financial/langgraph/json_parser.py`, together with an executable
  model `loads` of Python's `json.loads` restricted to the JSON
  fragment the pipeline produces and consumes (integer numerals; the
  float literal grammar is orthogonal to the fence/brace recovery
  logic under test).  `json.dumps` is modelled by `dumps` with the
  default compact separators and `ensure_ascii=True` escaping.
* The workflow steps (`extract_step.py`, `calculate_step.py`,
  `validate_step.py`, `analyze_step.py`, `format_step.py`,
  `base_step.py`) are embedded as state transformers
  `AnalysisState → AnalysisState × List Save`, where the `Save` log
  records the snapshots written through the State Store
  (`state_manager.py` performs file I/O; the embedding records the
  step name and state of every `save_state` call).  LLM calls are
  modelled by an oracle parameter returning either a parsed response
  plus token usage or a raised exception.
* `PromptManager` embeds `financial/langgraph/prompt_manager.py`,
  parametrised by the on-disk prompt file contents.
-/

/-! ## The Python/JSON value universe -/

mutual

/-- A Python value as it occurs in the pipeline's dict-shaped state:
`None`, `bool`, numbers (modelled as `ℚ`), `str`, `list`, `dict`. -/
inductive PVal where
  | vNone : PVal
  | vBool (b : Bool) : PVal
  | vNum (q : ℚ) : PVal
  | vStr (s : String) : PVal
  | vList (xs : PList) : PVal
  | vDict (kvs : PDict) : PVal
  deriving DecidableEq, Repr

/-- A Python list of `PVal`s. -/
inductive PList where
  | nil : PList
  | cons (v : PVal) (rest : PList) : PList
  deriving DecidableEq, Repr

/-- A Python dict with string keys in insertion order. -/
inductive PDict where
  | nil : PDict
  | cons (k : String) (v : PVal) (rest : PDict) : PDict
  deriving DecidableEq, Repr

end

namespace PDict

/-- `d.get(k)` returning `none` when the key is absent. -/
def get? : PDict → String → Option PVal
  | .nil, _ => none
  | .cons k v rest, key => if k = key then some v else get? rest key

/-- `d.get(k)`: Python returns `None` both for an absent key and for a
key explicitly bound to `None`. -/
def getD (d : PDict) (key : String) : PVal :=
  (d.get? key).getD .vNone

/-- `k in d`. -/
def contains (d : PDict) (key : String) : Bool :=
  (d.get? key).isSome

/-- `d[k] = v`: overwrite in place when the key exists (keeping its
position), append otherwise — Python dict assignment semantics. -/
def set : PDict → String → PVal → PDict
  | .nil, key, v => .cons key v .nil
  | .cons k v0 rest, key, v =>
      if k = key then .cons k v rest else .cons k v0 (set rest key v)

/-- Right fold over the entries. -/
def foldr {α : Type} (f : String → PVal → α → α) (init : α) : PDict → α
  | .nil => init
  | .cons k v rest => f k v (foldr f init rest)

/-- The keys in order. -/
def keys : PDict → List String
  | .nil => []
  | .cons k _ rest => k :: keys rest

/-- `{**a, **b}`: start from `a` and assign every entry of `b` in order. -/
def merge (a b : PDict) : PDict :=
  match b with
  | .nil => a
  | .cons k v rest => merge (a.set k v) rest

/-- Build a dict by repeated assignment from an association list. -/
def ofList (l : List (String × PVal)) : PDict :=
  l.foldl (fun d kv => d.set kv.1 kv.2) .nil

end PDict

namespace PVal

/-- Python truthiness: `None`, `False`, `0`, `""`, `[]`, `{}` are falsy. -/
def truthy : PVal → Bool
  | .vNone => false
  | .vBool b => b
  | .vNum q => q ≠ 0
  | .vStr s => s ≠ ""
  | .vList .nil => false
  | .vList _ => true
  | .vDict .nil => false
  | .vDict _ => true

/-- The numeric reading of a value; Python `bool` is an `int` subtype.
`none` marks the operands on which Python arithmetic raises `TypeError`. -/
def toNum? : PVal → Option ℚ
  | .vNum q => some q
  | .vBool b => some (if b then 1 else 0)
  | _ => none

end PVal

/-- A raised Python exception, by class name and message. -/
structure PyErr where
  name : String
  msg : String
  deriving DecidableEq, Repr

/-- The `TypeError` raised by arithmetic on non-numeric operands. -/
def typeError : PyErr :=
  { name := "TypeError", msg := "unsupported operand type(s)" }

/-! ## FinancialMetricsValidator
(`src/financial/financial_metrics_validator.py`) -/

/-- `ValidationError` dataclass: a single finding. -/
structure ValidationError where
  field : String
  message : String
  severity : String
  deriving DecidableEq, Repr

/-- The validator instance state: the two accumulated finding lists. -/
structure VState where
  errors : List ValidationError
  warnings : List ValidationError
  deriving DecidableEq, Repr

/-- Decimal rendering of the rationals interpolated into finding
messages (exact for the integral figures financial statements carry). -/
def qRepr (q : ℚ) : String :=
  if q.den = 1 then toString q.num else toString q.num ++ "/" ++ toString q.den

namespace FinancialMetricsValidator

/-- `CRITICAL_METRICS`. -/
def CRITICAL_METRICS : List String :=
  ["revenue", "net_income", "total_assets", "total_liabilities",
   "shareholders_equity", "operating_cash_flow", "free_cash_flow"]

/-- `validate_balance_sheet`: assets = liabilities + equity within 1 %
of total assets; missing operands are an error. -/
def validate_balance_sheet (s : VState) (data : PDict) :
    Except PyErr (VState × Bool) :=
  let total_assets := data.getD "total_assets"
  let total_liabilities := data.getD "total_liabilities"
  let shareholders_equity := data.getD "shareholders_equity"
  if total_assets = .vNone ∨ total_liabilities = .vNone ∨
      shareholders_equity = .vNone then
    .ok ({ s with errors := s.errors ++
      [⟨"balance_sheet", "Missing required balance sheet components",
        "error"⟩] }, false)
  else
    match total_assets.toNum?, total_liabilities.toNum?,
        shareholders_equity.toNum? with
    | some ta, some tl, some se =>
        let calculated_equity := ta - tl
        let difference := |se - calculated_equity|
        let tolerance := ta * (1 / 100)
        if difference > tolerance then
          .ok ({ s with errors := s.errors ++
            [⟨"balance_sheet",
              "Balance sheet does not balance. Assets (" ++ qRepr ta ++
              ") != Liabilities (" ++ qRepr tl ++ ") + Equity (" ++
              qRepr se ++ "). Difference: " ++ qRepr difference,
              "error"⟩] }, false)
        else
          .ok (s, true)
    | _, _, _ => .error typeError

/-- `validate_cash_flow_reconciliation`: beginning + net change =
ending, tolerance 1 % of `|beginning|` (or 1000 when beginning is 0);
missing operands are a warning only. -/
def validate_cash_flow_reconciliation (s : VState) (data : PDict) :
    Except PyErr (VState × Bool) :=
  let beginning_cash := data.getD "beginning_cash"
  let net_change_cash := data.getD "net_change_cash"
  let ending_cash := data.getD "ending_cash"
  if beginning_cash = .vNone ∨ net_change_cash = .vNone ∨
      ending_cash = .vNone then
    .ok ({ s with warnings := s.warnings ++
      [⟨"cash_flow", "Missing cash flow components for reconciliation",
        "warning"⟩] }, true)
  else
    match beginning_cash.toNum?, net_change_cash.toNum?,
        ending_cash.toNum? with
    | some b, some c, some e =>
        let calculated_ending := b + c
        let difference := |e - calculated_ending|
        let tolerance := if b ≠ 0 then |b| * (1 / 100) else 1000
        if difference > tolerance then
          .ok ({ s with errors := s.errors ++
            [⟨"cash_flow",
              "Cash flow does not reconcile. Beginning (" ++ qRepr b ++
              ") + Net Change (" ++ qRepr c ++ ") != Ending (" ++
              qRepr e ++ "). Difference: " ++ qRepr difference,
              "error"⟩] }, false)
        else
          .ok (s, true)
    | _, _, _ => .error typeError

/-- `validate_net_income_consistency`: income-statement vs cash-flow net
income; mismatches and missing operands are warnings only. -/
def validate_net_income_consistency (s : VState) (data : PDict) :
    Except PyErr (VState × Bool) :=
  let income_statement_ni := data.getD "net_income"
  let cash_flow_ni := data.getD "cash_flow_net_income"
  if income_statement_ni = .vNone ∨ cash_flow_ni = .vNone then
    .ok ({ s with warnings := s.warnings ++
      [⟨"net_income", "Missing net income from one or both statements",
        "warning"⟩] }, true)
  else
    match income_statement_ni.toNum?, cash_flow_ni.toNum? with
    | some ni, some cf =>
        let difference := |ni - cf|
        let tolerance := if ni ≠ 0 then |ni| * (1 / 100) else 1000
        if difference > tolerance then
          .ok ({ s with warnings := s.warnings ++
            [⟨"net_income",
              "Net Income mismatch: Income Statement (" ++ qRepr ni ++
              ") vs Cash Flow (" ++ qRepr cf ++ "). Difference: " ++
              qRepr difference, "warning"⟩] }, true)
        else
          .ok (s, true)
    | _, _ => .error typeError

/-- `validate_critical_metrics`: every critical metric present and
non-null, else a single error naming the missing ones. -/
def validate_critical_metrics (s : VState) (data : PDict) :
    Except PyErr (VState × Bool) :=
  let missing := CRITICAL_METRICS.filter fun m => data.getD m = .vNone
  if missing ≠ [] then
    .ok ({ s with errors := s.errors ++
      [⟨"critical_metrics",
        "Missing critical metrics: " ++ String.intercalate ", " missing,
        "error"⟩] }, false)
  else
    .ok (s, true)

/-- `validate_free_cash_flow_calculation`: FCF = operating CF − |capex|;
mismatches and missing operands are warnings only. -/
def validate_free_cash_flow_calculation (s : VState) (data : PDict) :
    Except PyErr (VState × Bool) :=
  let operating_cf := data.getD "operating_cash_flow"
  let capex := data.getD "capital_expenditures"
  let free_cash_flow := data.getD "free_cash_flow"
  if operating_cf = .vNone ∨ capex = .vNone ∨ free_cash_flow = .vNone then
    .ok ({ s with warnings := s.warnings ++
      [⟨"fcf", "Missing components for FCF validation", "warning"⟩] },
      true)
  else
    match operating_cf.toNum?, capex.toNum?, free_cash_flow.toNum? with
    | some ocf, some cx, some fcf =>
        let calculated_fcf := ocf - |cx|
        let difference := |fcf - calculated_fcf|
        let tolerance := if ocf ≠ 0 then |ocf| * (1 / 100) else 1000
        if difference > tolerance then
          .ok ({ s with warnings := s.warnings ++
            [⟨"fcf",
              "FCF calculation mismatch: Operating CF (" ++ qRepr ocf ++
              ") - CapEx (" ++ qRepr cx ++ ") != FCF (" ++ qRepr fcf ++
              "). Difference: " ++ qRepr difference, "warning"⟩] }, true)
        else
          .ok (s, true)
    | _, _, _ => .error typeError

/-- The dict `validate_all` returns. -/
structure VResult where
  is_valid : Bool
  errors : List (String × String)
  warnings : List (String × String)
  deriving DecidableEq, Repr

/-- `validate_all`: reset the accumulated findings, run the five checks
in order, and collect `{is_valid, errors, warnings}`.  The result pairs
the final instance state with the returned dict. -/
def validate_all (s : VState) (data : PDict) :
    Except PyErr (VState × VResult) := do
  let _ := s
  let s : VState := { errors := [], warnings := [] }
  let (s, _) ← validate_critical_metrics s data
  let (s, _) ← validate_balance_sheet s data
  let (s, _) ← validate_cash_flow_reconciliation s data
  let (s, _) ← validate_net_income_consistency s data
  let (s, _) ← validate_free_cash_flow_calculation s data
  .ok (s,
    { is_valid := s.errors.length = 0
      errors := s.errors.map fun e => (e.field, e.message)
      warnings := s.warnings.map fun w => (w.field, w.message) })

end FinancialMetricsValidator

/-! ### Validator claim support -/

namespace FinancialMetricsValidator

/-- Findings whose `field` is `cash_flow` — exactly the findings the
cash-flow reconciliation check produces. -/
def cashFieldP (e : ValidationError) : Bool := e.field = "cash_flow"

/-- Whether a `validate_all` result reports a cash-flow error. -/
def hasCashFlowError (r : VResult) : Bool :=
  r.errors.any fun p => p.1 = "cash_flow"

/-- Whether a `validate_all` result reports a cash-flow warning. -/
def hasCashFlowWarning (r : VResult) : Bool :=
  r.warnings.any fun p => p.1 = "cash_flow"

/-- Whether a `validate_all` run returned normally. -/
def allOk (x : Except PyErr (VState × VResult)) : Bool :=
  match x with
  | .ok _ => true
  | .error _ => false

/-- The reported cash-flow-error flag of a `validate_all` run. -/
def cashErrOf (x : Except PyErr (VState × VResult)) : Bool :=
  match x with
  | .ok (_, r) => hasCashFlowError r
  | .error _ => false

/-- The reported cash-flow-warning flag of a `validate_all` run. -/
def cashWarnOf (x : Except PyErr (VState × VResult)) : Bool :=
  match x with
  | .ok (_, r) => hasCashFlowWarning r
  | .error _ => false

theorem validate_critical_metrics_cash {s s' : VState} {b : Bool}
    {d : PDict} (h : validate_critical_metrics s d = .ok (s', b)) :
    s'.errors.any cashFieldP = s.errors.any cashFieldP ∧
      s'.warnings = s.warnings := by
  unfold validate_critical_metrics at h
  dsimp only at h
  repeat' split at h
  all_goals obtain ⟨rfl, rfl⟩ := h
  all_goals simp_all [cashFieldP]

theorem validate_balance_sheet_cash {s s' : VState} {b : Bool}
    {d : PDict} (h : validate_balance_sheet s d = .ok (s', b)) :
    s'.errors.any cashFieldP = s.errors.any cashFieldP ∧
      s'.warnings = s.warnings := by
  unfold validate_balance_sheet at h
  dsimp only at h
  repeat' split at h
  all_goals try exact Except.noConfusion h
  all_goals obtain ⟨rfl, rfl⟩ := h
  all_goals simp_all [cashFieldP]

theorem validate_net_income_consistency_cash {s s' : VState} {b : Bool}
    {d : PDict} (h : validate_net_income_consistency s d = .ok (s', b)) :
    s'.errors = s.errors ∧
      s'.warnings.any cashFieldP = s.warnings.any cashFieldP := by
  unfold validate_net_income_consistency at h
  dsimp only at h
  repeat' split at h
  all_goals try exact Except.noConfusion h
  all_goals obtain ⟨rfl, rfl⟩ := h
  all_goals simp_all [cashFieldP]

theorem validate_free_cash_flow_calculation_cash {s s' : VState}
    {b : Bool} {d : PDict}
    (h : validate_free_cash_flow_calculation s d = .ok (s', b)) :
    s'.errors = s.errors ∧
      s'.warnings.any cashFieldP = s.warnings.any cashFieldP := by
  unfold validate_free_cash_flow_calculation at h
  dsimp only at h
  repeat' split at h
  all_goals try exact Except.noConfusion h
  all_goals obtain ⟨rfl, rfl⟩ := h
  all_goals simp_all [cashFieldP]

theorem validate_cash_flow_reconciliation_num {s s' : VState} {b' : Bool}
    {d : PDict} {b c e : ℚ}
    (hb : d.getD "beginning_cash" = .vNum b)
    (hc : d.getD "net_change_cash" = .vNum c)
    (he : d.getD "ending_cash" = .vNum e)
    (h : validate_cash_flow_reconciliation s d = .ok (s', b')) :
    s'.errors.any cashFieldP =
      (s.errors.any cashFieldP ||
        decide (|e - (b + c)| > (if b ≠ 0 then |b| * (1 / 100) else 1000)))
      ∧ s'.warnings = s.warnings := by
  unfold validate_cash_flow_reconciliation at h
  dsimp only at h
  repeat' split at h
  all_goals try exact Except.noConfusion h
  all_goals obtain ⟨rfl, rfl⟩ := h
  all_goals simp_all [cashFieldP, PVal.toNum?]

theorem validate_cash_flow_reconciliation_missing {s s' : VState}
    {b' : Bool} {d : PDict}
    (hmiss : d.getD "beginning_cash" = .vNone ∨
      d.getD "net_change_cash" = .vNone ∨ d.getD "ending_cash" = .vNone)
    (h : validate_cash_flow_reconciliation s d = .ok (s', b')) :
    s'.errors = s.errors ∧
      s'.warnings.any cashFieldP = true := by
  unfold validate_cash_flow_reconciliation at h
  dsimp only at h
  repeat' split at h
  all_goals obtain ⟨rfl, rfl⟩ := h
  all_goals simp_all [cashFieldP]

/-- Mapping findings to `(field, message)` pairs preserves the
cash-flow membership test. -/
theorem any_map_field (l : List ValidationError) :
    ((l.map fun e => (e.field, e.message)).any fun p => p.1 = "cash_flow")
      = l.any cashFieldP := by
  induction l with
  | nil => rfl
  | cons x xs ih =>
      simp [cashFieldP] at ih ⊢
      rw [ih]

end FinancialMetricsValidator

open FinancialMetricsValidator in
/-- C1 (amended, code behaviour): when `validate_all` returns normally,
it reports a cash-flow reconciliation error iff the three operands are
present and `|ending − (beginning + net_change)|` exceeds
`1 % × |beginning|` when `beginning ≠ 0` and `1000` when
`beginning = 0` (the source's `if/else`, not the claimed
`max(1 % × |beginning|, 1000)`); when any operand is missing it adds a
cash-flow warning and no cash-flow error. -/
theorem validate_all_cash_flow_spec (data : PDict) (s₀ : VState)
    (hok : allOk (validate_all s₀ data) = true) :
    (∀ b c e : ℚ,
      data.getD "beginning_cash" = .vNum b →
      data.getD "net_change_cash" = .vNum c →
      data.getD "ending_cash" = .vNum e →
      (cashErrOf (validate_all s₀ data) = true ↔
        |e - (b + c)| > (if b ≠ 0 then |b| * (1 / 100) else 1000))) ∧
    ((data.getD "beginning_cash" = .vNone ∨
      data.getD "net_change_cash" = .vNone ∨
      data.getD "ending_cash" = .vNone) →
      cashErrOf (validate_all s₀ data) = false ∧
      cashWarnOf (validate_all s₀ data) = true) := by
  rcases hx : validate_all s₀ data with err | ⟨sf, r⟩
  · rw [hx] at hok
    simp [allOk] at hok
  have hx' := hx
  unfold validate_all at hx'
  simp only [bind, Except.bind] at hx'
  rcases h1 : validate_critical_metrics ⟨[], []⟩ data with e1 | ⟨s1, b1⟩ <;>
      rw [h1] at hx' <;> dsimp only at hx'
  · exact Except.noConfusion hx'
  rcases h2 : validate_balance_sheet s1 data with e2 | ⟨s2, b2⟩ <;>
      rw [h2] at hx' <;> dsimp only at hx'
  · exact Except.noConfusion hx'
  rcases h3 : validate_cash_flow_reconciliation s2 data with e3 | ⟨s3, b3⟩ <;>
      rw [h3] at hx' <;> dsimp only at hx'
  · exact Except.noConfusion hx'
  rcases h4 : validate_net_income_consistency s3 data with e4 | ⟨s4, b4⟩ <;>
      rw [h4] at hx' <;> dsimp only at hx'
  · exact Except.noConfusion hx'
  rcases h5 : validate_free_cash_flow_calculation s4 data with e5 | ⟨s5, b5⟩ <;>
      rw [h5] at hx' <;> dsimp only at hx'
  · exact Except.noConfusion hx'
  simp only [Except.ok.injEq, Prod.mk.injEq] at hx'
  obtain ⟨rfl, rfl⟩ := hx'
  obtain ⟨c1e, c1w⟩ := validate_critical_metrics_cash h1
  obtain ⟨c2e, c2w⟩ := validate_balance_sheet_cash h2
  obtain ⟨c4e, c4w⟩ := validate_net_income_consistency_cash h4
  obtain ⟨c5e, c5w⟩ := validate_free_cash_flow_calculation_cash h5
  constructor
  · intro b c e hb hc he
    obtain ⟨c3e, c3w⟩ := validate_cash_flow_reconciliation_num hb hc he h3
    simp only [cashErrOf, hasCashFlowError]
    rw [any_map_field]
    have hany : s5.errors.any cashFieldP =
        decide (|e - (b + c)| >
          (if b ≠ 0 then |b| * (1 / 100) else 1000)) := by
      rw [c5e, c4e, c3e, c2e, c1e]
      simp
    rw [hany]
    simp
  · intro hmiss
    obtain ⟨c3e, c3w⟩ := validate_cash_flow_reconciliation_missing hmiss h3
    simp only [cashErrOf, cashWarnOf, hasCashFlowError, hasCashFlowWarning]
    rw [any_map_field, any_map_field]
    constructor
    · rw [c5e, c4e, c3e, c2e, c1e]
      simp
    · rw [c5w, c4w, c3w]

/-- The concrete mapping refuting C1's claimed tolerance:
`beginning_cash = 100`, `net_change_cash = 0`, `ending_cash = 600`. -/
def cashCounterData : PDict :=
  .cons "beginning_cash" (.vNum 100)
    (.cons "net_change_cash" (.vNum 0)
      (.cons "ending_cash" (.vNum 600) .nil))

open FinancialMetricsValidator in
/-- On `cashCounterData` every check returns normally (no `TypeError`),
whatever state the validator instance is in. -/
theorem cashCounterData_checks_ok :
    ∃ s r, validate_all ⟨[], []⟩ cashCounterData = .ok (s, r) := by
  have k1 : ∀ s, ∃ s' b, validate_critical_metrics s cashCounterData
      = .ok (s', b) := by
    intro s
    simp [validate_critical_metrics, CRITICAL_METRICS, cashCounterData,
      PDict.getD, PDict.get?]
  have k2 : ∀ s, ∃ s' b, validate_balance_sheet s cashCounterData
      = .ok (s', b) := by
    intro s
    simp [validate_balance_sheet, cashCounterData, PDict.getD, PDict.get?]
  have k3 : ∀ s, ∃ s' b, validate_cash_flow_reconciliation s cashCounterData
      = .ok (s', b) := by
    intro s
    simp [validate_cash_flow_reconciliation, cashCounterData, PDict.getD,
      PDict.get?, PVal.toNum?]
    norm_num
  have k4 : ∀ s, ∃ s' b, validate_net_income_consistency s cashCounterData
      = .ok (s', b) := by
    intro s
    simp [validate_net_income_consistency, cashCounterData, PDict.getD,
      PDict.get?]
  have k5 : ∀ s, ∃ s' b, validate_free_cash_flow_calculation s
      cashCounterData = .ok (s', b) := by
    intro s
    simp [validate_free_cash_flow_calculation, cashCounterData, PDict.getD,
      PDict.get?]
  obtain ⟨s1, b1, e1⟩ := k1 ⟨[], []⟩
  obtain ⟨s2, b2, e2⟩ := k2 s1
  obtain ⟨s3, b3, e3⟩ := k3 s2
  obtain ⟨s4, b4, e4⟩ := k4 s3
  obtain ⟨s5, b5, e5⟩ := k5 s4
  refine ⟨s5,
    { is_valid := s5.errors.length = 0
      errors := s5.errors.map fun e => (e.field, e.message)
      warnings := s5.warnings.map fun e => (e.field, e.message) }, ?_⟩
  unfold validate_all
  simp only [bind, Except.bind]
  rw [e1]
  dsimp only
  rw [e2]
  dsimp only
  rw [e3]
  dsimp only
  rw [e4]
  dsimp only
  rw [e5]

open FinancialMetricsValidator in
/-- C1 (counterexample): with `beginning_cash = 100`,
`net_change_cash = 0`, `ending_cash = 600` the discrepancy 500 is
within the claimed tolerance `max(1 % × |beginning|, 1000) = 1000`,
yet `validate_all` reports a cash-flow reconciliation error — the
code's tolerance is `1 % × |beginning|` whenever `beginning ≠ 0`,
with no floor of 1000. -/
theorem validate_all_cash_flow_claim_counterexample :
    cashErrOf (validate_all ⟨[], []⟩ cashCounterData) = true ∧
    ¬(|(600 : ℚ) - (100 + 0)| > max (|(100 : ℚ)| * (1 / 100)) 1000) := by
  constructor
  · have hok : allOk (validate_all ⟨[], []⟩ cashCounterData) = true := by
      obtain ⟨s, r, h⟩ := cashCounterData_checks_ok
      rw [h]
      rfl
    refine ((validate_all_cash_flow_spec cashCounterData ⟨[], []⟩ hok).1
      100 0 600 ?_ ?_ ?_).mpr ?_
    · rfl
    · rfl
    · rfl
    · norm_num
  · norm_num

open FinancialMetricsValidator in
/-- Witness for `validate_all_cash_flow_spec` at `cashCounterData`. -/
theorem validate_all_cash_flow_spec_witness :
    allOk (validate_all ⟨[], []⟩ cashCounterData) = true ∧
    (cashErrOf (validate_all ⟨[], []⟩ cashCounterData) = true ↔
      |(600 : ℚ) - (100 + 0)| >
        (if (100 : ℚ) ≠ 0 then |(100 : ℚ)| * (1 / 100) else 1000)) := by
  have hok : allOk (validate_all ⟨[], []⟩ cashCounterData) = true := by
    obtain ⟨s, r, h⟩ := cashCounterData_checks_ok
    rw [h]
    rfl
  exact ⟨hok,
    (validate_all_cash_flow_spec cashCounterData ⟨[], []⟩ hok).1
      100 0 600 rfl rfl rfl⟩

open FinancialMetricsValidator in
/-- C10: `validate_all` resets the instance's accumulated `errors` and
`warnings` lists on entry, so its outcome — exception or
`(state, result)` pair alike — is a function of the data only and is
identical no matter what findings earlier calls on the shared validator
instance left behind. -/
theorem validate_all_ignores_prior_state (s₁ s₂ : VState) (d : PDict) :
    FinancialMetricsValidator.validate_all s₁ d =
      FinancialMetricsValidator.validate_all s₂ d := rfl

/-! ## Model-combination directory key
Three copies of `_generate_model_key` live in
`financial/langgraph/state_manager.py`,
`financial/repositories/file_result_repository.py` and
`state_monitor.py`; each is embedded verbatim below. -/

/-- Python `value or "default"`: `None` and the empty string are falsy. -/
def pyOrDefault (m : Option String) : String :=
  match m with
  | some s => if s = "" then "default" else s
  | none => "default"

/-- One character of `re.sub(r'[^a-zA-Z0-9_-]', '_', …)`. -/
def sanitizeChar (c : Char) : Char :=
  if ('a' ≤ c ∧ c ≤ 'z') ∨ ('A' ≤ c ∧ c ≤ 'Z') ∨ ('0' ≤ c ∧ c ≤ '9') ∨
      c = '_' ∨ c = '-' then c else '_'

/-- `re.sub(r'_+', '_', …)`: collapse runs of underscores. -/
def collapseUnderscores : List Char → List Char
  | [] => []
  | [c] => [c]
  | a :: b :: rest =>
      if a = '_' ∧ b = '_' then collapseUnderscores (b :: rest)
      else a :: collapseUnderscores (b :: rest)

/-- `str.strip('_')`. -/
def stripUnderscores (l : List Char) : List Char :=
  ((l.dropWhile (· = '_')).reverse.dropWhile (· = '_')).reverse

namespace StateManager

/-- `StateManager._generate_model_key`
(`financial/langgraph/state_manager.py`). -/
def generate_model_key (extraction_model analysis_model : Option String) :
    String :=
  let extraction := pyOrDefault extraction_model
  let analysis := pyOrDefault analysis_model
  let model_key := extraction ++ "_" ++ analysis
  let model_key :=
    String.mk (model_key.toList.map fun c => if c = '/' then '_' else c)
  let model_key := String.mk (model_key.toList.map sanitizeChar)
  let model_key := String.mk (collapseUnderscores model_key.toList)
  String.mk (stripUnderscores model_key.toList)

end StateManager

namespace FileResultRepository

/-- `FileResultRepository._generate_model_key`
(`financial/repositories/file_result_repository.py`). -/
def generate_model_key (extraction_model analysis_model : Option String) :
    String :=
  let extraction := pyOrDefault extraction_model
  let analysis := pyOrDefault analysis_model
  let model_key := extraction ++ "_" ++ analysis
  let model_key :=
    String.mk (model_key.toList.map fun c => if c = '/' then '_' else c)
  let model_key := String.mk (model_key.toList.map sanitizeChar)
  let model_key := String.mk (collapseUnderscores model_key.toList)
  String.mk (stripUnderscores model_key.toList)

end FileResultRepository

namespace StateMonitor

/-- Module-level `_generate_model_key` (`state_monitor.py`). -/
def generate_model_key (extraction_model analysis_model : Option String) :
    String :=
  let extraction := pyOrDefault extraction_model
  let analysis := pyOrDefault analysis_model
  let model_key := extraction ++ "_" ++ analysis
  let model_key :=
    String.mk (model_key.toList.map fun c => if c = '/' then '_' else c)
  let model_key := String.mk (model_key.toList.map sanitizeChar)
  let model_key := String.mk (collapseUnderscores model_key.toList)
  String.mk (stripUnderscores model_key.toList)

end StateMonitor

/-- C8: for every pair of `extraction_model`/`analysis_model` inputs
(including `None`), the Workflow State Store, the result cache
repository and the state reader compute the same model-combination
directory key: the three `_generate_model_key` functions are
extensionally equal. -/
theorem generate_model_key_agree (e a : Option String) :
    StateManager.generate_model_key e a =
      FileResultRepository.generate_model_key e a ∧
    FileResultRepository.generate_model_key e a =
      StateMonitor.generate_model_key e a :=
  ⟨rfl, rfl⟩

/-! ## PromptManager (`src/financial/langgraph/prompt_manager.py`)
The on-disk template files are modelled by the `base` parameter (the
cached file contents that `_get_system_prompt_base` /
`_get_analysis_prompt_base` return). -/

/-- Python `str(v)` as interpolated into f-strings.  Container
rendering is abbreviated: no claim inspects the text of interpolated
lists/dicts. -/
def pyStr (v : PVal) : String :=
  match v with
  | .vNone => "None"
  | .vBool b => if b then "True" else "False"
  | .vNum q => qRepr q
  | .vStr s => s
  | .vList _ => "[...]"
  | .vDict _ => "\x7b...\x7d"

namespace PromptManager

/-- `PromptManager._format_user_profile_context`. -/
def format_user_profile_context (user_profile : PDict) : String :=
  let context_parts := ["## User Profile Context"]
  let context_parts :=
    if (user_profile.getD "age").truthy then
      context_parts ++ ["- Age: " ++ pyStr (user_profile.getD "age")]
    else context_parts
  let context_parts :=
    if (user_profile.getD "risk_tolerance").truthy then
      context_parts ++
        ["- Risk Tolerance: " ++ pyStr (user_profile.getD "risk_tolerance")]
    else context_parts
  let context_parts :=
    if (user_profile.getD "investment_style").truthy then
      context_parts ++
        ["- Investment Style: " ++ pyStr (user_profile.getD "investment_style")]
    else context_parts
  let context_parts :=
    if (user_profile.getD "investment_horizon").truthy then
      context_parts ++
        ["- Investment Horizon: " ++
          pyStr (user_profile.getD "investment_horizon")]
    else context_parts
  let context_parts :=
    if (user_profile.getD "investment_goals").truthy then
      context_parts ++
        ["- Investment Goals: " ++ pyStr (user_profile.getD "investment_goals")]
    else context_parts
  if context_parts.length = 1 then ""
  else
    String.intercalate "\n" (context_parts ++
      ["\n**Note:** Tailor your analysis to align with the user's profile above."])

/-- `PromptManager.load_system_prompt` with the cached base prompt made
explicit. -/
def load_system_prompt (base : String) (user_profile : Option PDict) :
    String :=
  let isTruthy :=
    match user_profile with
    | some p => (PVal.vDict p).truthy
    | none => false
  if isTruthy then
    match user_profile with
    | some p => base ++ "\n\n" ++ format_user_profile_context p
    | none => base
  else base

/-- `PromptManager.load_analysis_prompt` with the cached base prompt
made explicit — same body as `load_system_prompt` over the analysis
template. -/
def load_analysis_prompt (base : String) (user_profile : Option PDict) :
    String :=
  let isTruthy :=
    match user_profile with
    | some p => (PVal.vDict p).truthy
    | none => false
  if isTruthy then
    match user_profile with
    | some p => base ++ "\n\n" ++ format_user_profile_context p
    | none => base
  else base

/-- The profile fields `_format_user_profile_context` recognises. -/
def recognizedFields : List String :=
  ["age", "risk_tolerance", "investment_style", "investment_horizon",
   "investment_goals"]

end PromptManager

/-- A non-empty profile with none of the recognized fields. -/
def strangerProfile : PDict := .cons "name" (.vStr "investor") .nil

/-- C9 (counterexample): on a non-empty profile with no recognized
field, `load_system_prompt` does not return exactly the base prompt —
it appends two newline characters (the `f"{base}\n\n{context}"` applied
to an empty context). -/
theorem load_system_prompt_no_fields_counterexample :
    PromptManager.load_system_prompt "BASE" (some strangerProfile) ≠ "BASE" ∧
    PromptManager.load_system_prompt "BASE" (some strangerProfile) =
      "BASE" ++ "\n\n" := by
  constructor
  · decide
  · decide

/-- C9 (amended): for every non-empty profile containing none of the
recognized fields, `load_system_prompt` and `load_analysis_prompt`
return the base prompt followed by exactly `"\n\n"` — the profile block
itself is omitted, but the two joining newlines are still appended. -/
theorem load_prompts_no_profile_fields (base : String) (p : PDict)
    (hne : p ≠ .nil)
    (hnone : ∀ f ∈ PromptManager.recognizedFields, p.contains f = false) :
    PromptManager.load_system_prompt base (some p) = base ++ "\n\n" ∧
    PromptManager.load_analysis_prompt base (some p) = base ++ "\n\n" := by
  have hctx : PromptManager.format_user_profile_context p = "" := by
    have ht : ∀ f ∈ PromptManager.recognizedFields,
        (p.getD f).truthy = false := by
      intro f hf
      have := hnone f hf
      unfold PDict.contains at this
      unfold PDict.getD
      rcases hg : p.get? f with _ | v
      · rfl
      · rw [hg] at this
        simp at this
    unfold PromptManager.format_user_profile_context
    rw [ht "age" (by simp [PromptManager.recognizedFields]),
      ht "risk_tolerance" (by simp [PromptManager.recognizedFields]),
      ht "investment_style" (by simp [PromptManager.recognizedFields]),
      ht "investment_horizon" (by simp [PromptManager.recognizedFields]),
      ht "investment_goals" (by simp [PromptManager.recognizedFields])]
    simp
  cases p with
  | nil => exact absurd rfl hne
  | cons k v rest =>
      constructor
      · unfold PromptManager.load_system_prompt
        dsimp only
        rw [hctx]
        simp [PVal.truthy]
      · unfold PromptManager.load_analysis_prompt
        dsimp only
        rw [hctx]
        simp [PVal.truthy]

/-- Witness for `load_prompts_no_profile_fields` at `strangerProfile`. -/
theorem load_prompts_no_profile_fields_witness :
    PromptManager.load_system_prompt "BASE" (some strangerProfile) =
      "BASE" ++ "\n\n" ∧
    PromptManager.load_analysis_prompt "BASE" (some strangerProfile) =
      "BASE" ++ "\n\n" :=
  load_prompts_no_profile_fields "BASE" strangerProfile (by decide)
    (by decide)

/-! ## JSON response parser (`src/financial/langgraph/json_parser.py`)

The parser is embedded over `List Char`.  Python string primitives
(`strip`, `find`, `rfind`, `splitlines`, slicing) are modelled below;
`json.loads`/`json.dumps` are modelled by `loadsPos`/`dumpsV` over a
JSON value type with integer numerals (the float literal grammar is
orthogonal to the recovery logic under test; Python would parse a float
where `loadsPos` stops, which no claim exercises). -/

/-- The whitespace characters `str.strip()` removes (ASCII range). -/
def pyWsChars : List Char := [' ', '\t', '\n', '\r', '\x0b', '\x0c']

/-- `s.lstrip()`. -/
def pyLstripL (l : List Char) : List Char :=
  l.dropWhile (· ∈ pyWsChars)

/-- `s.rstrip()`. -/
def pyRstripL (l : List Char) : List Char :=
  (l.reverse.dropWhile (· ∈ pyWsChars)).reverse

/-- `s.strip()`. -/
def pyStripL (l : List Char) : List Char :=
  pyRstripL (pyLstripL l)

/-- `s.rstrip(chars)`. -/
def pyRstripChars (cs : List Char) (l : List Char) : List Char :=
  (l.reverse.dropWhile (· ∈ cs)).reverse

/-- `s.find(sub)` as an option (index of the first occurrence). -/
def findSub (s pat : List Char) : Option Nat :=
  if pat.isPrefixOf s then some 0
  else
    match s with
    | [] => none
    | _ :: t => (findSub t pat).map (· + 1)

/-- `sub in s`. -/
def containsSub (s pat : List Char) : Bool :=
  (findSub s pat).isSome

/-- `s.find(sub, start)` restricted to the tail from `start`. -/
def findSubFrom (s pat : List Char) (start : Nat) : Option Nat :=
  (findSub (s.drop start) pat).map (· + start)

/-- `s.find(c)` with Python's `-1` for "not found". -/
def pyFindChar (s : List Char) (c : Char) : Int :=
  match s.findIdx? (· = c) with
  | some i => (i : Int)
  | none => -1

/-- `s.rfind(c)` with Python's `-1` for "not found". -/
def pyRfindChar (s : List Char) (c : Char) : Int :=
  match s.reverse.findIdx? (· = c) with
  | some i => ((s.length - 1 - i : Nat) : Int)
  | none => -1

/-- `s[a:b]` for `0 ≤ a ≤ b`. -/
def sliceL (l : List Char) (a b : Nat) : List Char :=
  (l.drop a).take (b - a)

/-- `s[a:]`. -/
def sliceFromL (l : List Char) (a : Nat) : List Char :=
  l.drop a

/-- The line-break characters `str.splitlines` recognises (with `\r\n`
as a single break, handled separately). -/
def isLineBreak (c : Char) : Bool :=
  c ∈ ['\n', '\r', '\x0b', '\x0c', '\x1c', '\x1d', '\x1e', '\x85',
    '\u2028', '\u2029']

/-- Worker for `splitlinesL`, accumulating the current line reversed. -/
def splitlinesGo : List Char → List Char → List (List Char)
  | [], cur => if cur = [] then [] else [cur.reverse]
  | '\r' :: '\n' :: rest, cur => cur.reverse :: splitlinesGo rest []
  | c :: rest, cur =>
      if isLineBreak c then cur.reverse :: splitlinesGo rest []
      else splitlinesGo rest (c :: cur)

/-- `s.splitlines()`. -/
def splitlinesL (l : List Char) : List (List Char) :=
  splitlinesGo l []

/-- `s.count(c)` for a single character. -/
def countChar (l : List Char) (c : Char) : Nat :=
  (l.filter (· = c)).length

/-! ### The JSON value type and `json.dumps` -/

mutual

/-- A JSON value as produced by `json.loads` (numerals restricted to
integers). -/
inductive JVal where
  | null : JVal
  | bool (b : Bool) : JVal
  | num (n : Int) : JVal
  | str (s : String) : JVal
  | arr (elems : JElems) : JVal
  | obj (mems : JMems) : JVal
  deriving DecidableEq, Repr

/-- The elements of a JSON array. -/
inductive JElems where
  | nil : JElems
  | cons (v : JVal) (rest : JElems) : JElems
  deriving DecidableEq, Repr

/-- The members of a JSON object, in insertion order. -/
inductive JMems where
  | nil : JMems
  | cons (k : String) (v : JVal) (rest : JMems) : JMems
  deriving DecidableEq, Repr

end

namespace JMems

/-- The value bound to a key, if any. -/
def lookup : JMems → String → Option JVal
  | .nil, _ => none
  | .cons k v rest, key => if k = key then some v else lookup rest key

/-- Whether a key is bound. -/
def hasKey (ms : JMems) (key : String) : Bool :=
  (ms.lookup key).isSome

/-- Remove the first binding of a key. -/
def erase : JMems → String → JMems
  | .nil, _ => .nil
  | .cons k v rest, key =>
      if k = key then rest else .cons k v (erase rest key)

/-- Prepend a member the way CPython's `dict(pairs)` resolves duplicate
keys: a later binding overwrites the value but keeps the earlier
position. -/
def prependUpd (k : String) (v : JVal) (ms : JMems) : JMems :=
  match ms.lookup k with
  | some v' => .cons k v' (ms.erase k)
  | none => .cons k v ms

end JMems

/-- Decimal digit character. -/
def digitChar (n : Nat) : Char :=
  Char.ofNat ('0'.toNat + n)

/-- The decimal digits of a natural number, most significant first. -/
def natDigits (n : Nat) : List Char :=
  if h : n < 10 then [digitChar n]
  else natDigits (n / 10) ++ [digitChar (n % 10)]
  termination_by n
  decreasing_by exact Nat.div_lt_self (by omega) (by omega)

/-- `json.dumps` of an integer (Python `repr` of an `int`). -/
def dumpsInt (n : Int) : List Char :=
  if n < 0 then '-' :: natDigits n.natAbs else natDigits n.natAbs

/-- Lower-case hexadecimal digit. -/
def hexDigit (n : Nat) : Char :=
  match n with
  | 0 => '0' | 1 => '1' | 2 => '2' | 3 => '3' | 4 => '4'
  | 5 => '5' | 6 => '6' | 7 => '7' | 8 => '8' | 9 => '9'
  | 10 => 'a' | 11 => 'b' | 12 => 'c' | 13 => 'd' | 14 => 'e'
  | _ => 'f'

/-- `\uXXXX` escape of a code unit below `0x10000`. -/
def uEsc (n : Nat) : List Char :=
  ['\\', 'u', hexDigit (n / 4096 % 16), hexDigit (n / 256 % 16),
    hexDigit (n / 16 % 16), hexDigit (n % 16)]

/-- `json.dumps` escaping of one character (`ensure_ascii=True`):
short escapes for `"`, `\` and the common controls, `\uXXXX` for other
controls and for every non-ASCII character, surrogate pairs beyond the
BMP. -/
def escChar (c : Char) : List Char :=
  if c = '"' then ['\\', '"']
  else if c = '\\' then ['\\', '\\']
  else if c = '\x08' then ['\\', 'b']
  else if c = '\x0c' then ['\\', 'f']
  else if c = '\n' then ['\\', 'n']
  else if c = '\r' then ['\\', 'r']
  else if c = '\t' then ['\\', 't']
  else if c.toNat < 0x20 then uEsc c.toNat
  else if c.toNat < 0x7f then [c]
  else if c.toNat < 0x10000 then uEsc c.toNat
  else
    uEsc (0xd800 + (c.toNat - 0x10000) / 0x400) ++
      uEsc (0xdc00 + (c.toNat - 0x10000) % 0x400)

/-- The escaped body of a dumped string. -/
def escList (s : List Char) : List Char :=
  match s with
  | [] => []
  | c :: rest => escChar c ++ escList rest

/-- `json.dumps` of a string literal. -/
def dumpsStr (s : String) : List Char :=
  '"' :: escList s.toList ++ ['"']

mutual

/-- `json.dumps` with the default separators `", "` and `": "`. -/
def dumpsV : JVal → List Char
  | .null => 'n' :: ['u', 'l', 'l']
  | .bool true => 't' :: ['r', 'u', 'e']
  | .bool false => 'f' :: 'a' :: ['l', 's', 'e']
  | .num n => dumpsInt n
  | .str s => dumpsStr s
  | .arr es => '[' :: dumpsElems es ++ [']']
  | .obj ms => '\x7b' :: dumpsMems ms ++ ['\x7d']

/-- Array elements joined by `", "`. -/
def dumpsElems : JElems → List Char
  | .nil => []
  | .cons v .nil => dumpsV v
  | .cons v rest => dumpsV v ++ ',' :: ' ' :: dumpsElems rest

/-- Object members `"key": value` joined by `", "`. -/
def dumpsMems : JMems → List Char
  | .nil => []
  | .cons k v .nil => dumpsStr k ++ ':' :: ' ' :: dumpsV v
  | .cons k v rest =>
      dumpsStr k ++ ':' :: ' ' :: dumpsV v ++ ',' :: ' ' :: dumpsMems rest

end

/-! ### `json.loads` (scanner) -/

/-- Hexadecimal digit value. -/
def hexVal? (c : Char) : Option Nat :=
  if '0' ≤ c ∧ c ≤ '9' then some (c.toNat - '0'.toNat)
  else if 'a' ≤ c ∧ c ≤ 'f' then some (c.toNat - 'a'.toNat + 10)
  else if 'A' ≤ c ∧ c ≤ 'F' then some (c.toNat - 'A'.toNat + 10)
  else none

/-- JSON inter-token whitespace. -/
def skipWsJ (l : List Char) : List Char :=
  l.dropWhile (fun c => c ∈ [' ', '\t', '\n', '\r'])

/-- The four hex digits of a `\uXXXX` escape. -/
def hex4? (h1 h2 h3 h4 : Char) : Option Nat :=
  match hexVal? h1, hexVal? h2, hexVal? h3, hexVal? h4 with
  | some a, some b, some c, some d =>
      some (a * 4096 + b * 256 + c * 16 + d)
  | _, _, _, _ => none

/-- Decode one escape sequence (the part after the backslash),
returning the decoded character and the rest of the input.  CPython
would keep a lone surrogate as an unpaired code unit in the `str`;
Lean characters cannot represent one, so lone surrogates are
rejected — unreachable from `dumps` output of representable data. -/
def scanEsc : List Char → Except (List Char) (Char × List Char)
  | [] => .error []
  | e :: t2 =>
    if e = '"' then .ok ('"', t2)
    else if e = '\\' then .ok ('\\', t2)
    else if e = '/' then .ok ('/', t2)
    else if e = 'b' then .ok ('\x08', t2)
    else if e = 'f' then .ok ('\x0c', t2)
    else if e = 'n' then .ok ('\n', t2)
    else if e = 'r' then .ok ('\r', t2)
    else if e = 't' then .ok ('\t', t2)
    else if e = 'u' then
      match t2 with
      | h1 :: h2 :: h3 :: h4 :: t3 =>
        (match hex4? h1 h2 h3 h4 with
         | some n =>
           if 55296 ≤ n ∧ n < 56320 then
             match t3 with
             | b1 :: b2 :: g1 :: g2 :: g3 :: g4 :: t4 =>
               if b1 = '\\' ∧ b2 = 'u' then
                 (match hex4? g1 g2 g3 g4 with
                  | some m =>
                    if 56320 ≤ m ∧ m < 57344 then
                      .ok (Char.ofNat
                        (65536 + (n - 55296) * 1024 + (m - 56320)), t4)
                    else .error t3
                  | none => .error t3)
               else .error t3
             | _ => .error t3
           else if 56320 ≤ n ∧ n < 57344 then .error (h1 :: h2 :: h3 :: h4 :: t3)
           else .ok (Char.ofNat n, t3)
         | none => .error (h1 :: h2 :: h3 :: h4 :: t3))
      | _ => .error t2
    else .error (e :: t2)

/-- Scan a JSON string body (after the opening quote) up to the
closing quote, decoding escapes.  `fuel` exceeds the characters
consumed, so the zero case is unreachable from `parseJStr`. -/
def parseJStrF : Nat → List Char → Except (List Char) (List Char × List Char)
  | 0, s => .error s
  | fuel + 1, s =>
    match s with
    | [] => .error []
    | c :: t =>
      if c = '"' then .ok ([], t)
      else if c = '\\' then
        match scanEsc t with
        | .ok (ch, t2) =>
            (parseJStrF fuel t2).map fun (s, r) => (ch :: s, r)
        | .error r => .error r
      else if c.toNat < 32 then .error (c :: t)
      else (parseJStrF fuel t).map fun (s, r) => (c :: s, r)

/-- String-body scanner with sufficient fuel. -/
def parseJStr (s : List Char) :
    Except (List Char) (List Char × List Char) :=
  parseJStrF (s.length + 1) s

/-- Match an exact literal, returning the rest. -/
def expectLit (lit t : List Char) : Option (List Char) :=
  if lit.isPrefixOf t then some (t.drop lit.length) else none

/-- Decimal digit test. -/
def isDigitC (c : Char) : Bool :=
  '0' ≤ c ∧ c ≤ '9'

/-- Value of a list of decimal digits. -/
def digitsVal (l : List Char) : Nat :=
  l.foldl (fun acc c => acc * 10 + (c.toNat - '0'.toNat)) 0

/-- Scan an unsigned JSON integer (`0|[1-9][0-9]*`): a leading `0` is a
complete numeral by itself, mirroring the scanner's regular
expression. -/
def parseUNum : List Char → Except (List Char) (Nat × List Char)
  | [] => .error []
  | c :: t =>
      if c = '0' then .ok (0, t)
      else if isDigitC c then
        .ok (digitsVal (c :: t.takeWhile isDigitC), t.dropWhile isDigitC)
      else .error (c :: t)

/-- Scan a JSON integer with optional sign. -/
def parseJNum (s : List Char) : Except (List Char) (Int × List Char) :=
  if s.head? = some '-' then
    match parseUNum s.tail with
    | .ok (n, r) => .ok (-(n : Int), r)
    | .error r => .error r
  else
    match parseUNum s with
    | .ok (n, r) => .ok ((n : Int), r)
    | .error r => .error r

mutual

/-- Scan one JSON value.  `fuel` bounds the recursion depth (mirroring
CPython's recursion limit); the top level supplies more fuel than any
input can consume. -/
def parseJVal : Nat → List Char → Except (List Char) (JVal × List Char)
  | 0, s => .error s
  | fuel + 1, s =>
    match s with
    | [] => .error []
    | c :: t =>
      if c = '\x7b' then
        let t1 := skipWsJ t
        if t1.head? = some '\x7d' then .ok (.obj .nil, t1.tail)
        else
          match parseJMems fuel t1 with
          | .ok (ms, r) => .ok (.obj ms, r)
          | .error r => .error r
      else if c = '[' then
        let t1 := skipWsJ t
        if t1.head? = some ']' then .ok (.arr .nil, t1.tail)
        else
          match parseJElems fuel t1 with
          | .ok (es, r) => .ok (.arr es, r)
          | .error r => .error r
      else if c = '"' then
        match parseJStr t with
        | .ok (cs, r) => .ok (.str (String.mk cs), r)
        | .error r => .error r
      else if c = 't' then
        match expectLit ['r', 'u', 'e'] t with
        | some r => .ok (.bool true, r)
        | none => .error (c :: t)
      else if c = 'f' then
        match expectLit ['a', 'l', 's', 'e'] t with
        | some r => .ok (.bool false, r)
        | none => .error (c :: t)
      else if c = 'n' then
        match expectLit ['u', 'l', 'l'] t with
        | some r => .ok (.null, r)
        | none => .error (c :: t)
      else
        match parseJNum (c :: t) with
        | .ok (n, r) => .ok (.num n, r)
        | .error r => .error r

/-- Scan the members of an object from the first key (whitespace
already skipped) through the closing brace. -/
def parseJMems : Nat → List Char → Except (List Char) (JMems × List Char)
  | 0, s => .error s
  | fuel + 1, s =>
    if s.head? = some '"' then
      match parseJStr s.tail with
      | .error r => .error r
      | .ok (k, r1) =>
        let r2 := skipWsJ r1
        if r2.head? = some ':' then
          match parseJVal fuel (skipWsJ r2.tail) with
          | .error r => .error r
          | .ok (v, r3) =>
            let r4 := skipWsJ r3
            if r4.head? = some ',' then
              match parseJMems fuel (skipWsJ r4.tail) with
              | .ok (ms, r5) =>
                  .ok (JMems.prependUpd (String.mk k) v ms, r5)
              | .error r => .error r
            else if r4.head? = some '\x7d' then
              .ok (.cons (String.mk k) v .nil, r4.tail)
            else .error r4
        else .error r2
    else .error s

/-- Scan the elements of an array from the first element (whitespace
already skipped) through the closing bracket. -/
def parseJElems : Nat → List Char → Except (List Char) (JElems × List Char)
  | 0, s => .error s
  | fuel + 1, s =>
    match parseJVal fuel s with
    | .error r => .error r
    | .ok (v, r1) =>
      let r2 := skipWsJ r1
      if r2.head? = some ',' then
        match parseJElems fuel (skipWsJ r2.tail) with
        | .ok (es, r3) => .ok (.cons v es, r3)
        | .error r => .error r
      else if r2.head? = some ']' then .ok (.cons v .nil, r2.tail)
      else .error r2

end

/-- `json.loads` over a character list: an error is the byte offset at
which scanning failed (the `pos` of the raised `JSONDecodeError`). -/
def loadsPos (s : List Char) : Except Nat JVal :=
  match parseJVal (2 * s.length + 2) (skipWsJ s) with
  | .error suf => .error (s.length - suf.length)
  | .ok (v, rest) =>
    match skipWsJ rest with
    | [] => .ok v
    | suf => .error (s.length - suf.length)

/-! ### `JSONParser.parse_response` -/

/-- The failure modes of `parse_response`, by diagnosis:
`emptyResponse` and `noJsonFound` are the generic `ValueError`s,
`truncatedNoBrace` (step 2) and `truncatedNearEnd` (step 4) are the
truncation diagnoses, `decodeFailed` is the final re-raised
`JSONDecodeError` after all recovery attempts. -/
inductive ParseErr where
  | emptyResponse : ParseErr
  | truncatedNoBrace : ParseErr
  | noJsonFound : ParseErr
  | truncatedNearEnd (pos len : Nat) : ParseErr
  | decodeFailed (pos : Nat) : ParseErr
  deriving DecidableEq, Repr

/-- `"```json"`. -/
def fenceJson : List Char := ['`', '`', '`', 'j', 's', 'o', 'n']

/-- `"```"`. -/
def fence3 : List Char := ['`', '`', '`']

/-- Step 1: remove a single markdown code fence if present
(`json_parser.py` lines 31–41). -/
def fenceStrip (response_clean : List Char) : List Char :=
  if containsSub response_clean fenceJson then
    let start := (findSub response_clean fenceJson).getD 0 + 7
    match findSubFrom response_clean fence3 start with
    | some e =>
        if e > start then pyStripL (sliceL response_clean start e)
        else response_clean
    | none => response_clean
  else if containsSub response_clean fence3 then
    let start := (findSub response_clean fence3).getD 0 + 3
    match findSubFrom response_clean fence3 start with
    | some e =>
        if e > start then pyStripL (sliceL response_clean start e)
        else response_clean
    | none => response_clean
  else response_clean

/-- Step 5 scanning loop (`json_parser.py` lines 110–132): find a
structurally balanced block by counting braces line by line; an inline
`json.loads` may return early from inside the loop. -/
def step5Go : List (List Char) → Bool → List (List Char) → Int →
    Sum JVal (List (List Char))
  | [], _, json_lines, _ => .inr json_lines
  | line :: rest, false, json_lines, brace_count =>
    let stripped := pyStripL line
    if pyFindChar stripped '\x7b' ≥ 0 then
      let brace_pos := (pyFindChar stripped '\x7b').toNat
      let block := sliceFromL stripped brace_pos
      let jl := [block]
      let bc : Int := (countChar block '\x7b' : Int) -
        (countChar block '\x7d' : Int)
      if bc ≤ 0 then
        match loadsPos block with
        | .ok v => .inl v
        | .error _ => step5Go rest true jl bc
      else step5Go rest true jl bc
    else step5Go rest false json_lines brace_count
  | line :: rest, true, json_lines, brace_count =>
    let jl := json_lines ++ [line]
    let bc := brace_count + (countChar line '\x7b' : Int) -
      (countChar line '\x7d' : Int)
    if bc ≤ 0 then .inr jl
    else step5Go rest true jl bc

/-- Step 5 re-parse (`json_parser.py` lines 109–150): the loop above,
then a direct parse of the collected block, then a final
trim-to-braces parse; `pos` is the original step-4 error offset
carried into the final `JSONDecodeError`. -/
def step5 (original_response : List Char) (pos : Nat) :
    Except ParseErr JVal :=
  let lines := original_response.splitOn '\n'
  match step5Go lines false [] 0 with
  | .inl v => .ok v
  | .inr json_lines =>
    if json_lines ≠ [] then
      let first_line := json_lines.headD []
      let json_lines :=
        if ['\x7b'].isPrefixOf (pyStripL first_line) then
          sliceFromL first_line (pyFindChar first_line '\x7b').toNat ::
            json_lines.tail
        else json_lines
      let response_clean := (json_lines.intersperse ['\n']).flatten
      match loadsPos response_clean with
      | .ok v => .ok v
      | .error _ =>
        let start := pyFindChar response_clean '\x7b'
        let stop := pyRfindChar response_clean '\x7d'
        if start ≥ 0 ∧ stop > start then
          match loadsPos (sliceL response_clean start.toNat
              (stop.toNat + 1)) with
          | .ok v => .ok v
          | .error _ => .error (.decodeFailed pos)
        else .error (.decodeFailed pos)
    else .error (.decodeFailed pos)

namespace JSONParser

/-- `JSONParser.parse_response` (`json_parser.py`). -/
def parse_response (response : String) : Except ParseErr JVal :=
  let rl := response.toList
  if pyStripL rl = [] then .error .emptyResponse
  else
    let original_response := rl
    let response_clean := fenceStrip (pyStripL rl)
    let start_idx := pyFindChar response_clean '\x7b'
    let end_idx := pyRfindChar response_clean '\x7d'
    if start_idx ≥ 0 ∧ end_idx ≤ start_idx ∧
        pyRfindChar response_clean ':' > pyRfindChar response_clean ',' ∧
        pyRfindChar response_clean ':' > start_idx then
      .error .truncatedNoBrace
    else if start_idx < 0 ∨ end_idx ≤ start_idx then
      let candidate := (splitlinesL response_clean).filterMap fun line =>
        let stripped := pyStripL line
        if stripped = [] then none
        else if ['-', ' '].isPrefixOf stripped then
          some (pyStripL (stripped.drop 2))
        else some stripped
      if candidate ≠ [] then
        let candidate_text := (candidate.intersperse ['\n']).flatten
        let candidate_text :=
          if ['\x7b'].isPrefixOf candidate_text then candidate_text
          else '\x7b' :: '\n' :: candidate_text
        let candidate_text :=
          if (pyRstripL candidate_text).getLast? = some '\x7d' then
            candidate_text
          else pyRstripChars [','] (pyRstripL candidate_text) ++
            ['\n', '\x7d']
        match loadsPos candidate_text with
        | .ok v => .ok v
        | .error _ => .error .noJsonFound
      else .error .noJsonFound
    else
      let response_clean := sliceL response_clean start_idx.toNat
        (end_idx.toNat + 1)
      let response_clean :=
        if response_clean.head? = some '\n' ∨
            response_clean.head? = some '\r' ∨
            response_clean.head? = some ' ' then
          if pyFindChar response_clean '\x7b' > 0 then
            sliceFromL response_clean (pyFindChar response_clean '\x7b').toNat
          else response_clean
        else response_clean
      let response_clean := pyRstripL response_clean
      match loadsPos response_clean with
      | .ok v => .ok v
      | .error pos =>
        if pos + 10 ≥ response_clean.length then
          .error (.truncatedNearEnd pos response_clean.length)
        else step5 original_response pos

end JSONParser

/-- The truncated response of C6: `'{"a": 1, "b": "unterminated'`. -/
def truncatedInput : String := "\x7b\"a\": 1, \"b\": \"unterminated"

/-- C6: `parse_response` on `'{"a": 1, "b": "unterminated'` fails with
the truncation diagnosis (not a generic parse failure), and in general
the step-2 truncation check fires whenever the fence-stripped text
contains an opening brace with no closing brace after it and its last
`:` lies after both the last `,` and that opening brace. -/
theorem parse_response_truncation_detection :
    JSONParser.parse_response truncatedInput =
      .error .truncatedNoBrace ∧
    (∀ s : String,
      pyStripL s.toList ≠ [] →
      pyFindChar (fenceStrip (pyStripL s.toList)) '\x7b' ≥ 0 →
      pyRfindChar (fenceStrip (pyStripL s.toList)) '\x7d' ≤
        pyFindChar (fenceStrip (pyStripL s.toList)) '\x7b' →
      pyRfindChar (fenceStrip (pyStripL s.toList)) ':' >
        pyRfindChar (fenceStrip (pyStripL s.toList)) ',' →
      pyRfindChar (fenceStrip (pyStripL s.toList)) ':' >
        pyFindChar (fenceStrip (pyStripL s.toList)) '\x7b' →
      JSONParser.parse_response s = .error .truncatedNoBrace) := by
  constructor
  · rfl
  · intro s hne h1 h2 h3 h4
    unfold JSONParser.parse_response
    dsimp only
    rw [if_neg hne, if_pos ⟨h1, h2, h3, h4⟩]

/-- Witness for the conditional part of
`parse_response_truncation_detection`, applied at the concrete
truncated input. -/
theorem parse_response_truncation_detection_witness :
    JSONParser.parse_response "notjson: \x7b\"k\": 2" =
      .error .truncatedNoBrace :=
  parse_response_truncation_detection.2 "notjson: \x7b\"k\": 2"
    (by decide) (by decide) (by decide) (by decide) (by decide)

/-! ### Round-trip: `loads (dumps v) = v`
Supporting development for C5. -/

mutual

/-- Well-formedness: every object in the value has pairwise-distinct
keys — the invariant Python dicts guarantee for `json.dumps` input. -/
def JVal.wfB : JVal → Bool
  | .null => true
  | .bool _ => true
  | .num _ => true
  | .str _ => true
  | .arr es => es.wfB
  | .obj ms => ms.wfB

/-- Well-formedness of array elements. -/
def JElems.wfB : JElems → Bool
  | .nil => true
  | .cons v rest => v.wfB && rest.wfB

/-- Well-formedness of object members: the head key is not repeated and
everything below is well-formed. -/
def JMems.wfB : JMems → Bool
  | .nil => true
  | .cons k v rest => !rest.hasKey k && v.wfB && rest.wfB

end

theorem prependUpd_of_not_hasKey {ms : JMems} {k : String} {v : JVal}
    (h : ms.hasKey k = false) : JMems.prependUpd k v ms = .cons k v ms := by
  unfold JMems.prependUpd
  unfold JMems.hasKey at h
  rcases hl : ms.lookup k with _ | v'
  · rfl
  · rw [hl] at h
    simp at h

theorem isDigitC_digitChar {d : Nat} (h : d < 10) :
    isDigitC (digitChar d) = true := by
  interval_cases d <;> decide

theorem digitChar_toNat {d : Nat} (h : d < 10) :
    (digitChar d).toNat - 48 = d := by
  interval_cases d <;> decide

theorem digitChar_ne_zero {d : Nat} (h0 : d ≠ 0) (h : d < 10) :
    digitChar d ≠ '0' := by
  interval_cases d <;> simp_all <;> decide

theorem natDigits_all_digits (n : Nat) :
    ∀ c ∈ natDigits n, isDigitC c = true := by
  induction n using Nat.strong_induction_on with
  | _ n ih =>
    unfold natDigits
    split
    · intro c hc
      rw [List.mem_singleton] at hc
      subst hc
      exact isDigitC_digitChar (by omega)
    · intro c hc
      rw [List.mem_append] at hc
      rcases hc with hc | hc
      · exact ih (n / 10) (Nat.div_lt_self (by omega) (by omega)) c hc
      · rw [List.mem_singleton] at hc
        subst hc
        exact isDigitC_digitChar (Nat.mod_lt _ (by omega))

theorem natDigits_ne_nil (n : Nat) : natDigits n ≠ [] := by
  unfold natDigits
  split
  · simp
  · simp

theorem digitsVal_append_digit (xs : List Char) (c : Char) :
    digitsVal (xs ++ [c]) = digitsVal xs * 10 + (c.toNat - '0'.toNat) := by
  unfold digitsVal
  rw [List.foldl_append]
  rfl

theorem digitsVal_natDigits (n : Nat) : digitsVal (natDigits n) = n := by
  induction n using Nat.strong_induction_on with
  | _ n ih =>
    unfold natDigits
    split
    · rename_i h
      show digitsVal [digitChar n] = n
      unfold digitsVal
      simp [digitChar_toNat h]
    · rename_i h
      rw [digitsVal_append_digit,
        ih (n / 10) (Nat.div_lt_self (by omega) (by omega))]
      simp only [show '0'.toNat = 48 from rfl]
      rw [digitChar_toNat (Nat.mod_lt _ (by omega))]
      omega

theorem natDigits_head_ne_zero {n : Nat} (hn : n ≠ 0) :
    ∀ c, (natDigits n).head? = some c → c ≠ '0' := by
  induction n using Nat.strong_induction_on with
  | _ n ih =>
    intro c hc
    unfold natDigits at hc
    split at hc
    · simp at hc
      subst hc
      exact digitChar_ne_zero hn (by omega)
    · rename_i h
      rcases he : natDigits (n / 10) with _ | ⟨d, t⟩
      · exact absurd he (natDigits_ne_nil _)
      · rw [he, List.cons_append, List.head?_cons] at hc
        have hdc : d = c := by simpa using hc
        subst hdc
        exact ih (n / 10) (Nat.div_lt_self (by omega) (by omega))
          (by omega) d (by rw [he]; rfl)

theorem takeWhile_append_all {p : Char → Bool} {xs rest : List Char}
    (hall : ∀ c ∈ xs, p c = true)
    (hrest : ∀ c, rest.head? = some c → p c = false) :
    (xs ++ rest).takeWhile p = xs ∧ (xs ++ rest).dropWhile p = rest := by
  induction xs with
  | nil =>
    simp only [List.nil_append]
    cases rest with
    | nil => simp
    | cons r rs =>
      have := hrest r rfl
      simp [List.takeWhile_cons, List.dropWhile_cons, this]
  | cons x xs ih =>
    have hx := hall x (by simp)
    have ih' := ih (fun c hc => hall c (by simp [hc]))
    simp [List.takeWhile_cons, List.dropWhile_cons, hx, ih'.1, ih'.2]

theorem parseUNum_natDigits (n : Nat) (rest : List Char)
    (hrest : ∀ c, rest.head? = some c → isDigitC c = false) :
    parseUNum (natDigits n ++ rest) = .ok (n, rest) := by
  rcases Nat.eq_zero_or_pos n with rfl | hn
  · have h0 : natDigits 0 = ['0'] := by
      unfold natDigits
      rfl
    rw [h0]
    unfold parseUNum
    simp
  · rcases he : natDigits n with _ | ⟨c, t⟩
    · exact absurd he (natDigits_ne_nil _)
    · have hc0 : c ≠ '0' :=
        natDigits_head_ne_zero (n := n) (by omega) c (by rw [he]; rfl)
      have hcd : isDigitC c = true :=
        natDigits_all_digits n c (by rw [he]; simp)
      have hall : ∀ d ∈ t, isDigitC d = true := by
        intro d hd
        exact natDigits_all_digits n d (by rw [he]; simp [hd])
      have hsplit := takeWhile_append_all (p := isDigitC) hall hrest
      rw [List.cons_append]
      unfold parseUNum
      dsimp only
      rw [if_neg hc0, if_pos hcd, hsplit.1, hsplit.2]
      have hv : digitsVal (c :: t) = n := by
        rw [← he]
        exact digitsVal_natDigits n
      rw [hv]

theorem dumpsInt_head_not_digitish (n : Int) :
    ∀ c, (dumpsInt n).head? = some c →
      isDigitC c = true ∨ c = '-' := by
  intro c hc
  unfold dumpsInt at hc
  split at hc
  · simp at hc
    right
    exact hc.symm
  · rcases he : natDigits n.natAbs with _ | ⟨d, t⟩
    · exact absurd he (natDigits_ne_nil _)
    · rw [he] at hc
      simp at hc
      subst hc
      left
      exact natDigits_all_digits _ d (by rw [he]; simp)

theorem parseJNum_dumpsInt (n : Int) (rest : List Char)
    (hrest : ∀ c, rest.head? = some c → isDigitC c = false) :
    parseJNum (dumpsInt n ++ rest) = .ok (n, rest) := by
  unfold dumpsInt
  split
  · rename_i hneg
    unfold parseJNum
    rw [List.cons_append]
    simp only [List.head?_cons, List.tail_cons]
    rw [if_pos trivial, parseUNum_natDigits n.natAbs rest hrest]
    dsimp only
    have hv : -((n.natAbs : Nat) : Int) = n := by omega
    rw [hv]
  · rename_i hpos
    have hne : (natDigits n.natAbs ++ rest).head? ≠ some '-' := by
      rcases he : natDigits n.natAbs with _ | ⟨d, t⟩
      · exact absurd he (natDigits_ne_nil _)
      · rw [List.cons_append, List.head?_cons]
        intro hcon
        have hd : d = '-' := by simpa using hcon
        have hdd := natDigits_all_digits n.natAbs d (by rw [he]; simp)
        rw [hd] at hdd
        exact absurd hdd (by decide)
    unfold parseJNum
    rw [if_neg hne, parseUNum_natDigits n.natAbs rest hrest]
    dsimp only
    have hv : ((n.natAbs : Nat) : Int) = n := by omega
    rw [hv]

theorem char_toNat_valid (c : Char) :
    c.toNat < 55296 ∨ (57344 ≤ c.toNat ∧ c.toNat < 1114112) := by
  have h := c.valid
  unfold UInt32.isValidChar Nat.isValidChar at h
  have heq : c.toNat = c.val.toNat := rfl
  omega

theorem hexVal?_hexDigit {d : Nat} (h : d < 16) :
    hexVal? (hexDigit d) = some d := by
  interval_cases d <;> decide

theorem hex4?_hexDigit {a b c d : Nat} (ha : a < 16) (hb : b < 16)
    (hc : c < 16) (hd : d < 16) :
    hex4? (hexDigit a) (hexDigit b) (hexDigit c) (hexDigit d) =
      some (a * 4096 + b * 256 + c * 16 + d) := by
  unfold hex4?
  rw [hexVal?_hexDigit ha, hexVal?_hexDigit hb, hexVal?_hexDigit hc,
    hexVal?_hexDigit hd]

theorem scanEsc_u_step (h1 h2 h3 h4 : Char) (t : List Char) :
    scanEsc ('u' :: h1 :: h2 :: h3 :: h4 :: t) =
      (match hex4? h1 h2 h3 h4 with
       | some n =>
         if 55296 ≤ n ∧ n < 56320 then
           match t with
           | b1 :: b2 :: g1 :: g2 :: g3 :: g4 :: t4 =>
             if b1 = '\\' ∧ b2 = 'u' then
               (match hex4? g1 g2 g3 g4 with
                | some m =>
                  if 56320 ≤ m ∧ m < 57344 then
                    .ok (Char.ofNat
                      (65536 + (n - 55296) * 1024 + (m - 56320)), t4)
                  else .error t
                | none => .error t)
             else .error t
           | _ => .error t
         else if 56320 ≤ n ∧ n < 57344 then
           .error (h1 :: h2 :: h3 :: h4 :: t)
         else .ok (Char.ofNat n, t)
       | none => .error (h1 :: h2 :: h3 :: h4 :: t)) := rfl

theorem scanEsc_u (n : Nat) (hn : n < 65536)
    (hs : ¬(55296 ≤ n ∧ n < 57344)) (k : List Char) :
    scanEsc ('u' :: hexDigit (n / 4096 % 16) :: hexDigit (n / 256 % 16) ::
      hexDigit (n / 16 % 16) :: hexDigit (n % 16) :: k) =
      .ok (Char.ofNat n, k) := by
  rw [scanEsc_u_step,
    hex4?_hexDigit (by omega) (by omega) (by omega) (by omega)]
  dsimp only
  have hrec : n / 4096 % 16 * 4096 + n / 256 % 16 * 256 +
      n / 16 % 16 * 16 + n % 16 = n := by omega
  rw [hrec, if_neg (by omega), if_neg (by omega)]

theorem scanEsc_surrogatePair (n : Nat) (hlo : 65536 ≤ n)
    (hhi : n < 1114112) (k : List Char) :
    scanEsc ('u' :: hexDigit ((55296 + (n - 65536) / 1024) / 4096 % 16) ::
      hexDigit ((55296 + (n - 65536) / 1024) / 256 % 16) ::
      hexDigit ((55296 + (n - 65536) / 1024) / 16 % 16) ::
      hexDigit ((55296 + (n - 65536) / 1024) % 16) ::
      ('\\' :: 'u' :: hexDigit ((56320 + (n - 65536) % 1024) / 4096 % 16) ::
        hexDigit ((56320 + (n - 65536) % 1024) / 256 % 16) ::
        hexDigit ((56320 + (n - 65536) % 1024) / 16 % 16) ::
        hexDigit ((56320 + (n - 65536) % 1024) % 16) :: k)) =
      .ok (Char.ofNat n, k) := by
  rw [scanEsc_u_step,
    hex4?_hexDigit (by omega) (by omega) (by omega) (by omega)]
  dsimp only
  have e1 : (55296 + (n - 65536) / 1024) / 4096 % 16 * 4096 +
      (55296 + (n - 65536) / 1024) / 256 % 16 * 256 +
      (55296 + (n - 65536) / 1024) / 16 % 16 * 16 +
      (55296 + (n - 65536) / 1024) % 16 = 55296 + (n - 65536) / 1024 := by
    omega
  rw [e1, if_pos (by omega)]
  rw [if_pos (by exact ⟨rfl, rfl⟩)]
  rw [hex4?_hexDigit (by omega) (by omega) (by omega) (by omega)]
  have e2 : (56320 + (n - 65536) % 1024) / 4096 % 16 * 4096 +
      (56320 + (n - 65536) % 1024) / 256 % 16 * 256 +
      (56320 + (n - 65536) % 1024) / 16 % 16 * 16 +
      (56320 + (n - 65536) % 1024) % 16 = 56320 + (n - 65536) % 1024 := by
    omega
  rw [e2]
  dsimp only
  rw [if_pos (by omega)]
  have e3 : 65536 + (55296 + (n - 65536) / 1024 - 55296) * 1024 +
      (56320 + (n - 65536) % 1024 - 56320) = n := by omega
  rw [e3]

theorem parseJStrF_succ (f : Nat) (c : Char) (t : List Char) :
    parseJStrF (f + 1) (c :: t) =
      if c = '"' then .ok ([], t)
      else if c = '\\' then
        match scanEsc t with
        | .ok (ch, t2) =>
            (parseJStrF f t2).map fun (s, r) => (ch :: s, r)
        | .error r => .error r
      else if c.toNat < 32 then .error (c :: t)
      else (parseJStrF f t).map fun (s, r) => (c :: s, r) := rfl

set_option maxHeartbeats 1000000 in
theorem escChar_length_pos (c : Char) : 0 < (escChar c).length := by
  unfold escChar
  split_ifs <;> simp [uEsc]

theorem escList_length (s : List Char) :
    s.length ≤ (escList s).length := by
  induction s with
  | nil => simp [escList]
  | cons c rest ih =>
      have := escChar_length_pos c
      simp only [escList, List.length_append, List.length_cons]
      omega

set_option maxHeartbeats 4000000 in
theorem parseJStrF_escList (s : List Char) :
    ∀ (fuel : Nat), s.length < fuel → ∀ (k : List Char),
      parseJStrF fuel (escList s ++ '"' :: k) = .ok (s, k) := by
  induction s with
  | nil =>
      intro fuel hf k
      cases fuel with
      | zero => omega
      | succ f => simp [escList, parseJStrF]
  | cons c rest ih =>
      intro fuel hf k
      cases fuel with
      | zero => omega
      | succ f =>
        have hrest : rest.length < f := by
          simp only [List.length_cons] at hf; omega
        have hih := ih f hrest k
        simp only [escList, List.append_assoc]
        unfold escChar
        split_ifs with h1 h2 h3 h4 h5 h6 h7 h8 h9 h10
        · subst h1
          rw [List.cons_append, List.cons_append, List.nil_append, parseJStrF_succ,
            if_neg (by decide), if_pos rfl]
          rw [show scanEsc ('"' :: (escList rest ++ '"' :: k)) =
            .ok ('"', escList rest ++ '"' :: k) from rfl]
          dsimp only
          rw [hih]
          rfl
        · subst h2
          rw [List.cons_append, List.cons_append, List.nil_append, parseJStrF_succ,
            if_neg (by decide), if_pos rfl]
          rw [show scanEsc ('\\' :: (escList rest ++ '"' :: k)) =
            .ok ('\\', escList rest ++ '"' :: k) from rfl]
          dsimp only
          rw [hih]
          rfl
        · subst h3
          rw [List.cons_append, List.cons_append, List.nil_append, parseJStrF_succ,
            if_neg (by decide), if_pos rfl]
          rw [show scanEsc ('b' :: (escList rest ++ '"' :: k)) =
            .ok ('\x08', escList rest ++ '"' :: k) from rfl]
          dsimp only
          rw [hih]
          rfl
        · subst h4
          rw [List.cons_append, List.cons_append, List.nil_append, parseJStrF_succ,
            if_neg (by decide), if_pos rfl]
          rw [show scanEsc ('f' :: (escList rest ++ '"' :: k)) =
            .ok ('\x0c', escList rest ++ '"' :: k) from rfl]
          dsimp only
          rw [hih]
          rfl
        · subst h5
          rw [List.cons_append, List.cons_append, List.nil_append, parseJStrF_succ,
            if_neg (by decide), if_pos rfl]
          rw [show scanEsc ('n' :: (escList rest ++ '"' :: k)) =
            .ok ('\n', escList rest ++ '"' :: k) from rfl]
          dsimp only
          rw [hih]
          rfl
        · subst h6
          rw [List.cons_append, List.cons_append, List.nil_append, parseJStrF_succ,
            if_neg (by decide), if_pos rfl]
          rw [show scanEsc ('r' :: (escList rest ++ '"' :: k)) =
            .ok ('\r', escList rest ++ '"' :: k) from rfl]
          dsimp only
          rw [hih]
          rfl
        · subst h7
          rw [List.cons_append, List.cons_append, List.nil_append, parseJStrF_succ,
            if_neg (by decide), if_pos rfl]
          rw [show scanEsc ('t' :: (escList rest ++ '"' :: k)) =
            .ok ('\t', escList rest ++ '"' :: k) from rfl]
          dsimp only
          rw [hih]
          rfl
        · -- control character: \uXXXX escape
          simp only [uEsc, List.cons_append, List.nil_append]
          rw [parseJStrF_succ, if_neg (by decide), if_pos rfl]
          rw [scanEsc_u c.toNat (by omega) (by omega)
            (escList rest ++ '"' :: k)]
          dsimp only
          rw [Char.ofNat_toNat, hih]
          rfl
        · -- printable ASCII: kept as is
          rw [List.singleton_append, parseJStrF_succ,
            if_neg h1, if_neg h2, if_neg (by omega)]
          dsimp only
          rw [hih]
          rfl
        · -- non-ASCII BMP: \uXXXX escape
          rcases char_toNat_valid c with hv | hv
          · simp only [uEsc, List.cons_append, List.nil_append]
            rw [parseJStrF_succ, if_neg (by decide), if_pos rfl]
            rw [scanEsc_u c.toNat (by omega) (by omega)
              (escList rest ++ '"' :: k)]
            dsimp only
            rw [Char.ofNat_toNat, hih]
            rfl
          · simp only [uEsc, List.cons_append, List.nil_append]
            rw [parseJStrF_succ, if_neg (by decide), if_pos rfl]
            rw [scanEsc_u c.toNat (by omega) (by omega)
              (escList rest ++ '"' :: k)]
            dsimp only
            rw [Char.ofNat_toNat, hih]
            rfl
        · -- astral plane: surrogate pair
          have hv := char_toNat_valid c
          have hge : 65536 ≤ c.toNat := by omega
          have hlt : c.toNat < 1114112 := by omega
          simp only [uEsc, List.cons_append, List.nil_append,
            List.append_assoc]
          rw [parseJStrF_succ, if_neg (by decide), if_pos rfl]
          rw [scanEsc_surrogatePair c.toNat hge hlt
            (escList rest ++ '"' :: k)]
          dsimp only
          rw [Char.ofNat_toNat, hih]
          rfl

theorem parseJStr_escList (s k : List Char) :
    parseJStr (escList s ++ '"' :: k) = .ok (s, k) := by
  have hlen := escList_length s
  exact parseJStrF_escList s ((escList s ++ '"' :: k).length + 1)
    (by simp only [List.length_append, List.length_cons]; omega) k

mutual

/-- Recursion depth consumed by `parseJVal` on the dump of a value. -/
def sizeV : JVal → Nat
  | .null => 0
  | .bool _ => 0
  | .num _ => 0
  | .str _ => 0
  | .arr es => sizeE es + 1
  | .obj ms => sizeM ms + 1

/-- Recursion depth consumed by `parseJElems`. -/
def sizeE : JElems → Nat
  | .nil => 0
  | .cons v es => max (sizeV v) (sizeE es) + 1

/-- Recursion depth consumed by `parseJMems`. -/
def sizeM : JMems → Nat
  | .nil => 0
  | .cons _ v ms => max (sizeV v) (sizeM ms) + 1

end

theorem string_mk_toList (s : String) : String.mk s.toList = s := rfl

theorem skipWsJ_cons_of_ne (c : Char) (r : List Char)
    (h : ¬ c ∈ ([' ', '\t', '\n', '\r'] : List Char)) :
    skipWsJ (c :: r) = c :: r := by
  unfold skipWsJ
  rw [List.dropWhile_cons, if_neg (by simpa using h)]

theorem skipWsJ_space (r : List Char) : skipWsJ (' ' :: r) = skipWsJ r := rfl

/-- The first character of a dumped value. -/
theorem dumpsV_cons (v : JVal) :
    ∃ c cs, dumpsV v = c :: cs ∧
      (c = 'n' ∨ c = 't' ∨ c = 'f' ∨ c = '"' ∨ c = '[' ∨ c = '\x7b' ∨
        isDigitC c = true ∨ c = '-') := by
  cases v with
  | null => exact ⟨'n', _, rfl, by simp⟩
  | bool b =>
      cases b with
      | true => exact ⟨'t', _, rfl, by simp⟩
      | false => exact ⟨'f', _, rfl, by simp⟩
  | num n =>
      have hne : dumpsInt n ≠ [] := by
        unfold dumpsInt
        split
        · simp
        · exact natDigits_ne_nil _
      rcases hd : dumpsInt n with _ | ⟨c, cs⟩
      · exact absurd hd hne
      · refine ⟨c, cs, hd, ?_⟩
        have := dumpsInt_head_not_digitish n c (by rw [hd]; rfl)
        tauto
  | str s => exact ⟨'"', _, rfl, by simp⟩
  | arr es => exact ⟨'[', _, rfl, by simp⟩
  | obj ms => exact ⟨'\x7b', _, rfl, by simp⟩

theorem dumpsV_head_facts {v : JVal} {c : Char} {cs : List Char}
    (hd : dumpsV v = c :: cs) :
    ¬ c ∈ ([' ', '\t', '\n', '\r'] : List Char) ∧
      c ≠ ']' ∧ c ≠ '\x7d' := by
  obtain ⟨c', cs', hd', hc'⟩ := dumpsV_cons v
  rw [hd] at hd'
  obtain ⟨rfl, rfl⟩ : c = c' ∧ cs = cs' := by
    constructor <;> injection hd'
  rcases hc' with rfl | rfl | rfl | rfl | rfl | rfl | hdig | rfl
  all_goals try exact ⟨by decide, by decide, by decide⟩
  refine ⟨?_, ?_, ?_⟩
  · intro hmem
    unfold isDigitC at hdig
    fin_cases hmem <;> simp_all
  · intro h
    subst h
    exact absurd hdig (by decide)
  · intro h
    subst h
    exact absurd hdig (by decide)

theorem skipWsJ_dumpsV (v : JVal) (r : List Char) :
    skipWsJ (dumpsV v ++ r) = dumpsV v ++ r := by
  obtain ⟨c, cs, hd, _⟩ := dumpsV_cons v
  rw [hd, List.cons_append]
  exact skipWsJ_cons_of_ne c _ (dumpsV_head_facts hd).1

theorem parseJVal_succ (f : Nat) (c : Char) (t : List Char) :
    parseJVal (f + 1) (c :: t) =
      (if c = '\x7b' then
        let t1 := skipWsJ t
        if t1.head? = some '\x7d' then .ok (.obj .nil, t1.tail)
        else
          match parseJMems f t1 with
          | .ok (ms, r) => .ok (.obj ms, r)
          | .error r => .error r
      else if c = '[' then
        let t1 := skipWsJ t
        if t1.head? = some ']' then .ok (.arr .nil, t1.tail)
        else
          match parseJElems f t1 with
          | .ok (es, r) => .ok (.arr es, r)
          | .error r => .error r
      else if c = '"' then
        match parseJStr t with
        | .ok (cs, r) => .ok (.str (String.mk cs), r)
        | .error r => .error r
      else if c = 't' then
        match expectLit ['r', 'u', 'e'] t with
        | some r => .ok (.bool true, r)
        | none => .error (c :: t)
      else if c = 'f' then
        match expectLit ['a', 'l', 's', 'e'] t with
        | some r => .ok (.bool false, r)
        | none => .error (c :: t)
      else if c = 'n' then
        match expectLit ['u', 'l', 'l'] t with
        | some r => .ok (.null, r)
        | none => .error (c :: t)
      else
        match parseJNum (c :: t) with
        | .ok (n, r) => .ok (.num n, r)
        | .error r => .error r) := rfl

theorem parseJElems_succ (f : Nat) (s : List Char) :
    parseJElems (f + 1) s =
      (match parseJVal f s with
       | .error r => .error r
       | .ok (v, r1) =>
         let r2 := skipWsJ r1
         if r2.head? = some ',' then
           match parseJElems f (skipWsJ r2.tail) with
           | .ok (es, r3) => .ok (.cons v es, r3)
           | .error r => .error r
         else if r2.head? = some ']' then .ok (.cons v .nil, r2.tail)
         else .error r2) := rfl

theorem parseJMems_succ_quote (f : Nat) (t : List Char) :
    parseJMems (f + 1) ('"' :: t) =
      (match parseJStr t with
       | .error r => .error r
       | .ok (k, r1) =>
         let r2 := skipWsJ r1
         if r2.head? = some ':' then
           match parseJVal f (skipWsJ r2.tail) with
           | .error r => .error r
           | .ok (v, r3) =>
             let r4 := skipWsJ r3
             if r4.head? = some ',' then
               match parseJMems f (skipWsJ r4.tail) with
               | .ok (ms, r5) =>
                   .ok (JMems.prependUpd (String.mk k) v ms, r5)
               | .error r => .error r
             else if r4.head? = some '\x7d' then
               .ok (.cons (String.mk k) v .nil, r4.tail)
             else .error r4
         else .error r2) := rfl

theorem dumpsElems_cons_decomp (v : JVal) (es : JElems) :
    ∃ tl, dumpsElems (.cons v es) = dumpsV v ++ tl := by
  cases es with
  | nil => exact ⟨[], (List.append_nil _).symm⟩
  | cons v2 es2 => exact ⟨_, rfl⟩

theorem dumpsMems_cons_quote (k : String) (v : JVal) (ms : JMems) :
    ∃ tl, dumpsMems (.cons k v ms) = '"' :: tl := by
  cases ms with
  | nil =>
      exact ⟨escList k.data ++ '"' :: ':' :: ' ' :: dumpsV v,
        by simp [dumpsMems, dumpsStr]⟩
  | cons k2 v2 ms2 =>
      exact ⟨escList k.data ++ '"' :: ':' :: ' ' ::
          (dumpsV v ++ ',' :: ' ' :: dumpsMems (.cons k2 v2 ms2)),
        by simp [dumpsMems, dumpsStr]⟩

theorem skipWsJ_dumpsElems (v : JVal) (es : JElems) (r : List Char) :
    skipWsJ (dumpsElems (.cons v es) ++ r) =
      dumpsElems (.cons v es) ++ r := by
  obtain ⟨tl, htl⟩ := dumpsElems_cons_decomp v es
  rw [htl, List.append_assoc, skipWsJ_dumpsV, ← List.append_assoc]

theorem skipWsJ_dumpsMems (k : String) (v : JVal) (ms : JMems)
    (r : List Char) :
    skipWsJ (dumpsMems (.cons k v ms) ++ r) =
      dumpsMems (.cons k v ms) ++ r := by
  obtain ⟨tl, htl⟩ := dumpsMems_cons_quote k v ms
  rw [htl, List.cons_append]
  exact skipWsJ_cons_of_ne '"' _ (by decide)

theorem dumpsElems_append_head_ne (v : JVal) (es : JElems)
    (r : List Char) :
    (dumpsElems (.cons v es) ++ r).head? ≠ some ']' := by
  obtain ⟨tl, htl⟩ := dumpsElems_cons_decomp v es
  obtain ⟨c, cs, hd, _⟩ := dumpsV_cons v
  rw [htl, hd, List.cons_append, List.cons_append, List.head?_cons]
  have := (dumpsV_head_facts hd).2.1
  simp [this]

theorem dumpsMems_append_head_ne (k : String) (v : JVal) (ms : JMems)
    (r : List Char) :
    (dumpsMems (.cons k v ms) ++ r).head? ≠ some '\x7d' := by
  obtain ⟨tl, htl⟩ := dumpsMems_cons_quote k v ms
  rw [htl, List.cons_append, List.head?_cons]
  simp

theorem expectLit_self (lit t : List Char) :
    expectLit lit (lit ++ t) = some t := by
  unfold expectLit
  rw [if_pos (by simp [List.isPrefixOf_iff_prefix]), List.drop_left]

/-- Joint fuel-indexed round-trip for the scanner against `dumps`:
values, non-empty element lists (up to the closing bracket) and
non-empty member lists (up to the closing brace). -/
theorem roundtripAux (fuel : Nat) :
    (∀ v rest, JVal.wfB v = true → sizeV v < fuel →
      (∀ c, rest.head? = some c → isDigitC c = false) →
      parseJVal fuel (dumpsV v ++ rest) = .ok (v, rest)) ∧
    (∀ v es rest, JElems.wfB (.cons v es) = true →
      sizeE (.cons v es) < fuel →
      parseJElems fuel (dumpsElems (.cons v es) ++ ']' :: rest) =
        .ok (.cons v es, rest)) ∧
    (∀ k v ms rest, JMems.wfB (.cons k v ms) = true →
      sizeM (.cons k v ms) < fuel →
      parseJMems fuel (dumpsMems (.cons k v ms) ++ '\x7d' :: rest) =
        .ok (.cons k v ms, rest)) := by
  induction fuel with
  | zero =>
      refine ⟨fun v rest _ h _ => absurd h (by omega),
        fun v es rest _ h => absurd h (by omega),
        fun k v ms rest _ h => absurd h (by omega)⟩
  | succ f ih =>
    obtain ⟨ihV, ihE, ihM⟩ := ih
    refine ⟨?_, ?_, ?_⟩
    · -- values
      intro v rest hwf hsz hrest
      cases v with
      | null =>
          rw [show dumpsV JVal.null ++ rest =
            'n' :: (['u', 'l', 'l'] ++ rest) from rfl]
          rw [parseJVal_succ, if_neg (by decide), if_neg (by decide),
            if_neg (by decide), if_neg (by decide), if_neg (by decide),
            if_pos rfl, expectLit_self]
      | bool b =>
          cases b with
          | true =>
              rw [show dumpsV (JVal.bool true) ++ rest =
                't' :: (['r', 'u', 'e'] ++ rest) from rfl]
              rw [parseJVal_succ, if_neg (by decide), if_neg (by decide),
                if_neg (by decide), if_pos rfl, expectLit_self]
          | false =>
              rw [show dumpsV (JVal.bool false) ++ rest =
                'f' :: (['a', 'l', 's', 'e'] ++ rest) from rfl]
              rw [parseJVal_succ, if_neg (by decide), if_neg (by decide),
                if_neg (by decide), if_neg (by decide), if_pos rfl,
                expectLit_self]
      | num n =>
          have hne : dumpsInt n ≠ [] := by
            unfold dumpsInt
            split
            · simp
            · exact natDigits_ne_nil _
          rcases hd : dumpsInt n with _ | ⟨c, cs⟩
          · exact absurd hd hne
          · have hdig := dumpsInt_head_not_digitish n c (by rw [hd]; rfl)
            have hnb : c ≠ '\x7b' ∧ c ≠ '[' ∧ c ≠ '"' ∧ c ≠ 't' ∧
                c ≠ 'f' ∧ c ≠ 'n' := by
              rcases hdig with hdig | rfl
              · unfold isDigitC at hdig
                have hb := of_decide_eq_true hdig
                refine ⟨?_, ?_, ?_, ?_, ?_, ?_⟩ <;>
                  (intro h; subst h; exact absurd hb (by decide))
              · exact ⟨by decide, by decide, by decide, by decide,
                  by decide, by decide⟩
            have hgoal : dumpsV (.num n) ++ rest = c :: (cs ++ rest) := by
              show dumpsInt n ++ rest = c :: (cs ++ rest)
              rw [hd, List.cons_append]
            rw [hgoal, parseJVal_succ, if_neg hnb.1, if_neg hnb.2.1,
              if_neg hnb.2.2.1, if_neg hnb.2.2.2.1, if_neg hnb.2.2.2.2.1,
              if_neg hnb.2.2.2.2.2]
            rw [show (c :: (cs ++ rest) : List Char) =
              dumpsInt n ++ rest by rw [hd, List.cons_append]]
            rw [parseJNum_dumpsInt n rest hrest]
      | str s =>
          have hgoal : dumpsV (.str s) ++ rest =
              '"' :: (escList s.toList ++ '"' :: rest) := by
            show dumpsStr s ++ rest = _
            simp [dumpsStr]
          rw [hgoal, parseJVal_succ, if_neg (by decide),
            if_neg (by decide), if_pos rfl]
          rw [show parseJStr (escList s.toList ++ '"' :: rest) =
            .ok (s.toList, rest) from parseJStr_escList s.toList rest]
          dsimp only
          rw [string_mk_toList]
      | arr es =>
          cases es with
          | nil =>
              rw [show dumpsV (JVal.arr .nil) ++ rest =
                '[' :: ']' :: rest from rfl]
              rw [parseJVal_succ, if_neg (by decide), if_pos rfl]
              dsimp only
              rw [skipWsJ_cons_of_ne ']' rest (by decide),
                if_pos (by simp)]
              rfl
          | cons v1 es1 =>
              have hwf' : JElems.wfB (.cons v1 es1) = true := hwf
              have hsz' : sizeE (.cons v1 es1) < f := by
                have : sizeE (.cons v1 es1) + 1 < f + 1 := hsz
                omega
              have hgoal : dumpsV (.arr (.cons v1 es1)) ++ rest =
                  '[' :: (dumpsElems (.cons v1 es1) ++ ']' :: rest) := by
                show ('[' :: dumpsElems (.cons v1 es1) ++ [']']) ++ rest = _
                simp
              rw [hgoal, parseJVal_succ, if_neg (by decide), if_pos rfl]
              dsimp only
              rw [skipWsJ_dumpsElems,
                if_neg (dumpsElems_append_head_ne v1 es1 (']' :: rest)),
                ihE v1 es1 rest hwf' hsz']
      | obj ms =>
          cases ms with
          | nil =>
              rw [show dumpsV (JVal.obj .nil) ++ rest =
                '\x7b' :: '\x7d' :: rest from rfl]
              rw [parseJVal_succ, if_pos rfl]
              dsimp only
              rw [skipWsJ_cons_of_ne '\x7d' rest (by decide),
                if_pos (by simp)]
              rfl
          | cons k1 v1 ms1 =>
              have hwf' : JMems.wfB (.cons k1 v1 ms1) = true := hwf
              have hsz' : sizeM (.cons k1 v1 ms1) < f := by
                have : sizeM (.cons k1 v1 ms1) + 1 < f + 1 := hsz
                omega
              have hgoal : dumpsV (.obj (.cons k1 v1 ms1)) ++ rest =
                  '\x7b' :: (dumpsMems (.cons k1 v1 ms1) ++
                    '\x7d' :: rest) := by
                show ('\x7b' :: dumpsMems (.cons k1 v1 ms1) ++
                  ['\x7d']) ++ rest = _
                simp
              rw [hgoal, parseJVal_succ, if_pos rfl]
              dsimp only
              rw [skipWsJ_dumpsMems,
                if_neg (dumpsMems_append_head_ne k1 v1 ms1
                  ('\x7d' :: rest)),
                ihM k1 v1 ms1 rest hwf' hsz']
    · -- array elements
      intro v es rest hwf hsz
      have hwfb : JVal.wfB v = true ∧ JElems.wfB es = true := by
        have : (JVal.wfB v && JElems.wfB es) = true := hwf
        simpa [Bool.and_eq_true] using this
      have hszv : sizeV v < f := by
        have : max (sizeV v) (sizeE es) + 1 < f + 1 := hsz
        omega
      cases es with
      | nil =>
          have hstep : dumpsElems (.cons v .nil) ++ ']' :: rest =
              dumpsV v ++ ']' :: rest := rfl
          rw [hstep, parseJElems_succ,
            ihV v (']' :: rest) hwfb.1 hszv
              (by intro c hc; simp at hc; subst hc; decide)]
          dsimp only
          rw [skipWsJ_cons_of_ne ']' rest (by decide)]
          rw [if_neg (by simp), if_pos (by simp)]
          rfl
      | cons v2 es2 =>
          have hsze : sizeE (.cons v2 es2) < f := by
            have : max (sizeV v) (sizeE (.cons v2 es2)) + 1 < f + 1 := hsz
            omega
          have hstep : dumpsElems (.cons v (.cons v2 es2)) ++ ']' :: rest =
              dumpsV v ++ ',' :: ' ' ::
                (dumpsElems (.cons v2 es2) ++ ']' :: rest) := by
            show (dumpsV v ++ ',' :: ' ' ::
              dumpsElems (.cons v2 es2)) ++ ']' :: rest = _
            simp
          rw [hstep, parseJElems_succ,
            ihV v _ hwfb.1 hszv (by intro c hc; simp at hc; subst hc; decide)]
          dsimp only
          rw [skipWsJ_cons_of_ne ',' _ (by decide)]
          rw [if_pos (by simp)]
          dsimp only [List.tail_cons]
          rw [skipWsJ_space, skipWsJ_dumpsElems,
            ihE v2 es2 rest hwfb.2 hsze]
    · -- object members
      intro k v ms rest hwf hsz
      have hwfb : ms.hasKey k = false ∧ JVal.wfB v = true ∧
          JMems.wfB ms = true := by
        have : (!ms.hasKey k && JVal.wfB v && JMems.wfB ms) = true := hwf
        simp only [Bool.and_eq_true, Bool.not_eq_true'] at this
        exact ⟨this.1.1, this.1.2, this.2⟩
      have hszv : sizeV v < f := by
        have : max (sizeV v) (sizeM ms) + 1 < f + 1 := hsz
        omega
      cases ms with
      | nil =>
          have hstep : dumpsMems (.cons k v .nil) ++ '\x7d' :: rest =
              '"' :: (escList k.toList ++ '"' ::
                (':' :: ' ' :: (dumpsV v ++ '\x7d' :: rest))) := by
            show (dumpsStr k ++ ':' :: ' ' :: dumpsV v) ++
              '\x7d' :: rest = _
            simp [dumpsStr]
          rw [hstep, parseJMems_succ_quote,
            parseJStr_escList k.toList
              (':' :: ' ' :: (dumpsV v ++ '\x7d' :: rest))]
          dsimp only
          rw [skipWsJ_cons_of_ne ':' _ (by decide)]
          rw [if_pos (by simp)]
          dsimp only [List.tail_cons]
          rw [skipWsJ_space, skipWsJ_dumpsV,
            ihV v _ hwfb.2.1 hszv
              (by intro c hc; simp at hc; subst hc; decide)]
          dsimp only
          rw [skipWsJ_cons_of_ne '\x7d' rest (by decide)]
          rw [if_neg (by simp), if_pos (by simp)]
          dsimp only [List.tail_cons]
          rw [string_mk_toList]
      | cons k2 v2 ms2 =>
          have hszm : sizeM (.cons k2 v2 ms2) < f := by
            have : max (sizeV v) (sizeM (.cons k2 v2 ms2)) + 1 < f + 1 :=
              hsz
            omega
          have hstep : dumpsMems (.cons k v (.cons k2 v2 ms2)) ++
              '\x7d' :: rest =
              '"' :: (escList k.toList ++ '"' ::
                (':' :: ' ' :: (dumpsV v ++ ',' :: ' ' ::
                  (dumpsMems (.cons k2 v2 ms2) ++ '\x7d' :: rest)))) := by
            show ((dumpsStr k ++ (':' :: ' ' :: dumpsV v)) ++
              (',' :: ' ' :: dumpsMems (.cons k2 v2 ms2))) ++
              '\x7d' :: rest = _
            simp [dumpsStr]
          rw [hstep, parseJMems_succ_quote,
            parseJStr_escList k.toList _]
          dsimp only
          rw [skipWsJ_cons_of_ne ':' _ (by decide)]
          rw [if_pos (by simp)]
          dsimp only [List.tail_cons]
          rw [skipWsJ_space, skipWsJ_dumpsV,
            ihV v _ hwfb.2.1 hszv
              (by intro c hc; simp at hc; subst hc; decide)]
          dsimp only
          rw [skipWsJ_cons_of_ne ',' _ (by decide)]
          rw [if_pos (by simp)]
          dsimp only [List.tail_cons]
          rw [skipWsJ_space, skipWsJ_dumpsMems,
            ihM k2 v2 ms2 rest hwfb.2.2 hszm]
          dsimp only
          rw [string_mk_toList, prependUpd_of_not_hasKey hwfb.1]

mutual

theorem sizeV_le_len (v : JVal) : sizeV v ≤ (dumpsV v).length := by
  cases v with
  | null => exact Nat.zero_le _
  | bool b => exact Nat.zero_le _
  | num n => exact Nat.zero_le _
  | str s => exact Nat.zero_le _
  | arr es =>
      have h := sizeE_le_len es
      show sizeE es + 1 ≤ ('[' :: dumpsElems es ++ [']']).length
      simp only [List.cons_append, List.length_cons, List.length_append,
        List.length_singleton]
      omega
  | obj ms =>
      have h := sizeM_le_len ms
      show sizeM ms + 1 ≤ ('\x7b' :: dumpsMems ms ++ ['\x7d']).length
      simp only [List.cons_append, List.length_cons, List.length_append,
        List.length_singleton]
      omega

theorem sizeE_le_len (es : JElems) : sizeE es ≤ (dumpsElems es).length + 1 := by
  cases es with
  | nil => exact Nat.zero_le _
  | cons v es2 =>
      have hv := sizeV_le_len v
      cases es2 with
      | nil =>
          show max (sizeV v) (sizeE .nil) + 1 ≤ (dumpsV v).length + 1
          have : sizeE JElems.nil = 0 := rfl
          omega
      | cons v2 es3 =>
          have he := sizeE_le_len (.cons v2 es3)
          show max (sizeV v) (sizeE (.cons v2 es3)) + 1 ≤
            (dumpsV v ++ ',' :: ' ' :: dumpsElems (.cons v2 es3)).length + 1
          simp only [List.length_append, List.length_cons]
          omega

theorem sizeM_le_len (ms : JMems) : sizeM ms ≤ (dumpsMems ms).length + 1 := by
  cases ms with
  | nil => exact Nat.zero_le _
  | cons k v ms2 =>
      have hv := sizeV_le_len v
      cases ms2 with
      | nil =>
          show max (sizeV v) (sizeM .nil) + 1 ≤
            (dumpsStr k ++ ':' :: ' ' :: dumpsV v).length + 1
          have : sizeM JMems.nil = 0 := rfl
          simp only [List.length_append, List.length_cons]
          omega
      | cons k2 v2 ms3 =>
          have hm := sizeM_le_len (.cons k2 v2 ms3)
          show max (sizeV v) (sizeM (.cons k2 v2 ms3)) + 1 ≤
            ((dumpsStr k ++ (':' :: ' ' :: dumpsV v)) ++
              (',' :: ' ' :: dumpsMems (.cons k2 v2 ms3))).length + 1
          simp only [List.length_append, List.length_cons]
          omega

end

/-- `json.loads ∘ json.dumps` is the identity on well-formed values. -/
theorem loadsPos_dumpsV (v : JVal) (hwf : JVal.wfB v = true) :
    loadsPos (dumpsV v) = .ok v := by
  unfold loadsPos
  have hskip : skipWsJ (dumpsV v) = dumpsV v := by
    have := skipWsJ_dumpsV v []
    simpa using this
  rw [hskip]
  have hsz : sizeV v < 2 * (dumpsV v).length + 2 := by
    have := sizeV_le_len v
    omega
  have h := (roundtripAux (2 * (dumpsV v).length + 2)).1 v [] hwf hsz
    (by intro c hc; simp at hc)
  rw [List.append_nil] at h
  rw [h]
  rfl

theorem pyLstrip_cons_of (c : Char) (t : List Char)
    (h : ¬ c ∈ pyWsChars) : pyLstripL (c :: t) = c :: t := by
  unfold pyLstripL
  rw [List.dropWhile_cons, if_neg (by simpa using h)]

theorem pyRstrip_append_of (l : List Char) (c : Char)
    (h : ¬ c ∈ pyWsChars) : pyRstripL (l ++ [c]) = l ++ [c] := by
  unfold pyRstripL
  rw [List.reverse_append, List.reverse_singleton, List.singleton_append,
    List.dropWhile_cons, if_neg (by simpa using h), List.reverse_cons,
    List.reverse_reverse]

theorem pyFindChar_cons_self (c : Char) (t : List Char) :
    pyFindChar (c :: t) c = 0 := by
  unfold pyFindChar
  rw [List.findIdx?_cons, if_pos (by simp)]
  rfl

theorem pyRfindChar_append_self (l : List Char) (c : Char) :
    pyRfindChar (l ++ [c]) c = (l.length : Int) := by
  unfold pyRfindChar
  rw [List.reverse_append, List.reverse_singleton, List.singleton_append,
    List.findIdx?_cons, if_pos (by simp)]
  simp

theorem sliceL_full (l : List Char) : sliceL l 0 l.length = l := by
  unfold sliceL
  simp

theorem findSub_isSome_iff (s pat : List Char) :
    (findSub s pat).isSome = true ↔ ∃ i, pat.isPrefixOf (s.drop i) := by
  induction s with
  | nil =>
      unfold findSub
      split
      · simp_all
      · simp_all
  | cons c t ih =>
      unfold findSub
      split
      · rename_i hp
        simp only [Option.isSome_some, true_iff]
        exact ⟨0, hp⟩
      · rename_i hp
        rw [show (Option.map (fun x => x + 1) (findSub t pat)).isSome =
          (findSub t pat).isSome by cases findSub t pat <;> rfl]
        rw [ih]
        constructor
        · rintro ⟨i, hi⟩
          exact ⟨i + 1, by simpa using hi⟩
        · rintro ⟨i, hi⟩
          cases i with
          | zero => exact absurd (by simpa using hi) hp
          | succ j => exact ⟨j, by simpa using hi⟩

theorem containsSub_mono (s pat1 pat2 : List Char)
    (hpre : pat1.isPrefixOf pat2 = true)
    (h : containsSub s pat1 = false) : containsSub s pat2 = false := by
  unfold containsSub at *
  by_contra hc
  rw [Bool.not_eq_false, findSub_isSome_iff] at hc
  obtain ⟨i, hi⟩ := hc
  have h1 : pat1.isPrefixOf (s.drop i) = true := by
    rw [List.isPrefixOf_iff_prefix] at *
    exact hpre.trans hi
  rw [← Bool.not_eq_true, findSub_isSome_iff] at h
  exact h ⟨i, h1⟩

theorem fenceStrip_noop (l : List Char)
    (h3 : containsSub l fence3 = false) : fenceStrip l = l := by
  have hj : containsSub l fenceJson = false :=
    containsSub_mono l fence3 fenceJson (by decide) h3
  unfold fenceStrip
  rw [if_neg (by simp [hj]), if_neg (by simp [h3])]

theorem containsSub_cons (c : Char) (t pat : List Char) :
    containsSub (c :: t) pat =
      (pat.isPrefixOf (c :: t) || containsSub t pat) := by
  unfold containsSub
  by_cases hp : pat.isPrefixOf (c :: t) = true
  · rw [hp, Bool.true_or]
    conv_lhs => unfold findSub
    rw [if_pos hp]
    rfl
  · rw [show pat.isPrefixOf (c :: t) = false from
      Bool.not_eq_true _ ▸ (eq_false_of_ne_true hp), Bool.false_or]
    conv_lhs => unfold findSub
    rw [if_neg hp]
    dsimp only
    cases findSub t pat <;> rfl

theorem findSub_mid_fence : ∀ (m : List Char),
    containsSub m fence3 = false →
    findSub (m ++ '\n' :: fence3) fence3 = some (m.length + 1) := by
  intro m
  induction m with
  | nil =>
      intro _
      rw [List.nil_append,
        show findSub ('\n' :: fence3) fence3 = some 1 from by decide]
      rfl
  | cons c m2 ih =>
      intro h
      rw [containsSub_cons, Bool.or_eq_false_iff] at h
      have hnp : fence3.isPrefixOf
          (c :: (m2 ++ '\n' :: fence3)) = false := by
        cases m2 with
        | nil => simp [fence3, List.isPrefixOf]
        | cons c2 m3 =>
            cases m3 with
            | nil => simp [fence3, List.isPrefixOf]
            | cons c3 m4 =>
                have heq : fence3.isPrefixOf
                    (c :: ((c2 :: c3 :: m4) ++ '\n' :: fence3)) =
                    fence3.isPrefixOf (c :: c2 :: c3 :: m4) := by
                  simp [fence3, List.isPrefixOf]
                rw [heq]
                exact h.1
      rw [List.cons_append]
      conv_lhs => unfold findSub
      rw [if_neg (by simp [hnp])]
      dsimp only
      rw [ih h.2]
      rfl

theorem pyLstrip_ws_cons (c : Char) (t : List Char)
    (h : c ∈ pyWsChars) : pyLstripL (c :: t) = pyLstripL t := by
  unfold pyLstripL
  rw [List.dropWhile_cons, if_pos (by simpa using h)]

theorem pyRstrip_append_ws (l : List Char) (c : Char)
    (h : c ∈ pyWsChars) : pyRstripL (l ++ [c]) = pyRstripL l := by
  unfold pyRstripL
  rw [List.reverse_append, List.reverse_singleton, List.singleton_append,
    List.dropWhile_cons, if_pos (by simpa using h)]

/-- Core of the round-trip: once stripping and fence removal yield
exactly `dumps` of a well-formed object, `parse_response` returns that
object. -/
theorem parse_response_clean_obj (s : String) (ms : JMems)
    (hwf : JVal.wfB (.obj ms) = true)
    (hne : pyStripL s.toList ≠ [])
    (hfs : fenceStrip (pyStripL s.toList) = dumpsV (.obj ms)) :
    JSONParser.parse_response s = .ok (.obj ms) := by
  have hD : dumpsV (.obj ms) =
      ('\x7b' :: dumpsMems ms) ++ ['\x7d'] := rfl
  have hR : pyRstripL (dumpsV (.obj ms)) = dumpsV (.obj ms) := by
    rw [hD]
    exact pyRstrip_append_of _ _ (by decide)
  have hfind : pyFindChar (dumpsV (.obj ms)) '\x7b' = 0 := by
    rw [hD, List.cons_append]
    exact pyFindChar_cons_self _ _
  have hrfind : pyRfindChar (dumpsV (.obj ms)) '\x7d' =
      ((dumpsMems ms).length + 1 : Int) := by
    rw [hD]
    rw [pyRfindChar_append_self]
    simp
  have hlen : (dumpsV (.obj ms)).length = (dumpsMems ms).length + 2 := by
    rw [hD]
    simp
  unfold JSONParser.parse_response
  dsimp only
  rw [if_neg hne, hfs, hfind, hrfind]
  rw [if_neg (by rintro ⟨-, h2, -⟩; omega)]
  rw [if_neg (by rintro (h | h) <;> omega)]
  rw [show ((0 : Int).toNat) = 0 from rfl,
    show (((dumpsMems ms).length + 1 : Int)).toNat + 1 =
      (dumpsV (.obj ms)).length by rw [hlen]; omega,
    sliceL_full]
  rw [if_neg (by rw [hD, List.cons_append]; simp)]
  rw [hR, loadsPos_dumpsV _ hwf]

theorem parse_response_dumps_obj (ms : JMems)
    (hwf : JVal.wfB (.obj ms) = true)
    (hfence : containsSub (dumpsV (.obj ms)) fence3 = false) :
    JSONParser.parse_response (String.mk (dumpsV (.obj ms))) =
      .ok (.obj ms) := by
  have hD : dumpsV (.obj ms) =
      ('\x7b' :: dumpsMems ms) ++ ['\x7d'] := rfl
  have htl : (String.mk (dumpsV (.obj ms))).toList =
      dumpsV (.obj ms) := rfl
  have hL : pyLstripL (dumpsV (.obj ms)) = dumpsV (.obj ms) := by
    rw [hD, List.cons_append]
    exact pyLstrip_cons_of _ _ (by decide)
  have hR : pyRstripL (dumpsV (.obj ms)) = dumpsV (.obj ms) := by
    rw [hD]
    exact pyRstrip_append_of _ _ (by decide)
  have hstrip : pyStripL (dumpsV (.obj ms)) = dumpsV (.obj ms) := by
    unfold pyStripL
    rw [hL, hR]
  refine parse_response_clean_obj _ ms hwf ?_ ?_
  · rw [htl, hstrip, hD]
    simp
  · rw [htl, hstrip]
    exact fenceStrip_noop _ hfence

/-- The fenced serialization also round-trips. -/
theorem parse_response_dumps_obj_fenced (ms : JMems)
    (hwf : JVal.wfB (.obj ms) = true)
    (hfence : containsSub (dumpsV (.obj ms)) fence3 = false) :
    JSONParser.parse_response (String.mk
      (fenceJson ++ '\n' :: (dumpsV (.obj ms) ++ '\n' :: fence3))) =
      .ok (.obj ms) := by
  have hD : dumpsV (.obj ms) =
      ('\x7b' :: dumpsMems ms) ++ ['\x7d'] := rfl
  have hcons : fenceJson ++ '\n' :: (dumpsV (.obj ms) ++ '\n' :: fence3) =
      '`' :: '`' :: '`' :: 'j' :: 's' :: 'o' :: 'n' :: '\n' ::
        (dumpsV (.obj ms) ++ '\n' :: fence3) := rfl
  have htl : (String.mk
      (fenceJson ++ '\n' :: (dumpsV (.obj ms) ++ '\n' :: fence3))).toList =
      fenceJson ++ '\n' :: (dumpsV (.obj ms) ++ '\n' :: fence3) := rfl
  have hL : pyLstripL
      (fenceJson ++ '\n' :: (dumpsV (.obj ms) ++ '\n' :: fence3)) =
      fenceJson ++ '\n' :: (dumpsV (.obj ms) ++ '\n' :: fence3) := by
    rw [hcons]
    exact pyLstrip_cons_of _ _ (by decide)
  have hsplit : fenceJson ++ '\n' :: (dumpsV (.obj ms) ++ '\n' :: fence3) =
      (fenceJson ++ '\n' :: (dumpsV (.obj ms) ++ '\n' :: '`' :: ['`'])) ++
        ['`'] := by
    simp [fence3]
  have hRl : pyRstripL
      (fenceJson ++ '\n' :: (dumpsV (.obj ms) ++ '\n' :: fence3)) =
      fenceJson ++ '\n' :: (dumpsV (.obj ms) ++ '\n' :: fence3) := by
    rw [hsplit]
    exact pyRstrip_append_of _ _ (by decide)
  have hstrip : pyStripL
      (fenceJson ++ '\n' :: (dumpsV (.obj ms) ++ '\n' :: fence3)) =
      fenceJson ++ '\n' :: (dumpsV (.obj ms) ++ '\n' :: fence3) := by
    unfold pyStripL
    rw [hL, hRl]
  have hpre : fenceJson.isPrefixOf
      (fenceJson ++ '\n' :: (dumpsV (.obj ms) ++ '\n' :: fence3)) = true := by
    rw [hcons]
    simp [fenceJson, List.isPrefixOf]
  have hfind0 : findSub
      (fenceJson ++ '\n' :: (dumpsV (.obj ms) ++ '\n' :: fence3))
      fenceJson = some 0 := by
    conv_lhs => unfold findSub
    rw [if_pos hpre]
  have hcj : containsSub
      (fenceJson ++ '\n' :: (dumpsV (.obj ms) ++ '\n' :: fence3))
      fenceJson = true := by
    unfold containsSub
    rw [hfind0]
    rfl
  have hdrop : (fenceJson ++ '\n' ::
      (dumpsV (.obj ms) ++ '\n' :: fence3)).drop 7 =
      ('\n' :: dumpsV (.obj ms)) ++ '\n' :: fence3 := by
    rw [hcons]
    simp
  have hcnD : containsSub ('\n' :: dumpsV (.obj ms)) fence3 = false := by
    rw [containsSub_cons, hfence]
    simp [fence3, List.isPrefixOf]
  have hfsub : findSub (('\n' :: dumpsV (.obj ms)) ++ '\n' :: fence3)
      fence3 = some ((dumpsV (.obj ms)).length + 2) := by
    rw [findSub_mid_fence _ hcnD]
    simp
  have hfrom : findSubFrom
      (fenceJson ++ '\n' :: (dumpsV (.obj ms) ++ '\n' :: fence3))
      fence3 7 = some ((dumpsV (.obj ms)).length + 9) := by
    unfold findSubFrom
    rw [hdrop, hfsub]
    simp
  have hslice : sliceL
      (fenceJson ++ '\n' :: (dumpsV (.obj ms) ++ '\n' :: fence3)) 7
      ((dumpsV (.obj ms)).length + 9) =
      '\n' :: (dumpsV (.obj ms) ++ ['\n']) := by
    unfold sliceL
    rw [hdrop]
    rw [show (dumpsV (.obj ms)).length + 9 - 7 =
      ('\n' :: dumpsV (.obj ms)).length + 1 by simp]
    rw [List.take_append 1]
    simp [fence3]
  have hDn : dumpsV (.obj ms) ++ ['\n'] =
      '\x7b' :: (dumpsMems ms ++ ['\x7d'] ++ ['\n']) := by
    rw [hD]
    simp
  have hstripSlice : pyStripL ('\n' :: (dumpsV (.obj ms) ++ ['\n'])) =
      dumpsV (.obj ms) := by
    unfold pyStripL
    rw [pyLstrip_ws_cons _ _ (by decide), hDn]
    rw [pyLstrip_cons_of _ _ (by decide), ← hDn,
      pyRstrip_append_ws _ _ (by decide)]
    rw [hD]
    exact pyRstrip_append_of _ _ (by decide)
  have hfs : fenceStrip
      (fenceJson ++ '\n' :: (dumpsV (.obj ms) ++ '\n' :: fence3)) =
      dumpsV (.obj ms) := by
    unfold fenceStrip
    rw [if_pos hcj]
    dsimp only
    rw [hfind0]
    rw [show (some 0).getD 0 + 7 = 7 from rfl]
    rw [hfrom]
    dsimp only
    rw [if_pos (by omega)]
    rw [hslice, hstripSlice]
  refine parse_response_clean_obj _ ms hwf ?_ ?_
  · rw [htl, hstrip, hcons]
    simp
  · rw [htl, hstrip, hfs]

/-- The mapping `{"a": "```json x ``` y"}` whose serialization embeds a
markdown fence inside a string value. -/
def fencedStrObj : JMems := .cons "a" (.str "```json x ``` y") .nil

/-- C5 (counterexample): the round-trip fails for a mapping whose
serialized form contains a markdown fence inside a string value —
`parse_response(json.dumps({"a": "```json x ``` y"}))` raises the
generic "No valid JSON object found" error instead of returning the
mapping, because fence stripping cuts the text at the backticks before
any brace is searched. -/
theorem parse_response_roundtrip_counterexample :
    JSONParser.parse_response (String.mk (dumpsV (.obj fencedStrObj))) =
      .error .noJsonFound := rfl

/-- C5 (amended): for every well-formed mapping whose serialization
contains no triple-backtick fence, `parse_response` returns the mapping
both on the bare serialization and on the serialization wrapped in a
`"```json\n" … "\n```"` markdown fence. -/
theorem parse_response_roundtrip (ms : JMems)
    (hwf : JVal.wfB (.obj ms) = true)
    (hfence : containsSub (dumpsV (.obj ms)) fence3 = false) :
    JSONParser.parse_response (String.mk (dumpsV (.obj ms))) =
      .ok (.obj ms) ∧
    JSONParser.parse_response (String.mk
      (fenceJson ++ '\n' :: (dumpsV (.obj ms) ++ '\n' :: fence3))) =
      .ok (.obj ms) :=
  ⟨parse_response_dumps_obj ms hwf hfence,
   parse_response_dumps_obj_fenced ms hwf hfence⟩

/-- Witness for `parse_response_roundtrip` at the mapping
`{"a": "b"}`. -/
theorem parse_response_roundtrip_witness :
    JSONParser.parse_response (String.mk
      (dumpsV (.obj (.cons "a" (.str "b") .nil)))) =
      .ok (.obj (.cons "a" (.str "b") .nil)) ∧
    JSONParser.parse_response (String.mk
      (fenceJson ++ '\n' :: (dumpsV (.obj (.cons "a" (.str "b") .nil)) ++
        '\n' :: fence3))) =
      .ok (.obj (.cons "a" (.str "b") .nil)) :=
  parse_response_roundtrip (.cons "a" (.str "b") .nil)
    (by decide) (by decide)

/-! ## The LangGraph workflow steps
(`src/packages/analysis/psx_analysis/financial_analysis/langgraph/workflow_steps/`
and `src/financial/langgraph/workflow_steps/`)

The pipeline state is the `AnalysisState` TypedDict; its fixed keys
become structure fields, with `PVal` for the dict-or-None-valued ones.
The `token_usage` entry only ever holds the shape
`{"steps": {...}, "cumulative": {prompt_tokens, completion_tokens,
total_tokens}}` built by the orchestrator and the steps, so it is
embedded as the structure `TokenState`.  LLM calls go through an
oracle (`LLMOracle`) mapping the call arguments to the parsed response
and its token usage, or to a raised exception; `traceback.format_exc()`
is an ambient string `tb` passed alongside.  `StateManager.save_state`
writes a file; each `execute` returns the list of
`(step_name, state)` snapshots it saved, in order. -/

/-- A `{prompt_tokens, completion_tokens, total_tokens}` dict. -/
structure TokenUsage where
  prompt_tokens : Int
  completion_tokens : Int
  total_tokens : Int
  deriving DecidableEq, Repr

/-- One entry of `token_usage["steps"]`: the raw usage dict, plus the
`"model"` key the Analyze step adds to its copy. -/
structure StepTokens where
  usage : TokenUsage
  model : Option String
  deriving DecidableEq, Repr

/-- The `token_usage` entry of the state. -/
structure TokenState where
  steps : List (String × StepTokens)
  cumulative : TokenUsage
  deriving DecidableEq, Repr

/-- Dict assignment on the `steps` mapping. -/
def setStep (l : List (String × StepTokens)) (k : String)
    (v : StepTokens) : List (String × StepTokens) :=
  match l with
  | [] => [(k, v)]
  | (k0, v0) :: rest =>
      if k0 = k then (k0, v) :: rest else (k0, v0) :: setStep rest k v

/-- Lookup on the `steps` mapping. -/
def getStep (l : List (String × StepTokens)) (k : String) :
    Option StepTokens :=
  match l with
  | [] => none
  | (k0, v0) :: rest => if k0 = k then some v0 else getStep rest k

/-- The zeroed `token_usage` value the steps (and the orchestrator)
initialize. -/
def initTokenState : TokenState :=
  { steps := []
    cumulative := { prompt_tokens := 0, completion_tokens := 0,
                    total_tokens := 0 } }

/-- `ModelConfig`: the two environment-derived default model names
(`os.getenv` with the `openai/…` fallbacks) are parameters of the
embedding. -/
structure EnvConfig where
  DEFAULT_EXTRACTION_MODEL : String
  DEFAULT_ANALYSIS_MODEL : String

namespace ModelConfig

/-- `ModelConfig.GEMINI_MODELS`. -/
def GEMINI_MODELS : List String :=
  ["google/gemini-3-pro-preview", "google/gemini-3-flash-preview"]

/-- `ModelConfig.is_multimodal_model`. -/
def is_multimodal_model (model : String) : Bool :=
  model ∈ GEMINI_MODELS

/-- `ModelConfig.get_extraction_model`. -/
def get_extraction_model (cfg : EnvConfig) (user_model : Option String) :
    String :=
  match user_model with
  | some m => if m ≠ "" ∧ m ≠ "auto" then m
      else cfg.DEFAULT_EXTRACTION_MODEL
  | none => cfg.DEFAULT_EXTRACTION_MODEL

/-- `ModelConfig.get_analysis_model`. -/
def get_analysis_model (cfg : EnvConfig) (user_model : Option String) :
    String :=
  match user_model with
  | some m => if m ≠ "" ∧ m ≠ "auto" then m
      else cfg.DEFAULT_ANALYSIS_MODEL
  | none => cfg.DEFAULT_ANALYSIS_MODEL

end ModelConfig

/-- The LLM boundary: `LLMHelper.call_llm_with_json_response` and
`call_llm_with_pdf` as maps from the call arguments (system prompt,
user prompt, model — and the PDF path for the multimodal call) to the
parsed JSON response with its token usage, or a raised
`LLMAnalysisError`. -/
structure LLMOracle where
  callJson : String → String → String → Except PyErr (PVal × TokenUsage)
  callPdf : String → String → String → String →
    Except PyErr (PVal × TokenUsage)

/-- `AnalysisState` (`state.py`): the TypedDict keys as fields.
Optional dict-shaped entries are `PVal`s (`vNone` standing for both an
absent key and an explicit `None`, as every access goes through
`state.get`). -/
structure AState where
  pdf_text : String
  pdf_path : Option String
  stock_price : PVal
  currency : String
  extracted_data : PVal
  calculated_metrics : PVal
  validation_results : PVal
  analysis_results : PVal
  final_report : PVal
  errors : List String
  extraction_model : Option String
  analysis_model : Option String
  token_usage : Option TokenState
  user_profile : Option PDict
  stock_page_context : PVal
  deriving Repr

/-- The error string `_handle_errors` builds:
`f"{errPrefix}{type(error).__name__}: {str(error)}"` plus the
traceback line. -/
def handleErrMsg (errPrefix : String) (e : PyErr) (tb : String) :
    String :=
  errPrefix ++ e.name ++ ": " ++ e.msg ++ "\nTraceback: " ++ tb

/-- `PVal.isDict` (`isinstance(v, dict)`). -/
def PVal.isDict : PVal → Bool
  | .vDict _ => true
  | _ => false

/-- `PVal.isStr` (`isinstance(v, str)`). -/
def PVal.isStr : PVal → Bool
  | .vStr _ => true
  | _ => false

/-- `PVal.isList` (`isinstance(v, list)`). -/
def PVal.isList : PVal → Bool
  | .vList _ => true
  | _ => false

/-- `d.get(k, default)`. -/
def PDict.getOr (d : PDict) (key : String) (default : PVal) : PVal :=
  (d.get? key).getD default

/-- Python `a or b` on values. -/
def pyOr (a b : PVal) : PVal := if a.truthy then a else b

/-- `ZeroDivisionError`. -/
def zeroDivErr : PyErr :=
  { name := "ZeroDivisionError", msg := "division by zero" }

/-- Binary numeric operator: `TypeError` on non-numeric operands
(Python `bool` counts as numeric). -/
def pyArith (f : ℚ → ℚ → ℚ) (a b : PVal) : Except PyErr PVal :=
  match a.toNum?, b.toNum? with
  | some x, some y => .ok (.vNum (f x y))
  | _, _ => .error typeError

/-- `a + b`. -/
def pyAdd : PVal → PVal → Except PyErr PVal := pyArith (· + ·)

/-- `a - b`. -/
def pySub : PVal → PVal → Except PyErr PVal := pyArith (· - ·)

/-- `a * b`. -/
def pyMul : PVal → PVal → Except PyErr PVal := pyArith (· * ·)

/-- `a / b`, raising `ZeroDivisionError` on a zero divisor. -/
def pyDiv (a b : PVal) : Except PyErr PVal :=
  match a.toNum?, b.toNum? with
  | some x, some y =>
      if y = 0 then .error zeroDivErr else .ok (.vNum (x / y))
  | _, _ => .error typeError

/-- `abs(a)`. -/
def pyAbs (a : PVal) : Except PyErr PVal :=
  match a.toNum? with
  | some x => .ok (.vNum |x|)
  | none => .error typeError

/-- `v > 0`: `TypeError` on a non-numeric operand. -/
def pyGt0 (v : PVal) : Except PyErr Bool :=
  match v.toNum? with
  | some q => .ok (0 < q)
  | none => .error typeError

/-- `v != 0`: equality never raises; every non-number differs from
`0`. -/
def pyNe0 (v : PVal) : Bool :=
  match v.toNum? with
  | some q => q ≠ 0
  | none => true

/-- A short-circuit `cond₁ and … and condₙ and (v > 0)` guard: the
Boolean conjuncts are evaluated first, then the comparison (which may
raise). -/
def pyAndGt0 (conds : List Bool) (v : PVal) : Except PyErr Bool :=
  if conds.all id then pyGt0 v else .ok false

/-- Round half to even, as Python `format` does on exact halves. -/
def roundHalfEven (q : ℚ) : Int :=
  let fl := ⌊q⌋
  let frac := q - fl
  if frac < 1/2 then fl
  else if 1/2 < frac then fl + 1
  else if fl % 2 = 0 then fl else fl + 1

/-- Insert `,` thousands separators into a digit list. -/
def groupDigitsRev : List Char → List Char
  | a :: b :: c :: d :: rest => a :: b :: c :: ',' :: groupDigitsRev (d :: rest)
  | l => l

/-- `format(q, ",.pf")` / `format(q, ".pf")`: fixed-point rendering
with half-even rounding and optional thousands grouping.  The argument
is the ℚ standing for the Python float. -/
def formatFixed (prec : Nat) (comma : Bool) (q : ℚ) : String :=
  let scaled := q * ((10 : ℚ) ^ prec)
  let n := roundHalfEven scaled
  let m := n.natAbs
  let digits := natDigits (m / 10 ^ prec)
  let intPart := if comma then (groupDigitsRev digits.reverse).reverse
    else digits
  let fracDigits := (natDigits (m % 10 ^ prec + 10 ^ prec)).drop 1
  let sign := if q < 0 then "-" else ""
  if prec = 0 then sign ++ String.mk intPart
  else sign ++ String.mk intPart ++ "." ++ String.mk fracDigits

/-- `format(value, spec)` on a state value: numbers format, anything
else raises (`ValueError` for `str`, as CPython does). -/
def pyFormatV (prec : Nat) (comma : Bool) (v : PVal) :
    Except PyErr String :=
  match v.toNum? with
  | some q => .ok (formatFixed prec comma q)
  | none => .error (PyErr.mk "ValueError"
      "Unknown format code 'f' for object of type 'str'")

/-- Langchain prompt-template substitution: `{name}` is replaced from
the context, `{{`/`}}` are literal braces. -/
def fmtTemplateGo : Nat → List Char → List (String × String) → List Char
  | 0, s, _ => s
  | fuel + 1, s, ctx =>
    match s with
    | [] => []
    | c :: t =>
      if c = '\x7b' then
        if t.head? = some '\x7b' then
          '\x7b' :: fmtTemplateGo fuel t.tail ctx
        else
          let nm := t.takeWhile (· ≠ '\x7d')
          let rest := (t.dropWhile (· ≠ '\x7d')).tail
          (((ctx.lookup (String.mk nm)).getD "").toList) ++
            fmtTemplateGo fuel rest ctx
      else if c = '\x7d' then
        if t.head? = some '\x7d' then
          '\x7d' :: fmtTemplateGo fuel t.tail ctx
        else '\x7d' :: fmtTemplateGo fuel t ctx
      else c :: fmtTemplateGo fuel t ctx

/-- `ChatPromptTemplate.format_messages(**ctx)` over one message. -/
def fmtTemplate (s : String) (ctx : List (String × String)) : String :=
  String.mk (fmtTemplateGo s.toList.length s.toList ctx)

/-- Indentation padding. -/
def pad (n : Nat) : List Char := List.replicate n ' '

/-- `json.dumps` of a number: integers as numerals; the ℚ standing for
a non-integral Python float keeps the `qRepr` rendering used
throughout this embedding. -/
def pNumDumps (q : ℚ) : List Char :=
  if q.den = 1 then dumpsInt q.num else (qRepr q).toList

mutual

/-- `json.dumps(v, indent=2)` over the state-value universe, at the
given current indentation. -/
def pDumpsV (ind : Nat) : PVal → List Char
  | .vNone => ['n', 'u', 'l', 'l']
  | .vBool true => ['t', 'r', 'u', 'e']
  | .vBool false => ['f', 'a', 'l', 's', 'e']
  | .vNum q => pNumDumps q
  | .vStr s => '"' :: escList s.toList ++ ['"']
  | .vList .nil => ['[', ']']
  | .vList xs => '[' :: '\n' :: pad (ind + 2) ++ pDumpsL (ind + 2) xs ++
      '\n' :: pad ind ++ [']']
  | .vDict .nil => ['\x7b', '\x7d']
  | .vDict d => '\x7b' :: '\n' :: pad (ind + 2) ++ pDumpsD (ind + 2) d ++
      '\n' :: pad ind ++ ['\x7d']

/-- List elements, separated by `",\n" + pad`. -/
def pDumpsL (ind : Nat) : PList → List Char
  | .nil => []
  | .cons v .nil => pDumpsV ind v
  | .cons v rest =>
      pDumpsV ind v ++ ',' :: '\n' :: pad ind ++ pDumpsL ind rest

/-- Dict members, separated by `",\n" + pad`. -/
def pDumpsD (ind : Nat) : PDict → List Char
  | .nil => []
  | .cons k v .nil =>
      '"' :: escList k.toList ++ '"' :: ':' :: ' ' :: pDumpsV ind v
  | .cons k v rest =>
      '"' :: escList k.toList ++ '"' :: ':' :: ' ' :: pDumpsV ind v ++
        ',' :: '\n' :: pad ind ++ pDumpsD ind rest

end

/-- `json.dumps(v, indent=2)`. -/
def pDumps2 (v : PVal) : String := String.mk (pDumpsV 0 v)

/-- `s.replace("{", "{{").replace("}", "}}")`. -/
def escBraces (s : String) : String :=
  String.mk (s.toList.flatMap fun c =>
    if c = '\x7b' then ['\x7b', '\x7b']
    else if c = '\x7d' then ['\x7d', '\x7d'] else [c])

/-- `s.lower()` (ASCII, as the checked substrings are ASCII). -/
def pyLower (s : String) : String := String.mk (s.toList.map Char.toLower)

/-- `sub in s` on strings. -/
def strContains (s sub : String) : Bool :=
  containsSub s.toList sub.toList

/-- `str(type(v))`.  (The ℚ number model renders integral values as
`int`.) -/
def pyTypeStr : PVal → String
  | .vNone => "<class 'NoneType'>"
  | .vBool _ => "<class 'bool'>"
  | .vNum q => if q.den = 1 then "<class 'int'>" else "<class 'float'>"
  | .vStr _ => "<class 'str'>"
  | .vList _ => "<class 'list'>"
  | .vDict _ => "<class 'dict'>"

/-- A `PList` from a Lean list. -/
def plistOf : List PVal → PList
  | [] => .nil
  | v :: rest => .cons v (plistOf rest)

namespace CalculateStep

/-- `CalculateStep._calculate_share_metrics`. -/
def calculate_share_metrics (extracted : PDict) (calculated : PDict)
    (stock_price : PVal) : Except PyErr PDict := do
  let calculated ←
    if extracted.contains "shares_outstanding" = false ∨
        extracted.getD "shares_outstanding" = .vNone then do
      let net_income := extracted.getD "net_income"
      let eps := extracted.getD "eps"
      let c ← pyAndGt0 [net_income.truthy, eps.truthy] eps
      if c then do
        let v ← pyDiv net_income eps
        pure (calculated.set "shares_outstanding" v)
      else pure calculated
    else pure calculated
  let shares_outstanding := pyOr (extracted.getD "shares_outstanding")
    (calculated.getD "shares_outstanding")
  let calculated ←
    if stock_price.truthy && shares_outstanding.truthy then do
      let v ← pyMul stock_price shares_outstanding
      pure (calculated.set "market_cap" v)
    else pure calculated
  let calculated ←
    if extracted.contains "book_value_per_share" = false ∨
        extracted.getD "book_value_per_share" = .vNone then do
      let shareholders_equity := extracted.getD "shareholders_equity"
      let c ← pyAndGt0 [shareholders_equity.truthy,
        shares_outstanding.truthy] shares_outstanding
      if c then do
        let v ← pyDiv shareholders_equity shares_outstanding
        pure (calculated.set "book_value_per_share" v)
      else pure calculated
    else pure calculated
  pure calculated

/-- The `revenue` unwrapping shared by the helpers: the `current`
entry when the extracted `revenue` is a dict, the raw value
otherwise. -/
def revenueOf (revenue_data : PVal) : PVal :=
  match revenue_data with
  | .vDict d => d.getD "current"
  | v => v

/-- `CalculateStep._calculate_valuation_metrics`. -/
def calculate_valuation_metrics (extracted : PDict) (calculated : PDict)
    (stock_price : PVal) : Except PyErr PDict := do
  let calculated ← do
    let eps := extracted.getD "eps"
    let b ← pyAndGt0 [stock_price.truthy, eps.truthy] eps
    if b then do
      let v ← pyDiv stock_price eps
      pure (calculated.set "pe_ratio" v)
    else pure calculated
  let book_value := pyOr (extracted.getD "book_value_per_share")
    (calculated.getD "book_value_per_share")
  let calculated ← do
    let c ← pyAndGt0 [stock_price.truthy, book_value.truthy] book_value
    if c then do
      let v ← pyDiv stock_price book_value
      pure (calculated.set "pb_ratio" v)
    else pure calculated
  let market_cap := calculated.getD "market_cap"
  let revenue := revenueOf (extracted.getD "revenue")
  let calculated ←
    do
      let c ← pyAndGt0 [market_cap.truthy, revenue.truthy] revenue
      if c then do
        let v ← pyDiv market_cap revenue
        pure (calculated.set "ps_ratio" v)
      else pure calculated
  let ebitda := extracted.getD "ebitda"
  let cash := extracted.getD "cash"
  let total_debt := extracted.getD "total_debt"
  let calculated ←
    do
      let c ← pyAndGt0 [market_cap.truthy, total_debt.truthy,
        decide (cash ≠ .vNone), ebitda.truthy] ebitda
      if c then do
        let s1 ← pyAdd market_cap total_debt
        let ev ← pySub s1 cash
        let v ← pyDiv ev ebitda
        pure (calculated.set "ev_ebitda" v)
      else pure calculated
  let free_cash_flow := extracted.getD "free_cash_flow"
  let calculated ←
    do
      let c ← pyAndGt0 [free_cash_flow.truthy, market_cap.truthy]
        market_cap
      if c then do
        let d ← pyDiv free_cash_flow market_cap
        let v ← pyMul d (.vNum 100)
        pure (calculated.set "fcf_yield" v)
      else pure calculated
  pure calculated

/-- `CalculateStep._calculate_growth_metrics`. -/
def calculate_growth_metrics (extracted : PDict) (calculated : PDict) :
    Except PyErr PDict := do
  let calculated ←
    match extracted.getD "revenue" with
    | .vDict d => do
        let revenue_current := d.getD "current"
        let revenue_previous := d.getD "previous"
        let c ← pyAndGt0 [revenue_current.truthy,
          revenue_previous.truthy] revenue_previous
        if c then do
          let diff ← pySub revenue_current revenue_previous
          let q ← pyDiv diff revenue_previous
          let v ← pyMul q (.vNum 100)
          pure (calculated.set "revenue_growth_pct" v)
        else pure calculated
    | _ => pure calculated
  let net_income := extracted.getD "net_income"
  let net_income_previous := extracted.getD "net_income_previous"
  let c ← pyAndGt0 [net_income.truthy, net_income_previous.truthy]
    net_income_previous
  if c then do
    let diff ← pySub net_income net_income_previous
    let q ← pyDiv diff net_income_previous
    let v ← pyMul q (.vNum 100)
    pure (calculated.set "net_income_growth_pct" v)
  else pure calculated

/-- `CalculateStep._calculate_health_metrics`. -/
def calculate_health_metrics (extracted : PDict) (calculated : PDict)
    (stock_price : PVal) : Except PyErr PDict := do
  let _ := stock_price
  let net_income := extracted.getD "net_income"
  let shareholders_equity := extracted.getD "shareholders_equity"
  let calculated ← do
    let c ← pyAndGt0 [net_income.truthy, shareholders_equity.truthy]
      shareholders_equity
    if c then do
      let q ← pyDiv net_income shareholders_equity
      let v ← pyMul q (.vNum 100)
      pure (calculated.set "roe" v)
    else pure calculated
  let total_assets := extracted.getD "total_assets"
  let calculated ← do
    let c ← pyAndGt0 [net_income.truthy, total_assets.truthy] total_assets
    if c then do
      let q ← pyDiv net_income total_assets
      let v ← pyMul q (.vNum 100)
      pure (calculated.set "roa" v)
    else pure calculated
  let total_debt := extracted.getD "total_debt"
  let calculated ← do
    let c ← pyAndGt0 [total_debt.truthy, shareholders_equity.truthy]
      shareholders_equity
    if c then do
      let v ← pyDiv total_debt shareholders_equity
      pure (calculated.set "debt_to_equity" v)
    else pure calculated
  let current_assets := extracted.getD "current_assets"
  let current_liabilities := extracted.getD "current_liabilities"
  let calculated ← do
    let c ← pyAndGt0 [current_assets.truthy, current_liabilities.truthy]
      current_liabilities
    if c then do
      let v ← pyDiv current_assets current_liabilities
      pure (calculated.set "current_ratio" v)
    else pure calculated
  let calculated ←
    if current_assets.truthy && current_liabilities.truthy then do
      let v ← pySub current_assets current_liabilities
      pure (calculated.set "working_capital" v)
    else pure calculated
  let operating_income := extracted.getD "operating_income"
  let revenue := revenueOf (extracted.getD "revenue")
  let calculated ← do
    let c ← pyAndGt0 [operating_income.truthy, revenue.truthy] revenue
    if c then do
      let q ← pyDiv operating_income revenue
      let v ← pyMul q (.vNum 100)
      pure (calculated.set "operating_margin" v)
    else pure calculated
  let calculated ← do
    let c ← pyAndGt0 [net_income.truthy, revenue.truthy] revenue
    if c then do
      let q ← pyDiv net_income revenue
      let v ← pyMul q (.vNum 100)
      pure (calculated.set "net_margin" v)
    else pure calculated
  let capex := extracted.getD "capital_expenditures"
  let calculated ← do
    let c ← pyAndGt0 [capex.truthy, revenue.truthy] revenue
    if c then do
      let a ← pyAbs capex
      let q ← pyDiv a revenue
      let v ← pyMul q (.vNum 100)
      pure (calculated.set "capex_pct_revenue" v)
    else pure calculated
  let dividends_paid := extracted.getD "dividends_paid"
  let calculated ← do
    let c ← pyAndGt0 [dividends_paid.truthy, net_income.truthy] net_income
    if c then do
      let q ← pyDiv dividends_paid net_income
      let v ← pyMul q (.vNum 100)
      pure (calculated.set "payout_ratio" v)
    else pure calculated
  let free_cash_flow := extracted.getD "free_cash_flow"
  let calculated ←
    if dividends_paid.truthy && free_cash_flow.truthy &&
        pyNe0 free_cash_flow then do
      let a ← pyAbs dividends_paid
      let v ← pyDiv free_cash_flow a
      pure (calculated.set "fcf_coverage" v)
    else pure calculated
  let cash := extracted.getD "cash"
  let shares_outstanding := pyOr (extracted.getD "shares_outstanding")
    (calculated.getD "shares_outstanding")
  let calculated ← do
    let c ← pyAndGt0 [cash.truthy, shares_outstanding.truthy]
      shares_outstanding
    if c then do
      let v ← pyDiv cash shares_outstanding
      pure (calculated.set "cash_per_share" v)
    else pure calculated
  let calculated ← do
    let c ← pyAndGt0 [total_debt.truthy, total_assets.truthy] total_assets
    if c then do
      let v ← pyDiv total_debt total_assets
      pure (calculated.set "debt_to_assets" v)
    else pure calculated
  let accounts_receivable := extracted.getD "accounts_receivable"
  let calculated ← do
    let c ← pyAndGt0 [decide (accounts_receivable ≠ .vNone),
      current_liabilities.truthy] current_liabilities
    if c then do
      let quick_assets ←
        if cash.truthy then pyAdd cash accounts_receivable
        else pure accounts_receivable
      let v ← pyDiv quick_assets current_liabilities
      pure (calculated.set "quick_ratio" v)
    else pure calculated
  let cogs := extracted.getD "cogs"
  let calculated ← do
    let c ← pyAndGt0 [decide (cogs ≠ .vNone), revenue.truthy] revenue
    if c then do
      let diff ← pySub revenue cogs
      let q ← pyDiv diff revenue
      let v ← pyMul q (.vNum 100)
      pure (calculated.set "gross_margin_pct" v)
    else pure calculated
  let interest_expense := extracted.getD "interest_expense"
  let c ← pyAndGt0 [operating_income.truthy, interest_expense.truthy]
    interest_expense
  if c then do
    let v ← pyDiv operating_income interest_expense
    pure (calculated.set "interest_coverage" v)
  else pure calculated

/-- `CalculateStep.execute`: early (unsaved) returns on missing or
non-dict extraction data; otherwise the four helper computations with
shared error handling, then the `"02_calculate"` snapshot. -/
def execute (s : AState) (tb : String) : AState × List (String × AState) :=
  if s.extracted_data = .vNone then
    let s' := { s with
      errors := s.errors ++
        ["Cannot calculate metrics: extraction data is None"],
      calculated_metrics := .vDict .nil }
    (s', [])
  else
    match s.extracted_data with
    | .vDict extracted =>
        let stock_price := s.stock_price
        let r : Except PyErr PDict := do
          let calculated : PDict := .nil
          let calculated ←
            calculate_share_metrics extracted calculated stock_price
          let calculated ←
            calculate_valuation_metrics extracted calculated stock_price
          let calculated ← calculate_growth_metrics extracted calculated
          let calculated ←
            calculate_health_metrics extracted calculated stock_price
          pure calculated
        match r with
        | .ok calculated =>
            let s' := { s with calculated_metrics := .vDict calculated }
            (s', [("02_calculate", s')])
        | .error e =>
            let s' := { s with
              errors := s.errors ++
                [handleErrMsg "Calculation error: " e tb],
              calculated_metrics := .vDict .nil }
            (s', [("02_calculate", s')])
    | _ =>
        let s' := { s with
          errors := s.errors ++
            ["Cannot calculate metrics: extraction data is not a dict (got " ++
              pyTypeStr s.extracted_data ++ ")"],
          calculated_metrics := .vDict .nil }
        (s', [])

end CalculateStep

/-- The `{is_valid, errors, warnings}` dict `validate_all` returns, as
a state value. -/
def vresToP (r : FinancialMetricsValidator.VResult) : PVal :=
  .vDict (.cons "is_valid" (.vBool r.is_valid)
    (.cons "errors" (.vList (plistOf (r.errors.map fun p =>
      .vDict (.cons "field" (.vStr p.1)
        (.cons "message" (.vStr p.2) .nil)))))
    (.cons "warnings" (.vList (plistOf (r.warnings.map fun p =>
      .vDict (.cons "field" (.vStr p.1)
        (.cons "message" (.vStr p.2) .nil)))))
    .nil)))

namespace ValidateStep

/-- `ValidateStep.execute`: early (unsaved) return on missing or
non-dict extraction data; otherwise `{**extracted, **calculated}` fed
to `validate_all`, with shared error handling, then the
`"03_validate"` snapshot. -/
def execute (s : AState) (tb : String) : AState × List (String × AState) :=
  let calculated := pyOr s.calculated_metrics (.vDict .nil)
  if s.extracted_data = .vNone ∨ s.extracted_data.isDict = false then
    let s' := { s with
      errors := s.errors ++
        ["Cannot validate: extraction data is None or invalid"],
      validation_results := .vDict (.cons "is_valid" (.vBool false)
        (.cons "errors" (.vList (.cons (.vStr "No data to validate") .nil))
        (.cons "warnings" (.vList .nil) .nil))) }
    (s', [])
  else
    let r : Except PyErr PVal := do
      match s.extracted_data, calculated with
      | .vDict e, .vDict c =>
          let validation_data := e.merge c
          let (_, result) ←
            FinancialMetricsValidator.validate_all ⟨[], []⟩ validation_data
          pure (vresToP result)
      | _, _ => .error typeError
    match r with
    | .ok vres =>
        let s' := { s with validation_results := vres }
        (s', [("03_validate", s')])
    | .error e =>
        let s' := { s with
          errors := s.errors ++
            [handleErrMsg "Validation error: " e tb],
          validation_results := .vDict .nil }
        (s', [("03_validate", s')])

end ValidateStep

/-- The three prompt files `PromptManager` loads. -/
structure PromptsCfg where
  system_prompt : String
  extraction_prompt : String
  analysis_prompt : String

/-- `LLMHelper.call_llm_with_json_response`: template-format the two
prompts with the optional state context, then call the API. -/
def call_llm_with_json_response (oracle : LLMOracle)
    (system_prompt_content user_prompt_content model : String)
    (state_context : List (String × String)) :
    Except PyErr (PVal × TokenUsage) :=
  oracle.callJson (fmtTemplate system_prompt_content state_context)
    (fmtTemplate user_prompt_content state_context) model

/-- `LLMHelper.call_llm_with_pdf`. -/
def call_llm_with_pdf (oracle : LLMOracle)
    (pdf_path system_prompt_content user_prompt_content model : String)
    (state_context : List (String × String)) :
    Except PyErr (PVal × TokenUsage) :=
  oracle.callPdf pdf_path (fmtTemplate system_prompt_content state_context)
    (fmtTemplate user_prompt_content state_context) model

/-- `Option[str]` truthiness (`None` and `""` are falsy). -/
def optStrTruthy : Option String → Bool
  | none => false
  | some s => s ≠ ""

namespace ExtractStep

/-- The tail of the text-extraction user prompt (`extract_step.py`,
the f-string after `{stock_price_str}`; `{{…}}` leaves literal
`{delimiter}`/`{pdf_text}` placeholders for the template pass). -/
def textTaskBlock : String :=
  "\n\n\x7bdelimiter\x7d\nEXTRACTED FINANCIAL STATEMENT TEXT (PDF has already been converted to text):\n\x7bdelimiter\x7d\n\n\x7bpdf_text\x7d\n\n\x7bdelimiter\x7d\nEND OF EXTRACTED TEXT\n\x7bdelimiter\x7d\n\n**YOUR TASK:**\nExtract all financial data from the text above and return it as a valid JSON object matching the required schema.\n\n**CRITICAL REQUIREMENTS:**\n1. Return ONLY valid JSON - no markdown code blocks, no explanations, no additional text\n2. Use numbers (not strings) for all monetary values\n3. Use null for missing values (never use 0 or empty string as placeholder)\n4. Search ALL sections: Income Statement, Balance Sheet, Cash Flow Statement, Notes\n5. Extract exact values as stated in the document - do not estimate or calculate unless explicitly instructed\n\nReturn the JSON object now:"

/-- The PDF-extraction user prompt tail (`_extract_with_pdf`). -/
def pdfTaskBlock : String :=
  "\n\n**YOUR TASK:**\nExtract all financial data from the PDF document and return it as a valid JSON object matching the required schema.\n\n**CRITICAL REQUIREMENTS:**\n1. Return ONLY valid JSON - no markdown code blocks, no explanations, no additional text\n2. Use numbers (not strings) for all monetary values\n3. Use null for missing values (never use 0 or empty string as placeholder)\n4. Search ALL sections: Income Statement, Balance Sheet, Cash Flow Statement, Notes\n5. Extract exact values as stated in the document - do not estimate or calculate unless explicitly instructed\n6. Read the PDF carefully - look for tables, financial statements, and numerical data\n\nReturn the JSON object now:"

/-- The Gemini fallback loop of `_extract_with_pdf`: try each model,
remembering the last failure (the `429`/`quota` test only changes the
log line; both arms continue). -/
def tryGeminiModels (oracle : LLMOracle)
    (pdf_path system_prompt user_prompt : String) :
    List String → Option PyErr → Except PyErr (PVal × TokenUsage)
  | [], some e => .error (PyErr.mk "LLMAnalysisError"
      ("All Gemini models failed for PDF extraction. Last error: " ++
        e.msg))
  | [], none => .error (PyErr.mk "LLMAnalysisError"
      "No Gemini models available for PDF extraction")
  | model :: rest, last =>
      let _ := last
      match call_llm_with_pdf oracle pdf_path system_prompt user_prompt
          model [] with
      | .ok r => .ok r
      | .error e =>
          let error_str := pyLower e.msg
          if strContains error_str "429" || strContains error_str "quota"
          then tryGeminiModels oracle pdf_path system_prompt user_prompt
            rest (some e)
          else tryGeminiModels oracle pdf_path system_prompt user_prompt
            rest (some e)

/-- `ExtractStep._extract_with_pdf`. -/
def extract_with_pdf (oracle : LLMOracle)
    (pdf_path system_prompt_content extraction_prompt_content
      stock_price_str : String) (preferred_model : Option String) :
    Except PyErr (PVal × TokenUsage) :=
  let user_prompt_content :=
    extraction_prompt_content ++ stock_price_str ++ pdfTaskBlock
  let preferredTry : Option (Except PyErr (PVal × TokenUsage)) :=
    match preferred_model with
    | some pm =>
        if optStrTruthy (some pm) && ModelConfig.is_multimodal_model pm
        then
          match call_llm_with_pdf oracle pdf_path system_prompt_content
              user_prompt_content pm [] with
          | .ok r => some (.ok r)
          | .error _ => none
        else none
    | none => none
  match preferredTry with
  | some r => r
  | none => tryGeminiModels oracle pdf_path system_prompt_content
      user_prompt_content ModelConfig.GEMINI_MODELS none

/-- `ExtractStep.execute`. -/
def execute (cfg : EnvConfig) (pm : PromptsCfg) (oracle : LLMOracle)
    (s : AState) (tb : String) : AState × List (String × AState) :=
  let r : Except PyErr AState := do
    let system_prompt_content :=
      PromptManager.load_system_prompt pm.system_prompt none
    let extraction_prompt_content := pm.extraction_prompt
    let stock_price_str ←
      if s.stock_price.truthy then do
        let fmtted ← pyFormatV 2 true s.stock_price
        let price_str :=
          if s.currency ≠ "" then s.currency ++ " " ++ fmtted else fmtted
        pure ("\n\n**Current Stock Price: " ++ price_str ++ "**")
      else pure ""
    let pdf_path := s.pdf_path
    let pdf_text := s.pdf_text
    let user_extraction_model := s.extraction_model
    let extraction_model :=
      ModelConfig.get_extraction_model cfg user_extraction_model
    let is_multimodal := ModelConfig.is_multimodal_model extraction_model
    let (extracted_data, token_usage) ←
      if optStrTruthy pdf_path &&
          (is_multimodal || pdf_text = "" ||
            decide ((pyStripL pdf_text.toList).length < 100)) then
        extract_with_pdf oracle (pdf_path.getD "") system_prompt_content
          extraction_prompt_content stock_price_str
          (if is_multimodal then some extraction_model else none)
      else
        let user_prompt_content :=
          extraction_prompt_content ++ stock_price_str ++ textTaskBlock
        call_llm_with_json_response oracle system_prompt_content
          user_prompt_content extraction_model
          [("pdf_text", pdf_text),
           ("delimiter", String.mk (List.replicate 80 '='))]
    let extracted_data :=
      if extracted_data.isDict then extracted_data else .vDict .nil
    let d := match extracted_data with
      | .vDict d => d
      | _ => .nil
    let dividend_statements := d.getD "dividend_statements"
    let dividend_statements :=
      if dividend_statements.isList then dividend_statements
      else .vList .nil
    let d := d.set "dividend_statements" dividend_statements
    let investor_statements := d.getD "investor_statements"
    let investor_statements :=
      if investor_statements.isList then investor_statements
      else .vList .nil
    let d := d.set "investor_statements" investor_statements
    let tu0 := match s.token_usage with
      | none => initTokenState
      | some t => t
    let tu1 : TokenState :=
      { steps := setStep tu0.steps "extract"
          { usage := token_usage, model := none }
        cumulative :=
          { prompt_tokens :=
              tu0.cumulative.prompt_tokens + token_usage.prompt_tokens
            completion_tokens :=
              tu0.cumulative.completion_tokens +
                token_usage.completion_tokens
            total_tokens :=
              tu0.cumulative.total_tokens + token_usage.total_tokens } }
    pure { s with extracted_data := .vDict d, token_usage := some tu1 }
  match r with
  | .ok s' => (s', [("01_extract", s')])
  | .error e =>
      let s' := { s with
        errors := s.errors ++ [handleErrMsg "Extraction error: " e tb],
        extracted_data := .vDict .nil }
      (s', [("01_extract", s')])

end ExtractStep

namespace AnalyzeStep

/-- `", ".join(f"{k}: {v:,.0f}" | "{k}: N/A" for items)` of one
annual/quarterly metrics dict. -/
def metricsLine (metrics : PDict) : Except PyErr String := do
  let parts ← metrics.foldr
    (fun k v acc => do
      let acc ← acc
      let txt ←
        if v = .vNone then pure (k ++ ": N/A")
        else do
          let f ← pyFormatV 0 true v
          pure (k ++ ": " ++ f)
      pure (txt :: acc))
    (pure [])
  pure (String.intercalate ", " parts)

/-- `ratio_labels` of `_build_stock_page_context_string`. -/
def ratioLabel (k : String) : String :=
  if k = "peg" then "PEG (Price/Earnings to Growth)"
  else if k = "eps_growth" then "EPS Growth"
  else if k = "net_profit_margin" then "Net Profit Margin"
  else if k = "gross_profit_margin" then "Gross Profit Margin"
  else k

/-- The ratios line: `"{label}: {v:.2f}"` with `N/A` for `None`. -/
def ratiosLine (metrics : PDict) : Except PyErr String := do
  let parts ← metrics.foldr
    (fun k v acc => do
      let acc ← acc
      let txt ←
        if v = .vNone then pure (ratioLabel k ++ ": N/A")
        else do
          let f ← pyFormatV 2 false v
          pure (ratioLabel k ++ ": " ++ f)
      pure (txt :: acc))
    (pure [])
  pure (String.intercalate ", " parts)

/-- `.items()` on a value fetched with `.get(k, {})`: non-dicts raise
`AttributeError` when iterated with `.items()`/`.keys()`. -/
def asDict (v : PVal) : Except PyErr PDict :=
  match v with
  | .vDict d => .ok d
  | _ => .error (PyErr.mk "AttributeError" "object has no attribute")

/-- Descending string sort (`sorted(keys, reverse=True)`). -/
def sortedRev (l : List String) : List String :=
  l.mergeSort fun a b => decide (b ≤ a)

/-- One block of `_build_stock_page_context_string` (annual or
quarterly): header plus the four most recent periods. -/
def periodBlock (header : String) (d : PDict) :
    Except PyErr (List String) := do
  if (PVal.vDict d).truthy then
    let periods := (sortedRev d.keys).take 4
    let lines ← periods.foldr
      (fun period acc => do
        let acc ← acc
        let metrics ← asDict (d.getD period)
        let line ← metricsLine metrics
        pure (("  " ++ period ++ ": " ++ line) :: acc))
      (pure [])
    pure (header :: lines)
  else pure []

/-- `AnalyzeStep._build_stock_page_context_string`. -/
def build_stock_page_context_string (s : AState) :
    Except PyErr String := do
  let stock_page_context := s.stock_page_context
  if stock_page_context.truthy = false then pure ""
  else do
    let ctx ← asDict stock_page_context
    let context_parts :=
      ["\n\n**PSX Stock Page Financial Data (Capital Stake):**"]
    let annual ← asDict (ctx.getOr "annual_financials" (.vDict .nil))
    let annualLines ← periodBlock "\n**Annual Financials (000's):**" annual
    let quarterly ←
      asDict (ctx.getOr "quarterly_financials" (.vDict .nil))
    let quarterlyLines ←
      periodBlock "\n**Quarterly Financials (000's):**" quarterly
    let ratios ← asDict (ctx.getOr "ratios" (.vDict .nil))
    let ratioLines ←
      if (PVal.vDict ratios).truthy then do
        let years := (sortedRev ratios.keys).take 4
        let lines ← years.foldr
          (fun year acc => do
            let acc ← acc
            let year_ratios ← asDict (ratios.getD year)
            let line ← ratiosLine year_ratios
            pure (("  " ++ year ++ ": " ++ line) :: acc))
          (pure [])
        pure ("\n**Financial Ratios (%):**" :: lines)
      else pure []
    let context_parts := context_parts ++ annualLines ++ quarterlyLines ++
      ratioLines ++
      ["\n**Use this validated data as primary reference for financial analysis.**"]
    pure (String.intercalate "\n" context_parts)

/-- `AnalyzeStep.execute`. -/
def execute (cfg : EnvConfig) (pm : PromptsCfg) (oracle : LLMOracle)
    (s : AState) (tb : String) : AState × List (String × AState) :=
  let r : Except PyErr AState := do
    let user_profile := s.user_profile
    let system_prompt_content :=
      PromptManager.load_system_prompt pm.system_prompt user_profile
    let analysis_prompt_content :=
      PromptManager.load_analysis_prompt pm.analysis_prompt user_profile
    let extracted := match s.extracted_data with
      | .vDict d => d
      | _ => .nil
    let calculated := match s.calculated_metrics with
      | .vDict d => d
      | _ => .nil
    let dividend_statements := extracted.getD "dividend_statements"
    let dividend_statements :=
      if dividend_statements.isList then dividend_statements
      else .vList .nil
    let investor_statements := extracted.getD "investor_statements"
    let investor_statements :=
      if investor_statements.isList then investor_statements
      else .vList .nil
    let extracted_json_str := escBraces (pDumps2 (.vDict extracted))
    let calculated_json_str := escBraces (pDumps2 (.vDict calculated))
    let statements_context :=
      if dividend_statements.truthy || investor_statements.truthy then
        "\n\n**CRITICAL: Investor Statements from Extraction:**\n" ++
        (if dividend_statements.truthy then
          "dividend_statements: " ++ pDumps2 dividend_statements ++ "\n"
         else "") ++
        (if investor_statements.truthy then
          "investor_statements: " ++ pDumps2 investor_statements ++ "\n"
         else "") ++
        "\n**You MUST incorporate these statements into your analysis.**"
      else ""
    let stock_page_context ← build_stock_page_context_string s
    let user_prompt_content :=
      analysis_prompt_content ++ "\n\nExtracted Data:\n" ++
      extracted_json_str ++ "\n\nCalculated Metrics:\n" ++
      calculated_json_str ++ statements_context ++ stock_page_context ++
      "\n\nProvide investor-focused analysis as structured JSON. Return ONLY valid JSON, no additional text."
    let user_analysis_model := s.analysis_model
    let analysis_model :=
      ModelConfig.get_analysis_model cfg user_analysis_model
    let (analysis_results, token_usage) ←
      call_llm_with_json_response oracle system_prompt_content
        user_prompt_content analysis_model []
    let tu0 := match s.token_usage with
      | none => initTokenState
      | some t => t
    let tu1 : TokenState :=
      { steps := setStep tu0.steps "analyze"
          { usage := token_usage, model := some analysis_model }
        cumulative :=
          { prompt_tokens :=
              tu0.cumulative.prompt_tokens + token_usage.prompt_tokens
            completion_tokens :=
              tu0.cumulative.completion_tokens +
                token_usage.completion_tokens
            total_tokens :=
              tu0.cumulative.total_tokens + token_usage.total_tokens } }
    pure { s with
      analysis_results := analysis_results
      token_usage := some tu1 }
  match r with
  | .ok s' => (s', [("04_analyze", s')])
  | .error e =>
      let s' := { s with
        errors := s.errors ++ [handleErrMsg "Analysis error: " e tb],
        analysis_results := .vDict .nil }
      (s', [("04_analyze", s')])

end AnalyzeStep

namespace FormatStep

/-- `FormatStep._format_metric`: `"- {label}: {format_str.format(value)}{suffix}"`
with the `N/A` fallback for `None`.  The three format strings the call
sites use (`"{:.2f}"`, `"{:,.0f}"`, `"{:.3f}"`) are passed as their
precision and grouping flags. -/
def format_metric (label : String) (value : PVal)
    (prec : Nat := 2) (comma : Bool := false) (suffix : String := "") :
    Except PyErr (List String) := do
  if value ≠ .vNone then do
    let f ← pyFormatV prec comma value
    pure ["- " ++ label ++ ": " ++ f ++ suffix]
  else
    pure ["- " ++ label ++ ": N/A"]

/-- `FormatStep._format_list_section`. -/
def format_list_section (title : String) (items : PVal) : List String :=
  if items.truthy && items.isList && items.truthy then
    let rec go : PList → List String
      | .nil => []
      | .cons item rest =>
          (if item.truthy && item.isStr &&
              decide (pyStripL (pyStr item).toList ≠ []) then
            match item with
            | .vStr s => ["- " ++ s]
            | _ => []
          else []) ++ go rest
    match items with
    | .vList xs => (title ++ ":") :: go xs ++ [""]
    | _ => []
  else []

/-- `FormatStep._format_company_info`. -/
def format_company_info (extracted : PDict) : List String :=
  ["COMPANY INFORMATION:",
   "- Company Name: " ++
     pyStr (extracted.getOr "company_name" (.vStr "N/A")),
   "- Fiscal Year: " ++
     pyStr (extracted.getOr "fiscal_year" (.vStr "N/A")),
   "- Currency: " ++ pyStr (extracted.getOr "currency" (.vStr "N/A")),
   ""]

/-- `FormatStep._format_business_model`. -/
def format_business_model (extracted : PDict) : List String :=
  let business_model := extracted.getOr "business_model" (.vList .nil)
  if business_model.truthy = false ∨ business_model.isList = false then
    []
  else
    let rec go : PList → List String
      | .nil => []
      | .cons segment rest =>
          (match segment with
           | .vDict d =>
               if (d.getD "name").truthy && (d.getD "description").truthy
               then ["- " ++ pyStr (d.getD "name") ++ ": " ++
                 pyStr (d.getD "description")]
               else []
           | _ => []) ++ go rest
    match business_model with
    | .vList xs => ("BUSINESS MODEL:" :: go xs) ++ [""]
    | _ => []

/-- `FormatStep._format_growth_metrics`. -/
def format_growth_metrics (calculated : PDict) :
    Except PyErr (List String) := do
  let l1 ← format_metric "Revenue Growth"
    (calculated.getD "revenue_growth_pct") 2 false "%"
  let l2 ← format_metric "Net Income Growth"
    (calculated.getD "net_income_growth_pct") 2 false "%"
  pure (["GROWTH METRICS:"] ++ l1 ++ l2 ++ [""])

/-- `.get(k, default)` on an arbitrary value: non-dicts raise
`AttributeError`. -/
def pyGetAttr (v : PVal) (k : String) (default : PVal) :
    Except PyErr PVal :=
  match v with
  | .vDict d => .ok (d.getOr k default)
  | _ => .error (PyErr.mk "AttributeError" "object has no attribute")

/-- `FormatStep._format_investment_analysis`. -/
def format_investment_analysis (extracted : PDict) (analysis : PDict) :
    Except PyErr (List String) := do
  let inv_analysis := analysis.getOr "investment_analysis" (.vDict .nil)
  let capex ← pyGetAttr inv_analysis "capex_pct_revenue" (.vStr "N/A")
  let trend ← pyGetAttr inv_analysis "investment_trend" (.vStr "N/A")
  pure ["INVESTMENT ANALYSIS:",
    "- Capital Expenditures: " ++
      pyStr (extracted.getOr "capital_expenditures" (.vStr "N/A")),
    "- CapEx as % of Revenue: " ++ pyStr capex ++ "%",
    "- Investment Trend: " ++ pyStr trend,
    "- EPS (Latest): " ++ pyStr (extracted.getOr "eps" (.vStr "N/A")),
    ""]

/-- `FormatStep._format_dividend_analysis`. -/
def format_dividend_analysis (extracted : PDict) (analysis : PDict) :
    Except PyErr (List String) := do
  let div_analysis := analysis.getOr "dividend_analysis" (.vDict .nil)
  let payout ← pyGetAttr div_analysis "payout_ratio" (.vStr "N/A")
  let fcfcov ← pyGetAttr div_analysis "fcf_coverage" (.vStr "N/A")
  let strategy ← pyGetAttr div_analysis "strategy" (.vStr "N/A")
  let head := ["DIVIDEND ANALYSIS:",
    "- Dividends Paid: " ++
      pyStr (extracted.getOr "dividends_paid" (.vStr "N/A")),
    "- Payout Ratio: " ++ pyStr payout ++ "%",
    "- FCF Coverage: " ++ pyStr fcfcov ++ "x",
    "- Strategy: " ++ pyStr strategy]
  let dividend_statements ←
    pyGetAttr div_analysis "dividend_statements" (.vList .nil)
  let stmts :=
    if dividend_statements.truthy then
      "" :: format_list_section "Dividend Policy Statements"
        dividend_statements
    else []
  let dividend_explanation ←
    pyGetAttr div_analysis "dividend_explanation" .vNone
  let expl :=
    if dividend_explanation.truthy && dividend_explanation.isStr &&
        decide (pyStripL (pyStr dividend_explanation).toList ≠ []) then
      ["", "Dividend Explanation: " ++ pyStr dividend_explanation]
    else []
  pure (head ++ stmts ++ expl ++ [""])

/-- `FormatStep._format_valuation_metrics`. -/
def format_valuation_metrics (extracted calculated analysis : PDict) :
    Except PyErr (List String) := do
  let val_metrics := analysis.getOr "valuation_metrics" (.vDict .nil)
  let pe ← pyGetAttr val_metrics "pe_ratio" (.vStr "N/A")
  let book_value := pyOr (extracted.getD "book_value_per_share")
    (calculated.getD "book_value_per_share")
  let bv ← format_metric "Book Value per Share" book_value
  let pb ← pyGetAttr val_metrics "pb_ratio" (.vStr "N/A")
  let ps ← format_metric "P/S Ratio" (calculated.getD "ps_ratio")
  let ev ← pyGetAttr val_metrics "ev_ebitda" (.vStr "N/A")
  let fcfy ← pyGetAttr val_metrics "fcf_yield" (.vStr "N/A")
  pure (["VALUATION METRICS:", "- P/E Ratio: " ++ pyStr pe] ++ bv ++
    ["- P/B Ratio: " ++ pyStr pb] ++ ps ++
    ["- EPS: " ++ pyStr (extracted.getOr "eps" (.vStr "N/A")),
     "- EV/EBITDA: " ++ pyStr ev,
     "- FCF Yield: " ++ pyStr fcfy ++ "%", ""])

/-- `FormatStep._format_financial_health`. -/
def format_financial_health (calculated : PDict) :
    Except PyErr (List String) := do
  let l1 ← format_metric "Working Capital"
    (calculated.getD "working_capital") 0 true
  let l2 ← format_metric "Cash per Share"
    (calculated.getD "cash_per_share")
  let l3 ← format_metric "Debt-to-Assets Ratio"
    (calculated.getD "debt_to_assets") 3
  let l4 ← format_metric "Quick Ratio" (calculated.getD "quick_ratio")
  let l5 ← format_metric "Gross Margin"
    (calculated.getD "gross_margin_pct") 2 false "%"
  let l6 ← format_metric "Interest Coverage"
    (calculated.getD "interest_coverage") 2 false "x"
  pure (["FINANCIAL HEALTH:"] ++ l1 ++ l2 ++ l3 ++ l4 ++ l5 ++ l6 ++ [""])

/-- `FormatStep._format_initiatives`. -/
def format_initiatives (analysis : PDict) : List String :=
  let new_initiatives := analysis.getOr "new_initiatives" (.vList .nil)
  if new_initiatives.truthy then
    format_list_section "NEW INITIATIVES" new_initiatives
  else []

/-- `FormatStep._format_summary`: a truthy non-string summary would
make the final `"\n".join` raise; the embedding surfaces that
`TypeError` here. -/
def format_summary (analysis : PDict) : Except PyErr (List String) := do
  let summary := analysis.getOr "investor_summary" (.vStr "")
  if summary.truthy then
    match summary with
    | .vStr s => pure ["INVESTOR SUMMARY:", s, ""]
    | _ => .error typeError
  else pure []

/-- `FormatStep._format_red_flags`. -/
def format_red_flags (analysis : PDict) : List String :=
  let red_flags := analysis.getOr "red_flags" (.vList .nil)
  if red_flags.truthy then format_list_section "RED FLAGS" red_flags
  else []

/-- `FormatStep._format_investor_statements`. -/
def format_investor_statements (extracted : PDict) : List String :=
  let investor_statements :=
    extracted.getOr "investor_statements" (.vList .nil)
  if investor_statements.truthy then
    format_list_section "KEY INVESTOR STATEMENTS" investor_statements
  else []

/-- `FormatStep._format_investment_growth_areas`. -/
def format_investment_growth_areas (analysis : PDict) : List String :=
  let growth_areas := analysis.getOr "investment_growth_areas" (.vList .nil)
  if growth_areas.truthy then
    format_list_section "INVESTMENT & GROWTH AREAS" growth_areas
  else []

/-- `FormatStep._format_holding_focus_areas`. -/
def format_holding_focus_areas (analysis : PDict) : List String :=
  let company_type := analysis.getD "company_type"
  if company_type ≠ .vStr "holding" ∧ company_type ≠ .vStr "mixed" then []
  else
    let focus_areas := analysis.getOr "holding_focus_areas" (.vList .nil)
    if focus_areas.truthy then
      format_list_section "HOLDING COMPANY FOCUS AREAS" focus_areas
    else []

/-- `FormatStep._format_loss_causing_areas`. -/
def format_loss_causing_areas (extracted : PDict) (analysis : PDict) :
    List String :=
  let _ := extracted
  let loss_areas := analysis.getOr "loss_causing_areas" (.vList .nil)
  if loss_areas.truthy then
    format_list_section "LOSS-CAUSING AREAS" loss_areas
  else []

/-- The report body: the fourteen `_format_*` blocks in source
order. -/
def reportLines (extracted calculated analysis : PDict) :
    Except PyErr (List String) := do
  let growth ← format_growth_metrics calculated
  let invAn ← format_investment_analysis extracted analysis
  let divAn ← format_dividend_analysis extracted analysis
  let valMet ← format_valuation_metrics extracted calculated analysis
  let finHealth ← format_financial_health calculated
  let summary ← format_summary analysis
  pure (format_company_info extracted ++
    format_business_model extracted ++
    format_investor_statements extracted ++
    format_investment_growth_areas analysis ++
    format_holding_focus_areas analysis ++
    format_loss_causing_areas extracted analysis ++
    growth ++ invAn ++ divAn ++ valMet ++ finHealth ++
    format_initiatives analysis ++ summary ++
    format_red_flags analysis)

/-- `FormatStep.execute`. -/
def execute (s : AState) (tb : String) : AState × List (String × AState) :=
  let extracted := match pyOr s.extracted_data (.vDict .nil) with
    | .vDict d => d
    | _ => .nil
  let calculated := match pyOr s.calculated_metrics (.vDict .nil) with
    | .vDict d => d
    | _ => .nil
  let analysis := match pyOr s.analysis_results (.vDict .nil) with
    | .vDict d => d
    | _ => .nil
  match reportLines extracted calculated analysis with
  | .ok lines =>
      let s' := { s with
        final_report := .vStr (String.intercalate "\n" lines) }
      (s', [("05_format", s')])
  | .error e =>
      let s' := { s with
        errors := s.errors ++
          [handleErrMsg "Report formatting error: " e tb],
        final_report := .vStr "" }
      (s', [("05_format", s')])

end FormatStep

/-- The orchestrator's initial state (`analyzer.py`, `analyze`):
unset optional entries are absent/`None`, `errors` is empty and
`token_usage` is the zeroed dict. -/
def initial_state (pdf_text : String) (stock_price : PVal)
    (currency : String) : AState :=
  { pdf_text := pdf_text
    pdf_path := none
    stock_price := stock_price
    currency := currency
    extracted_data := .vNone
    calculated_metrics := .vNone
    validation_results := .vNone
    analysis_results := .vNone
    final_report := .vNone
    errors := []
    extraction_model := none
    analysis_model := none
    token_usage := some initTokenState
    user_profile := none
    stock_page_context := .vNone }

/-- A state with nothing set: every `state.get` yields its default. -/
def emptyAState : AState :=
  { pdf_text := ""
    pdf_path := none
    stock_price := .vNone
    currency := ""
    extracted_data := .vNone
    calculated_metrics := .vNone
    validation_results := .vNone
    analysis_results := .vNone
    final_report := .vNone
    errors := []
    extraction_model := none
    analysis_model := none
    token_usage := none
    user_profile := none
    stock_page_context := .vNone }

/-- C2 (counterexample): the Calculate step on a state whose
`extracted_data` is `None` appends its error and returns from inside
the `try` before `_save_state` runs — no `"02_calculate"` snapshot is
written, contradicting the claim that every step saves on every
path. -/
theorem calculate_save_skipped_counterexample :
    (CalculateStep.execute emptyAState "tb").2 = [] := rfl

/-- C2 (amended): Extract, Analyze and Format save their snapshot on
every path (success and failure alike), but Calculate and Validate
save exactly when the state's `extracted_data` is a dict — their
missing-data early returns skip `_save_state`. -/
theorem step_snapshot_saves (cfg : EnvConfig) (pm : PromptsCfg)
    (oracle : LLMOracle) (s : AState) (tb : String) :
    (ExtractStep.execute cfg pm oracle s tb).2 =
      [("01_extract", (ExtractStep.execute cfg pm oracle s tb).1)] ∧
    (AnalyzeStep.execute cfg pm oracle s tb).2 =
      [("04_analyze", (AnalyzeStep.execute cfg pm oracle s tb).1)] ∧
    (FormatStep.execute s tb).2 =
      [("05_format", (FormatStep.execute s tb).1)] ∧
    (CalculateStep.execute s tb).2 =
      (if s.extracted_data.isDict then
        [("02_calculate", (CalculateStep.execute s tb).1)] else []) ∧
    (ValidateStep.execute s tb).2 =
      (if s.extracted_data.isDict then
        [("03_validate", (ValidateStep.execute s tb).1)] else []) := by
  refine ⟨?_, ?_, ?_, ?_, ?_⟩
  · unfold ExtractStep.execute
    dsimp only
    split <;> rfl
  · unfold AnalyzeStep.execute
    dsimp only
    split <;> rfl
  · unfold FormatStep.execute
    repeat' split
    all_goals dsimp only
    all_goals split <;> rfl
  · unfold CalculateStep.execute
    rcases s.extracted_data with _ | b | q | st | xs | d <;>
      simp [PVal.isDict]
    split <;> rfl
  · unfold ValidateStep.execute
    rcases h : s.extracted_data with _ | b | q | st | xs | d <;>
      simp [PVal.isDict, h] <;> (try rfl) <;> split <;> rfl

theorem calculate_share_metrics_nil (sp : PVal) :
    CalculateStep.calculate_share_metrics .nil .nil sp = .ok .nil := by
  simp [CalculateStep.calculate_share_metrics, PDict.getD, PDict.get?,
    PDict.contains, pyOr, PVal.truthy, pyAndGt0, bind, Except.bind,
    pure, Except.pure]

theorem calculate_valuation_metrics_nil (sp : PVal) :
    CalculateStep.calculate_valuation_metrics .nil .nil sp = .ok .nil := by
  simp [CalculateStep.calculate_valuation_metrics, CalculateStep.revenueOf,
    PDict.getD, PDict.get?, pyOr, PVal.truthy, pyAndGt0, bind,
    Except.bind, pure, Except.pure]

theorem calculate_growth_metrics_nil :
    CalculateStep.calculate_growth_metrics .nil .nil = .ok .nil := by
  simp [CalculateStep.calculate_growth_metrics, PDict.getD, PDict.get?,
    PVal.truthy, pyAndGt0, bind, Except.bind, pure, Except.pure]

theorem calculate_health_metrics_nil (sp : PVal) :
    CalculateStep.calculate_health_metrics .nil .nil sp = .ok .nil := by
  simp [CalculateStep.calculate_health_metrics, CalculateStep.revenueOf,
    PDict.getD, PDict.get?, pyOr, PVal.truthy, pyAndGt0, pyNe0, bind,
    Except.bind, pure, Except.pure]

/-- The state the Extract step leaves after its LLM call raised. -/
theorem extract_fail_state (cfg : EnvConfig) (pm : PromptsCfg)
    (oracle : LLMOracle) (s : AState) (tb : String) (err : PyErr)
    (hpdf : s.pdf_path = none) (hsp : s.stock_price = .vNone)
    (hfail : ∀ sys usr m, oracle.callJson sys usr m = .error err) :
    ExtractStep.execute cfg pm oracle s tb =
      (let s' := { s with
        errors := s.errors ++ [handleErrMsg "Extraction error: " err tb]
        extracted_data := .vDict .nil }
       (s', [("01_extract", s')])) := by
  unfold ExtractStep.execute
  dsimp only
  rw [hsp, hpdf]
  simp only [PVal.truthy, optStrTruthy, Bool.false_and,
    Bool.false_eq_true, if_false, pure, Except.pure, bind, Except.bind]
  unfold call_llm_with_json_response
  rw [hfail]

/-- C3: when the Extract LLM call raises, the state carries exactly one
error entry (the "Extraction error: " message), `extracted_data`
becomes the empty dict, and the Calculate step still runs without
raising, leaving `calculated_metrics = {}` and adding no further
error. -/
theorem extract_failure_isolation (cfg : EnvConfig) (pm : PromptsCfg)
    (oracle : LLMOracle) (s : AState) (tb : String) (err : PyErr)
    (herr : s.errors = []) (hpdf : s.pdf_path = none)
    (hsp : s.stock_price = .vNone)
    (hfail : ∀ sys usr m, oracle.callJson sys usr m = .error err) :
    (ExtractStep.execute cfg pm oracle s tb).1.errors =
      [handleErrMsg "Extraction error: " err tb] ∧
    (ExtractStep.execute cfg pm oracle s tb).1.extracted_data =
      .vDict .nil ∧
    (CalculateStep.execute (ExtractStep.execute cfg pm oracle s tb).1
      tb).1.errors = [handleErrMsg "Extraction error: " err tb] ∧
    (CalculateStep.execute (ExtractStep.execute cfg pm oracle s tb).1
      tb).1.calculated_metrics = .vDict .nil := by
  rw [extract_fail_state cfg pm oracle s tb err hpdf hsp hfail]
  dsimp only
  rw [herr]
  simp only [List.nil_append]
  refine ⟨trivial, trivial, ?_, ?_⟩ <;>
  · unfold CalculateStep.execute
    rw [if_neg (by simp)]
    dsimp only
    simp only [calculate_share_metrics_nil,
      calculate_valuation_metrics_nil, calculate_growth_metrics_nil,
      calculate_health_metrics_nil, bind, Except.bind, pure, Except.pure]

/-- Witness for `extract_failure_isolation`: a concrete always-failing
oracle on the empty state. -/
theorem extract_failure_isolation_witness :
    (ExtractStep.execute
      ⟨"m", "e"⟩ ⟨"s", "x", "a"⟩
      ⟨fun _ _ _ => .error ⟨"LLMAnalysisError", "boom"⟩,
       fun _ _ _ _ => .error ⟨"LLMAnalysisError", "boom"⟩⟩
      emptyAState "tb").1.errors =
      [handleErrMsg "Extraction error: " ⟨"LLMAnalysisError", "boom"⟩
        "tb"] ∧
    (ExtractStep.execute
      ⟨"m", "e"⟩ ⟨"s", "x", "a"⟩
      ⟨fun _ _ _ => .error ⟨"LLMAnalysisError", "boom"⟩,
       fun _ _ _ _ => .error ⟨"LLMAnalysisError", "boom"⟩⟩
      emptyAState "tb").1.extracted_data = .vDict .nil ∧
    (CalculateStep.execute (ExtractStep.execute
      ⟨"m", "e"⟩ ⟨"s", "x", "a"⟩
      ⟨fun _ _ _ => .error ⟨"LLMAnalysisError", "boom"⟩,
       fun _ _ _ _ => .error ⟨"LLMAnalysisError", "boom"⟩⟩
      emptyAState "tb").1 "tb").1.errors =
      [handleErrMsg "Extraction error: " ⟨"LLMAnalysisError", "boom"⟩
        "tb"] ∧
    (CalculateStep.execute (ExtractStep.execute
      ⟨"m", "e"⟩ ⟨"s", "x", "a"⟩
      ⟨fun _ _ _ => .error ⟨"LLMAnalysisError", "boom"⟩,
       fun _ _ _ _ => .error ⟨"LLMAnalysisError", "boom"⟩⟩
      emptyAState "tb").1 "tb").1.calculated_metrics = .vDict .nil :=
  extract_failure_isolation ⟨"m", "e"⟩ ⟨"s", "x", "a"⟩
    ⟨fun _ _ _ => .error ⟨"LLMAnalysisError", "boom"⟩,
     fun _ _ _ _ => .error ⟨"LLMAnalysisError", "boom"⟩⟩
    emptyAState "tb" ⟨"LLMAnalysisError", "boom"⟩
    rfl rfl rfl (fun _ _ _ => rfl)

theorem calculate_fields (s : AState) (tb : String) :
    ((CalculateStep.execute s tb).1).token_usage = s.token_usage ∧
    ((CalculateStep.execute s tb).1).stock_page_context =
      s.stock_page_context := by
  unfold CalculateStep.execute
  repeat' split
  all_goals dsimp only
  all_goals try split
  all_goals exact ⟨rfl, rfl⟩

theorem validate_fields (s : AState) (tb : String) :
    ((ValidateStep.execute s tb).1).token_usage = s.token_usage ∧
    ((ValidateStep.execute s tb).1).stock_page_context =
      s.stock_page_context := by
  unfold ValidateStep.execute
  repeat' split
  all_goals dsimp only
  all_goals try split
  all_goals exact ⟨rfl, rfl⟩

/-- The workflow prefix `extract → calculate → validate → analyze`
(the graph edges in `analyzer.py`), as far as token accounting is
concerned. -/
def runToAnalyze (cfg : EnvConfig) (pm : PromptsCfg) (oracle : LLMOracle)
    (s0 : AState) (tb : String) : AState :=
  (AnalyzeStep.execute cfg pm oracle
    (ValidateStep.execute
      (CalculateStep.execute
        (ExtractStep.execute cfg pm oracle s0 tb).1 tb).1 tb).1 tb).1

theorem build_stock_page_context_none (s : AState)
    (h : s.stock_page_context = .vNone) :
    AnalyzeStep.build_stock_page_context_string s = pure "" := by
  unfold AnalyzeStep.build_stock_page_context_string
  rw [h]
  rfl

theorem analyze_tokens (cfg : EnvConfig) (pm : PromptsCfg)
    (oracle : LLMOracle) (s : AState) (tb : String) (ts0 : TokenState)
    (hok : ∀ sys usr m, ∃ v t, oracle.callJson sys usr m = .ok (v, t))
    (hspc : s.stock_page_context = .vNone)
    (htu : s.token_usage = some ts0) :
    ∃ t2 model, (AnalyzeStep.execute cfg pm oracle s tb).1.token_usage =
      some { steps := setStep ts0.steps "analyze"
               { usage := t2, model := some model }
             cumulative :=
               { prompt_tokens :=
                   ts0.cumulative.prompt_tokens + t2.prompt_tokens
                 completion_tokens :=
                   ts0.cumulative.completion_tokens + t2.completion_tokens
                 total_tokens :=
                   ts0.cumulative.total_tokens + t2.total_tokens } } := by
  unfold AnalyzeStep.execute
  dsimp only
  rw [build_stock_page_context_none s hspc]
  simp only [pure, Except.pure, bind, Except.bind]
  unfold call_llm_with_json_response
  obtain ⟨v2, t2, h2⟩ := hok _ _ _
  rw [h2]
  dsimp only
  rw [htu]
  exact ⟨t2, _, rfl⟩

/-- C4: starting from the orchestrator's zeroed `token_usage`, after
Extract and Analyze both succeed (with Calculate and Validate in
between, which never touch `token_usage`), the cumulative counters
equal the sum of the per-step entries for `extract` and `analyze`, in
all three fields. -/
theorem token_accounting (cfg : EnvConfig) (pm : PromptsCfg)
    (oracle : LLMOracle) (pdf_text currency tb : String)
    (hok : ∀ sys usr m, ∃ v t, oracle.callJson sys usr m = .ok (v, t)) :
    ∃ ts eT aT,
      (runToAnalyze cfg pm oracle
        (initial_state pdf_text .vNone currency) tb).token_usage =
          some ts ∧
      getStep ts.steps "extract" = some eT ∧
      getStep ts.steps "analyze" = some aT ∧
      ts.cumulative.prompt_tokens =
        eT.usage.prompt_tokens + aT.usage.prompt_tokens ∧
      ts.cumulative.completion_tokens =
        eT.usage.completion_tokens + aT.usage.completion_tokens ∧
      ts.cumulative.total_tokens =
        eT.usage.total_tokens + aT.usage.total_tokens := by
  have hext : ∃ (s1 : AState) (ts1 : TokenState) (t1 : TokenUsage),
      (ExtractStep.execute cfg pm oracle
        (initial_state pdf_text .vNone currency) tb).1 = s1 ∧
      s1.token_usage = some ts1 ∧
      s1.stock_page_context = .vNone ∧
      ts1.steps = [("extract", { usage := t1, model := none })] ∧
      ts1.cumulative.prompt_tokens = t1.prompt_tokens ∧
      ts1.cumulative.completion_tokens = t1.completion_tokens ∧
      ts1.cumulative.total_tokens = t1.total_tokens := by
    unfold ExtractStep.execute
    dsimp only [initial_state]
    simp only [PVal.truthy, optStrTruthy, Bool.false_and,
      Bool.false_eq_true, if_false, pure, Except.pure, bind, Except.bind]
    unfold call_llm_with_json_response
    obtain ⟨v1, t1, h1⟩ := hok _ _ _
    rw [h1]
    dsimp only
    refine ⟨_, _, t1, rfl, rfl, rfl, rfl, ?_, ?_, ?_⟩ <;>
      simp [initTokenState, setStep]
  obtain ⟨s1, ts1, t1, he, htu1, hspc1, hsteps1, hp1, hc1, ht1⟩ := hext
  unfold runToAnalyze
  rw [he]
  have htu3 : (ValidateStep.execute
      (CalculateStep.execute s1 tb).1 tb).1.token_usage = some ts1 := by
    rw [(validate_fields _ _).1, (calculate_fields _ _).1, htu1]
  have hspc3 : (ValidateStep.execute
      (CalculateStep.execute s1 tb).1 tb).1.stock_page_context =
      .vNone := by
    rw [(validate_fields _ _).2, (calculate_fields _ _).2, hspc1]
  obtain ⟨t2, model, hA⟩ :=
    analyze_tokens cfg pm oracle _ tb ts1 hok hspc3 htu3
  refine ⟨_, { usage := t1, model := none },
    { usage := t2, model := some model }, hA, ?_, ?_, ?_, ?_, ?_⟩
  · rw [hsteps1]
    simp [setStep, getStep]
  · rw [hsteps1]
    simp [setStep, getStep]
  · dsimp only
    rw [hp1]
  · dsimp only
    rw [hc1]
  · dsimp only
    rw [ht1]

/-- Witness for `token_accounting` at a concrete always-succeeding
oracle. -/
theorem token_accounting_witness :
    ∃ ts eT aT,
      (runToAnalyze ⟨"m", "e"⟩ ⟨"s", "x", "a"⟩
        ⟨fun _ _ _ => .ok (.vDict .nil, ⟨10, 7, 17⟩),
         fun _ _ _ _ => .ok (.vDict .nil, ⟨10, 7, 17⟩)⟩
        (initial_state "text" .vNone "PKR") "tb").token_usage =
          some ts ∧
      getStep ts.steps "extract" = some eT ∧
      getStep ts.steps "analyze" = some aT ∧
      ts.cumulative.prompt_tokens =
        eT.usage.prompt_tokens + aT.usage.prompt_tokens ∧
      ts.cumulative.completion_tokens =
        eT.usage.completion_tokens + aT.usage.completion_tokens ∧
      ts.cumulative.total_tokens =
        eT.usage.total_tokens + aT.usage.total_tokens :=
  token_accounting ⟨"m", "e"⟩ ⟨"s", "x", "a"⟩
    ⟨fun _ _ _ => .ok (.vDict .nil, ⟨10, 7, 17⟩),
     fun _ _ _ _ => .ok (.vDict .nil, ⟨10, 7, 17⟩)⟩
    "text" "PKR" "tb" (fun _ _ _ => ⟨_, _, rfl⟩)

/-- The section headers that appear in every report, in order. -/
def fixedSectionHeaders : List String :=
  ["COMPANY INFORMATION:", "GROWTH METRICS:", "INVESTMENT ANALYSIS:",
   "DIVIDEND ANALYSIS:", "VALUATION METRICS:", "FINANCIAL HEALTH:"]

theorem growth_shape {c : PDict} {g : List String}
    (h : FormatStep.format_growth_metrics c = .ok g) :
    ∃ r, g = "GROWTH METRICS:" :: r := by
  unfold FormatStep.format_growth_metrics at h
  simp only [bind, Except.bind] at h
  rcases h1 : FormatStep.format_metric "Revenue Growth"
      (c.getD "revenue_growth_pct") 2 false "%" with e1 | l1 <;>
    rw [h1] at h
  · exact absurd h (by simp)
  rcases h2 : FormatStep.format_metric "Net Income Growth"
      (c.getD "net_income_growth_pct") 2 false "%" with e2 | l2 <;>
    rw [h2] at h
  · exact absurd h (by simp)
  simp only [pure, Except.pure, Except.ok.injEq] at h
  exact ⟨_, h.symm⟩

theorem inv_shape {e a : PDict} {g : List String}
    (h : FormatStep.format_investment_analysis e a = .ok g) :
    ∃ r, g = "INVESTMENT ANALYSIS:" :: r := by
  unfold FormatStep.format_investment_analysis at h
  simp only [bind, Except.bind] at h
  rcases h1 : FormatStep.pyGetAttr
      (a.getOr "investment_analysis" (.vDict .nil))
      "capex_pct_revenue" (.vStr "N/A") with e1 | v1 <;> rw [h1] at h
  · exact absurd h (by simp)
  rcases h2 : FormatStep.pyGetAttr
      (a.getOr "investment_analysis" (.vDict .nil))
      "investment_trend" (.vStr "N/A") with e2 | v2 <;> rw [h2] at h
  · exact absurd h (by simp)
  simp only [pure, Except.pure, Except.ok.injEq] at h
  exact ⟨_, h.symm⟩

theorem div_shape {e a : PDict} {g : List String}
    (h : FormatStep.format_dividend_analysis e a = .ok g) :
    ∃ r, g = "DIVIDEND ANALYSIS:" :: r := by
  unfold FormatStep.format_dividend_analysis at h
  simp only [bind, Except.bind] at h
  rcases h1 : FormatStep.pyGetAttr
      (a.getOr "dividend_analysis" (.vDict .nil))
      "payout_ratio" (.vStr "N/A") with e1 | v1 <;> rw [h1] at h
  · exact absurd h (by simp)
  rcases h2 : FormatStep.pyGetAttr
      (a.getOr "dividend_analysis" (.vDict .nil))
      "fcf_coverage" (.vStr "N/A") with e2 | v2 <;> rw [h2] at h
  · exact absurd h (by simp)
  rcases h3 : FormatStep.pyGetAttr
      (a.getOr "dividend_analysis" (.vDict .nil))
      "strategy" (.vStr "N/A") with e3 | v3 <;> rw [h3] at h
  · exact absurd h (by simp)
  rcases h4 : FormatStep.pyGetAttr
      (a.getOr "dividend_analysis" (.vDict .nil))
      "dividend_statements" (.vList .nil) with e4 | v4 <;> rw [h4] at h
  · exact absurd h (by simp)
  rcases h5 : FormatStep.pyGetAttr
      (a.getOr "dividend_analysis" (.vDict .nil))
      "dividend_explanation" .vNone with e5 | v5 <;> rw [h5] at h
  · exact absurd h (by simp)
  simp only [pure, Except.pure, Except.ok.injEq] at h
  exact ⟨_, h.symm⟩

theorem val_shape {e c a : PDict} {g : List String}
    (h : FormatStep.format_valuation_metrics e c a = .ok g) :
    ∃ r, g = "VALUATION METRICS:" :: r := by
  unfold FormatStep.format_valuation_metrics at h
  simp only [bind, Except.bind] at h
  rcases h1 : FormatStep.pyGetAttr
      (a.getOr "valuation_metrics" (.vDict .nil))
      "pe_ratio" (.vStr "N/A") with e1 | v1 <;> rw [h1] at h
  · exact absurd h (by simp)
  rcases h2 : FormatStep.format_metric "Book Value per Share"
      (pyOr (e.getD "book_value_per_share")
        (c.getD "book_value_per_share")) 2 false "" with e2 | l2 <;>
    rw [h2] at h
  · exact absurd h (by simp)
  rcases h3 : FormatStep.pyGetAttr
      (a.getOr "valuation_metrics" (.vDict .nil))
      "pb_ratio" (.vStr "N/A") with e3 | v3 <;> rw [h3] at h
  · exact absurd h (by simp)
  rcases h4 : FormatStep.format_metric "P/S Ratio"
      (c.getD "ps_ratio") 2 false "" with e4 | l4 <;> rw [h4] at h
  · exact absurd h (by simp)
  rcases h5 : FormatStep.pyGetAttr
      (a.getOr "valuation_metrics" (.vDict .nil))
      "ev_ebitda" (.vStr "N/A") with e5 | v5 <;> rw [h5] at h
  · exact absurd h (by simp)
  rcases h6 : FormatStep.pyGetAttr
      (a.getOr "valuation_metrics" (.vDict .nil))
      "fcf_yield" (.vStr "N/A") with e6 | v6 <;> rw [h6] at h
  · exact absurd h (by simp)
  simp only [pure, Except.pure, Except.ok.injEq] at h
  exact ⟨_, h.symm⟩

theorem health_shape {c : PDict} {g : List String}
    (h : FormatStep.format_financial_health c = .ok g) :
    ∃ r, g = "FINANCIAL HEALTH:" :: r ∧
      (c.getD "working_capital" = .vNone →
        "- Working Capital: N/A" ∈ g) := by
  unfold FormatStep.format_financial_health at h
  simp only [bind, Except.bind] at h
  rcases h1 : FormatStep.format_metric "Working Capital"
      (c.getD "working_capital") 0 true "" with e1 | l1 <;> rw [h1] at h
  · exact absurd h (by simp)
  rcases h2 : FormatStep.format_metric "Cash per Share"
      (c.getD "cash_per_share") 2 false "" with e2 | l2 <;> rw [h2] at h
  · exact absurd h (by simp)
  rcases h3 : FormatStep.format_metric "Debt-to-Assets Ratio"
      (c.getD "debt_to_assets") 3 false "" with e3 | l3 <;> rw [h3] at h
  · exact absurd h (by simp)
  rcases h4 : FormatStep.format_metric "Quick Ratio"
      (c.getD "quick_ratio") 2 false "" with e4 | l4 <;> rw [h4] at h
  · exact absurd h (by simp)
  rcases h5 : FormatStep.format_metric "Gross Margin"
      (c.getD "gross_margin_pct") 2 false "%" with e5 | l5 <;> rw [h5] at h
  · exact absurd h (by simp)
  rcases h6 : FormatStep.format_metric "Interest Coverage"
      (c.getD "interest_coverage") 2 false "x" with e6 | l6 <;> rw [h6] at h
  · exact absurd h (by simp)
  simp only [pure, Except.pure, Except.ok.injEq] at h
  refine ⟨_, h.symm, ?_⟩
  intro hwc
  have hl1 : l1 = ["- Working Capital: N/A"] := by
    unfold FormatStep.format_metric at h1
    rw [hwc] at h1
    simp only [ne_eq, not_true_eq_false, if_false, ite_false, if_neg,
      pure, Except.pure, Except.ok.injEq] at h1
    simp at h1
    exact h1.symm
  rw [← h, hl1]
  simp

theorem sublist_shift {α : Type} {l r : List α} (x : List α)
    (h : List.Sublist l r) : List.Sublist l (x ++ r) :=
  h.trans (List.sublist_append_right x r)

/-- C7 (amended): every successfully formatted report contains the six
unconditional section headers as an ordered sublist, and absent fields
inside those sections render as `N/A` lines rather than disappearing —
but (see the counterexample) the conditional sections do vary with the
data, so the overall shape is not fixed. -/
theorem format_report_shape (extracted calculated analysis : PDict)
    (lines : List String)
    (h : FormatStep.reportLines extracted calculated analysis =
      .ok lines) :
    List.Sublist fixedSectionHeaders lines ∧
    (extracted.contains "company_name" = false →
      "- Company Name: N/A" ∈ lines) ∧
    (calculated.getD "working_capital" = .vNone →
      "- Working Capital: N/A" ∈ lines) := by
  unfold FormatStep.reportLines at h
  simp only [bind, Except.bind] at h
  rcases hG : FormatStep.format_growth_metrics calculated
    with eG | G <;> rw [hG] at h
  · exact absurd h (by simp)
  rcases hIA : FormatStep.format_investment_analysis extracted analysis
    with eIA | IA <;> rw [hIA] at h
  · exact absurd h (by simp)
  rcases hDA : FormatStep.format_dividend_analysis extracted analysis
    with eDA | DA <;> rw [hDA] at h
  · exact absurd h (by simp)
  rcases hVM : FormatStep.format_valuation_metrics extracted calculated
      analysis with eVM | VM <;> rw [hVM] at h
  · exact absurd h (by simp)
  rcases hFH : FormatStep.format_financial_health calculated
    with eFH | FH <;> rw [hFH] at h
  · exact absurd h (by simp)
  rcases hSU : FormatStep.format_summary analysis with eSU | SU <;>
    rw [hSU] at h
  · exact absurd h (by simp)
  simp only [pure, Except.pure, Except.ok.injEq] at h
  subst h
  obtain ⟨ct, hC⟩ : ∃ ct, FormatStep.format_company_info extracted =
    "COMPANY INFORMATION:" :: ct := ⟨_, rfl⟩
  obtain ⟨gt, hGt⟩ := growth_shape hG
  obtain ⟨iat, hIAt⟩ := inv_shape hIA
  obtain ⟨dat, hDAt⟩ := div_shape hDA
  obtain ⟨vmt, hVMt⟩ := val_shape hVM
  obtain ⟨fht, hFHt, hFHna⟩ := health_shape hFH
  refine ⟨?_, ?_, ?_⟩
  · simp only [fixedSectionHeaders, List.append_assoc]
    rw [hC, hGt, hIAt, hDAt, hVMt, hFHt]
    rw [List.cons_append]
    refine List.cons_sublist_cons.mpr ?_
    refine sublist_shift ct ?_
    refine sublist_shift _ ?_
    refine sublist_shift _ ?_
    refine sublist_shift _ ?_
    refine sublist_shift _ ?_
    refine sublist_shift _ ?_
    rw [List.cons_append]
    refine List.cons_sublist_cons.mpr ?_
    refine sublist_shift gt ?_
    rw [List.cons_append]
    refine List.cons_sublist_cons.mpr ?_
    refine sublist_shift iat ?_
    rw [List.cons_append]
    refine List.cons_sublist_cons.mpr ?_
    refine sublist_shift dat ?_
    rw [List.cons_append]
    refine List.cons_sublist_cons.mpr ?_
    refine sublist_shift vmt ?_
    rw [List.cons_append]
    refine List.cons_sublist_cons.mpr ?_
    exact List.nil_sublist _
  · intro hcn
    have hget : extracted.get? "company_name" = none := by
      have := hcn
      unfold PDict.contains at this
      rcases hx : extracted.get? "company_name" with _ | v
      · rfl
      · rw [hx] at this
        simp at this
    have : "- Company Name: N/A" ∈
        FormatStep.format_company_info extracted := by
      simp [FormatStep.format_company_info, PDict.getOr, hget, pyStr]
    simp only [List.append_assoc, List.mem_append]
    exact Or.inl this
  · intro hwc
    have hmem := hFHna hwc
    simp only [List.append_assoc, List.mem_append]
    tauto

/-- A state whose analysis results carry only an investor summary. -/
def summaryState : AState :=
  { emptyAState with
    analysis_results := .vDict (.cons "investor_summary" (.vStr "ok") .nil) }

set_option maxRecDepth 8192 in
/-- C7 (counterexample): two input states that differ only in data
completeness produce reports with different sections — the
`INVESTOR SUMMARY:` section appears only when `investor_summary` is
present, so the report's shape does vary with the data. -/
theorem format_shape_counterexample :
    strContains (pyStr (FormatStep.execute emptyAState "tb").1.final_report)
      "INVESTOR SUMMARY:" = false ∧
    strContains (pyStr (FormatStep.execute summaryState "tb").1.final_report)
      "INVESTOR SUMMARY:" = true := ⟨rfl, rfl⟩

/-- The report lines of an entirely empty state. -/
def emptyReportLines : List String :=
  ["COMPANY INFORMATION:", "- Company Name: N/A", "- Fiscal Year: N/A",
   "- Currency: N/A", "",
   "GROWTH METRICS:", "- Revenue Growth: N/A",
   "- Net Income Growth: N/A", "",
   "INVESTMENT ANALYSIS:", "- Capital Expenditures: N/A",
   "- CapEx as % of Revenue: N/A%", "- Investment Trend: N/A",
   "- EPS (Latest): N/A", "",
   "DIVIDEND ANALYSIS:", "- Dividends Paid: N/A",
   "- Payout Ratio: N/A%", "- FCF Coverage: N/Ax", "- Strategy: N/A", "",
   "VALUATION METRICS:", "- P/E Ratio: N/A",
   "- Book Value per Share: N/A", "- P/B Ratio: N/A", "- P/S Ratio: N/A",
   "- EPS: N/A", "- EV/EBITDA: N/A", "- FCF Yield: N/A%", "",
   "FINANCIAL HEALTH:", "- Working Capital: N/A",
   "- Cash per Share: N/A", "- Debt-to-Assets Ratio: N/A",
   "- Quick Ratio: N/A", "- Gross Margin: N/A",
   "- Interest Coverage: N/A", ""]

/-- Witness for `format_report_shape` on the empty dicts. -/
theorem format_report_shape_witness :
    FormatStep.reportLines .nil .nil .nil = .ok emptyReportLines ∧
    List.Sublist fixedSectionHeaders emptyReportLines ∧
    "- Company Name: N/A" ∈ emptyReportLines ∧
    "- Working Capital: N/A" ∈ emptyReportLines :=
  ⟨rfl,
   (format_report_shape .nil .nil .nil emptyReportLines rfl).1,
   (format_report_shape .nil .nil .nil emptyReportLines rfl).2.1 rfl,
   (format_report_shape .nil .nil .nil emptyReportLines rfl).2.2 rfl⟩
